import Mathlib

/-!
# Payment controller of the wagering back end: deposits, withdrawals, cancellation, profile

Shallow embedding of `src/controllers/payment.controller.js` (the live code of the file,
lines 516-1058) and the properties of its balance-reservation workflow, and of the CORS
origin check of `src/server.js` (lines 26-115).

Modelling conventions.

* A JavaScript number is a `JsNum`: `NaN`, the two infinities, or a finite value held as an
  exact rational.  The handlers branch on `NaN` and on comparisons, which the model keeps;
  `JsNum.add` and `JsNum.sub` give the exact result of an operation on finite values.  The
  program holds the double nearest to that result: `roundDouble` is the rounding of IEEE-754
  (to nearest, ties to even) and `Store.toDouble` applies it to what a call leaves.  A
  property that needs `(b - a) + a = b` or the associativity of `+` is stated with that
  rounding in place.
* MongoDB collections are lists of documents in insertion order.  A new document receives an
  identifier that occurs nowhere in the store (`Store.freshId`), as ObjectIds do.
* A Mongoose session is a pair of stores: writes made with the session go to `staged`,
  `commitTransaction` installs `staged`, `abortTransaction` discards it.
* Each awaited storage call may reject; `Faults` says which ones do in a given run.
* The models `User`, `DepositRequest`, `WithdrawalRequest` and `Transaction` are not among the
  sources; their records carry the fields the controller reads and writes.
-/

namespace Garbet

/-! ## JavaScript values -/

/-- A JavaScript number: `NaN`, `-Infinity`, a finite value, or `Infinity`. -/
inductive JsNum where
  | nan
  | negInf
  | fin (q : ℚ)
  | posInf
  deriving DecidableEq

namespace JsNum

/-- The test `Number.isNaN`. -/
def isNaN : JsNum → Bool
  | nan => true
  | _ => false

/-- Truthiness of a number: `NaN` and `0` are falsy. -/
def truthy : JsNum → Bool
  | nan => false
  | fin q => decide (q ≠ 0)
  | _ => true

/-- Unary minus. -/
def neg : JsNum → JsNum
  | nan => nan
  | negInf => posInf
  | fin q => fin (-q)
  | posInf => negInf

/-- The operator `a + b` on numbers, before the result is rounded to a double: finite values
are added exactly. -/
def add : JsNum → JsNum → JsNum
  | nan, _ => nan
  | _, nan => nan
  | fin a, fin b => fin (a + b)
  | posInf, negInf => nan
  | negInf, posInf => nan
  | posInf, _ => posInf
  | _, posInf => posInf
  | negInf, _ => negInf
  | _, negInf => negInf

/-- The operator `a - b` on numbers, before the result is rounded to a double. -/
def sub (a b : JsNum) : JsNum := add a (neg b)

/-- The comparison `a < b`; false as soon as one side is `NaN`. -/
def lt : JsNum → JsNum → Bool
  | nan, _ => false
  | _, nan => false
  | fin a, fin b => decide (a < b)
  | negInf, negInf => false
  | negInf, _ => true
  | _, negInf => false
  | posInf, _ => false
  | fin _, posInf => true

/-- The comparison `a <= b`; false as soon as one side is `NaN`. -/
def le : JsNum → JsNum → Bool
  | nan, _ => false
  | _, nan => false
  | fin a, fin b => decide (a ≤ b)
  | negInf, _ => true
  | _, posInf => true
  | posInf, _ => false
  | fin _, negInf => false

/-- The comparison `a > b`. -/
def gt (a b : JsNum) : Bool := lt b a

end JsNum

/-- A value received in a JSON body or read from a document field.  `object str` is an array
or object whose conversion to a string is `str`. -/
inductive JsValue where
  | undefined
  | null
  | bool (b : Bool)
  | number (n : JsNum)
  | string (s : String)
  | object (str : String)
  deriving DecidableEq

/-- Truthiness of a value, as tested by `!amount`. -/
def JsValue.truthy : JsValue → Bool
  | .undefined => false
  | .null => false
  | .bool b => b
  | .number n => n.truthy
  | .string s => decide (s ≠ "")
  | .object _ => true

/-- White space and line terminators: what `parseFloat` skips and what `\s` matches. -/
def isJsWhiteSpace (c : Char) : Bool :=
  let n := c.toNat
  n = 0x09 || n = 0x0A || n = 0x0B || n = 0x0C || n = 0x0D || n = 0x20 || n = 0xA0 ||
  n = 0x1680 || (0x2000 ≤ n && n ≤ 0x200A) || n = 0x2028 || n = 0x2029 || n = 0x202F ||
  n = 0x205F || n = 0x3000 || n = 0xFEFF

/-- The ASCII digits `0`-`9` (the class `\d`). -/
def isDecimalDigit (c : Char) : Bool := 48 ≤ c.toNat && c.toNat ≤ 57

/-- The value of a run of decimal digits. -/
def digitsValue (ds : List Char) : Nat :=
  ds.foldl (fun acc c => 10 * acc + (c.toNat - 48)) 0

/-- Does `cs` begin with `pre`? -/
def startsWith : List Char → List Char → Bool
  | _, [] => true
  | [], _ :: _ => false
  | c :: cs, p :: ps => c = p && startsWith cs ps

/-- The exponent part read by `parseFloat` after the mantissa: `e` or `E`, an optional sign
and at least one digit; anything else is not part of the number and counts as exponent 0. -/
def parseExponent : List Char → Int
  | [] => 0
  | e :: rest =>
    if e = 'e' || e = 'E' then
      match rest with
      | '-' :: ds =>
        if (ds.takeWhile isDecimalDigit).isEmpty then 0
        else - (digitsValue (ds.takeWhile isDecimalDigit) : Int)
      | '+' :: ds => (digitsValue (ds.takeWhile isDecimalDigit) : Int)
      | ds => (digitsValue (ds.takeWhile isDecimalDigit) : Int)
    else 0

/-- The unsigned part of `parseFloat`: `Infinity`, or the longest run of the form
`digits [. digits] [exponent]` or `. digits [exponent]`; `NaN` when there is none. -/
def parseUnsigned (cs : List Char) : JsNum :=
  if startsWith cs "Infinity".data then .posInf
  else
    let ip := cs.takeWhile isDecimalDigit
    let r1 := cs.dropWhile isDecimalDigit
    let fp := match r1 with
      | '.' :: r => r.takeWhile isDecimalDigit
      | _ => []
    let r2 := match r1 with
      | '.' :: r => r.dropWhile isDecimalDigit
      | _ => r1
    if ip.isEmpty && fp.isEmpty then .nan
    else .fin (((digitsValue ip : ℚ) + (digitsValue fp : ℚ) / 10 ^ fp.length)
                * 10 ^ (parseExponent r2))

/-- The built-in `parseFloat` on a string: leading white space is skipped, an optional sign
is read, then the longest numeric beginning. -/
def parseFloatString (s : String) : JsNum :=
  match s.data.dropWhile isJsWhiteSpace with
  | '-' :: r => (parseUnsigned r).neg
  | '+' :: r => parseUnsigned r
  | r => parseUnsigned r

/-- The built-in `parseFloat` on any value.  The argument is first converted to a string:
`undefined`, `null` and booleans give words that begin with no number; a number gives its own
decimal writing, which parses back to itself. -/
def parseFloat : JsValue → JsNum
  | .undefined => .nan
  | .null => .nan
  | .bool _ => .nan
  | .number n => n
  | .string s => parseFloatString s
  | .object str => parseFloatString str

/-- The expression `s || d` for an optional string: a missing or empty string is falsy. -/
def strOr (s : Option String) (d : String) : String :=
  match s with
  | some v => if v = "" then d else v
  | none => d

/-- The expression `a || b` for two optional strings. -/
def strOrElse (a b : Option String) : Option String :=
  match a with
  | some v => if v = "" then b else some v
  | none => b

/-- The expression `s || null` for an optional string. -/
def strOrNull (s : Option String) : Option String :=
  match s with
  | some v => if v = "" then none else some v
  | none => none

/-- Truthiness of an optional string, as in `!user.iban`. -/
def strTruthy (s : Option String) : Bool :=
  match s with
  | some v => decide (v ≠ "")
  | none => false

/-- The expression `x || 0` for an optional number (`user.balance || 0`). -/
def numOrZero (x : Option JsNum) : JsNum :=
  match x with
  | some n => if n.truthy then n else .fin 0
  | none => .fin 0

/-! ## Configuration read from `process.env` -/

/-- The environment variables the controller consults; `none` is an undefined variable. -/
structure Env where
  NODE_ENV : Option String := none
  DEV_AUTO_APPROVE_IBAN_DEPOSITS : Option String := none
  MIN_DEPOSIT : Option String := none
  MAX_DEPOSIT : Option String := none
  MIN_WITHDRAWAL : Option String := none
  MAX_WITHDRAWAL : Option String := none

/-- The expression `parseFloat(process.env.X || dflt)`: an undefined or empty variable gives
the default, any other text is parsed. -/
def envNumber (v : Option String) (dflt : ℚ) : JsNum :=
  match v with
  | some s => if s = "" then .fin dflt else parseFloatString s
  | none => .fin dflt

/-- The lower deposit bound, `parseFloat(process.env.MIN_DEPOSIT || 100)`. -/
def minDeposit (env : Env) : JsNum := envNumber env.MIN_DEPOSIT 100

/-- The upper deposit bound, `parseFloat(process.env.MAX_DEPOSIT || 50000)`. -/
def maxDeposit (env : Env) : JsNum := envNumber env.MAX_DEPOSIT 50000

/-- The lower withdrawal bound, `parseFloat(process.env.MIN_WITHDRAWAL || 100)`. -/
def minWithdraw (env : Env) : JsNum := envNumber env.MIN_WITHDRAWAL 100

/-- The upper withdrawal bound, `parseFloat(process.env.MAX_WITHDRAWAL || 50000)`. -/
def maxWithdraw (env : Env) : JsNum := envNumber env.MAX_WITHDRAWAL 50000

/-- The method `toLowerCase` on a text, for the letters `A`-`Z`. -/
def toLowerCase (s : String) : String := String.mk (s.data.map Char.toLower)

/-- The method `toUpperCase` on a text, for the letters `a`-`z`. -/
def toUpperCase (s : String) : String := String.mk (s.data.map Char.toUpper)

/-- The helper `isTrue`: `String(value).toLowerCase() === 'true'`. -/
def isTrue (value : String) : Bool := decide (toLowerCase value = "true")

/-- The constant `autoApproveDefault` of `createIbanDeposit`:
`process.env.NODE_ENV !== 'production'`. -/
def autoApproveDefault (env : Env) : Bool := decide (env.NODE_ENV ≠ some "production")

/-- The flag `autoApprove` of `createIbanDeposit`: the explicit variable when it is defined,
otherwise `autoApproveDefault`. -/
def autoApprove (env : Env) : Bool :=
  match env.DEV_AUTO_APPROVE_IBAN_DEPOSITS with
  | some v => isTrue v
  | none => autoApproveDefault env

/-! ## Documents and the store -/

/-- A user document, with the fields the controller touches and the account status. -/
structure User where
  id : Nat
  balance : Option JsNum := none
  totalDeposits : Option JsNum := none
  iban : Option String := none
  ibanHolderName : Option String := none
  bankName : Option String := none
  phone : Option String := none
  firstName : Option String := none
  lastName : Option String := none
  status : String := "active"
  deriving DecidableEq

/-- A deposit request document. -/
structure DepositRequest where
  id : Nat
  user : Nat
  amount : JsNum
  paymentMethod : String
  description : String
  transactionReference : Option String
  slipImage : Option String
  status : String
  approvedAt : Option Nat
  adminNotes : Option String
  createdAt : Nat
  deriving DecidableEq

/-- A withdrawal request document. -/
structure WithdrawalRequest where
  id : Nat
  user : Nat
  amount : JsNum
  iban : Option String
  ibanHolderName : Option String
  bankName : Option String
  description : String
  paymentMethod : String
  status : String
  cancelledAt : Option Nat := none
  rejectionReason : Option String := none
  adminNotes : Option String := none
  createdAt : Nat
  deriving DecidableEq

/-- The `metadata` of a transaction: the back-reference to the originating request. -/
structure TxMetadata where
  depositRequestId : Option Nat := none
  withdrawalRequestId : Option Nat := none
  autoApproved : Option Bool := none
  deriving DecidableEq

/-- A transaction document (one entry of the audit log). -/
structure Transaction where
  id : Nat
  user : Nat
  type : String
  amount : JsNum
  status : String
  paymentMethod : String
  description : String
  transactionId : Option String := none
  metadata : TxMetadata := {}
  createdAt : Nat
  deriving DecidableEq

/-- The persistent store: one list per collection, in insertion order. -/
structure Store where
  users : List User := []
  depositRequests : List DepositRequest := []
  withdrawalRequests : List WithdrawalRequest := []
  transactions : List Transaction := []
  deriving DecidableEq

namespace Store

/-- Every identifier that occurs in the store, as a document id or as a reference. -/
def usedIds (s : Store) : List Nat :=
  s.users.map (fun u => u.id)
  ++ s.depositRequests.map (fun d => d.id)
  ++ s.depositRequests.map (fun d => d.user)
  ++ s.withdrawalRequests.map (fun w => w.id)
  ++ s.withdrawalRequests.map (fun w => w.user)
  ++ s.transactions.map (fun t => t.id)
  ++ s.transactions.map (fun t => t.user)
  ++ s.transactions.map (fun t => t.metadata.depositRequestId.getD 0)
  ++ s.transactions.map (fun t => t.metadata.withdrawalRequestId.getD 0)

/-- The identifier given to the next created document: one that occurs nowhere in the store. -/
def freshId (s : Store) : Nat := s.usedIds.foldr max 0 + 1

/-- The query `User.findById(id)`. -/
def findUserById (s : Store) (id : Nat) : Option User :=
  s.users.find? (fun u => decide (u.id = id))

/-- The call `user.save()`: the stored document with this id is replaced. -/
def saveUser (s : Store) (u : User) : Store :=
  { s with users := s.users.map (fun x => if x.id = u.id then u else x) }

/-- The call `DepositRequest.create([doc])`. -/
def insertDepositRequest (s : Store) (d : DepositRequest) : Store :=
  { s with depositRequests := s.depositRequests ++ [d] }

/-- The call `WithdrawalRequest.create([doc])`. -/
def insertWithdrawalRequest (s : Store) (w : WithdrawalRequest) : Store :=
  { s with withdrawalRequests := s.withdrawalRequests ++ [w] }

/-- The query `WithdrawalRequest.findOne({ _id: id, user: userId })`. -/
def findWithdrawalRequest (s : Store) (id userId : Nat) : Option WithdrawalRequest :=
  s.withdrawalRequests.find? (fun w => decide (w.id = id) && decide (w.user = userId))

/-- The call `withdrawalRequest.save()`. -/
def saveWithdrawalRequest (s : Store) (w : WithdrawalRequest) : Store :=
  { s with withdrawalRequests := s.withdrawalRequests.map (fun x => if x.id = w.id then w else x) }

/-- The call `Transaction.create([doc])`. -/
def insertTransaction (s : Store) (t : Transaction) : Store :=
  { s with transactions := s.transactions ++ [t] }

/-- The query `Transaction.findOne({ user: userId, 'metadata.withdrawalRequestId': reqId })`. -/
def findWithdrawalTransaction (s : Store) (userId reqId : Nat) : Option Transaction :=
  s.transactions.find? (fun t =>
    decide (t.user = userId) && decide (t.metadata.withdrawalRequestId = some reqId))

/-- The call `tx.save()`. -/
def saveTransaction (s : Store) (t : Transaction) : Store :=
  { s with transactions := s.transactions.map (fun x => if x.id = t.id then t else x) }

end Store

/-! ## Sessions, storage faults, requests and responses -/

/-- The awaited storage calls of the handlers. -/
inductive DbOp where
  | userFindById
  | userSave
  | userFindByIdAndUpdate
  | depositRequestCreate
  | withdrawalRequestCreate
  | withdrawalRequestFindOne
  | withdrawalRequestSave
  | transactionCreate
  | transactionFindOne
  | transactionSave
  | commitTransaction
  | depositRequestFind
  | depositRequestCount
  | withdrawalRequestFind
  | withdrawalRequestCount
  deriving DecidableEq

/-- Which storage calls reject in a run. -/
abbrev Faults := DbOp → Bool

/-- A run in which no storage call rejects. -/
def noFaults : Faults := fun _ => false

/-- A session with an open transaction: the committed store and the staged writes. -/
structure Session where
  committed : Store
  staged : Store

/-- The calls `mongoose.startSession()` and `session.startTransaction()`. -/
def startTransaction (db : Store) : Session := { committed := db, staged := db }

namespace Session

/-- The call `session.abortTransaction()`: the staged writes are dropped. -/
def abortTransaction (s : Session) : Session := { committed := s.committed, staged := s.committed }

/-- The call `session.commitTransaction()`: the staged writes become the committed store. -/
def commitTransaction (s : Session) : Session := { committed := s.staged, staged := s.staged }

/-- A write made with `{ session }`: it changes the staged store only. -/
def write (s : Session) (f : Store → Store) : Session := { s with staged := f s.staged }

end Session

/-- The `message` of a response: a fixed text, a template ending in a number (the limit
messages), or the message of the error of a rejected storage call. -/
inductive Message where
  | text (s : String)
  | withNumber (s : String) (n : JsNum)
  | error (op : DbOp)
  deriving DecidableEq

/-- The JSON response of a handler: the HTTP status and the fields of the body. -/
structure Response where
  status : Nat
  message : Message
  depositRequest : Option DepositRequest := none
  withdrawalRequest : Option WithdrawalRequest := none
  newBalance : Option JsNum := none
  transaction : Option Transaction := none
  user : Option User := none
  deriving DecidableEq

/-- How the `try` block of a handler ends: a response was sent, or a storage call threw. -/
inductive Outcome where
  | sent (res : Response)
  | thrown (op : DbOp)

/-- The authenticated identity `req.user`, set by the authentication layer. -/
structure ReqUser where
  id : Option Nat := none
  _id : Nat

/-- The fields of `req.body` the handlers destructure; `extra` holds any other key. -/
structure ReqBody where
  amount : JsValue := .undefined
  description : Option String := none
  transactionId : Option String := none
  transactionReference : Option String := none
  screenshotUrl : Option String := none
  slipImage : Option String := none
  iban : Option String := none
  ibanHolderName : Option String := none
  bankName : Option String := none
  phone : Option String := none
  firstName : Option String := none
  lastName : Option String := none
  extra : List (String × JsValue) := []

/-- The fields of `req.query` the listings destructure; `none` is an absent parameter. -/
structure ReqQuery where
  status : Option String := none
  limit : Option String := none
  page : Option String := none

/-- A request: the caller, the body, the query string, the route parameter `:id`, and what
the run reads from its surroundings (`new Date()` / `Date.now()` and the random suffix of a
transaction id). -/
structure Request where
  user : ReqUser
  body : ReqBody := {}
  query : ReqQuery := {}
  paramsId : Nat := 0
  now : Nat := 0
  random : String := ""

/-- The helper `getUserId`: `req.user?.id || req.user?._id`. -/
def getUserId (req : Request) : Nat :=
  match req.user.id with
  | some i => i
  | none => req.user._id

/-- The response of the `catch` block: status 500 with the error message. -/
def errorResponse (op : DbOp) : Response := { status := 500, message := .error op }

/-- How a handler ends, given the end of its `try` block: a response that was sent stands and
the store is what the session committed; a thrown error reaches the `catch` block, which
aborts the transaction and answers 500. -/
def settle (r : Outcome × Session) : Response × Store :=
  match r with
  | (.sent res, session) => (res, session.committed)
  | (.thrown op, session) => (errorResponse op, session.abortTransaction.committed)

/-! ## `createIbanDeposit` (POST /api/payment/iban-deposit)

Each handler is written in two parts: the guards of its `try` block, which end in a response
after `abortTransaction`, and the writes that follow once every guard has passed. -/

/-- The document passed to `DepositRequest.create`. -/
def depositRequestDoc (env : Env) (id : Nat) (req : Request) (userId : Nat)
    (amountNum : JsNum) : DepositRequest :=
  { id := id
    user := userId
    amount := amountNum
    paymentMethod := "iban"
    description := strOr req.body.description "IBAN Havale/EFT"
    transactionReference :=
      strOrNull (strOrElse req.body.transactionReference req.body.transactionId)
    slipImage := strOrNull (strOrElse req.body.slipImage req.body.screenshotUrl)
    status := if autoApprove env then "approved" else "pending"
    approvedAt := if autoApprove env then some req.now else none
    adminNotes := if autoApprove env then some "Auto-approved in development" else none
    createdAt := req.now }

/-- The user after the credit `user.balance = (user.balance || 0) + amountNum` and
`user.totalDeposits = (user.totalDeposits || 0) + amountNum`. -/
def creditedUser (user : User) (amountNum : JsNum) : User :=
  { user with
    balance := some ((numOrZero user.balance).add amountNum)
    totalDeposits := some ((numOrZero user.totalDeposits).add amountNum) }

/-- The document passed to `Transaction.create` by `createIbanDeposit`. -/
def depositTransactionDoc (id : Nat) (req : Request) (userId : Nat) (amountNum : JsNum)
    (depositRequestId : Nat) : Transaction :=
  { id := id
    user := userId
    type := "deposit"
    amount := amountNum
    status := "completed"
    paymentMethod := "bank_transfer"
    description := "IBAN deposit (auto-approved)"
    metadata := { depositRequestId := some depositRequestId, autoApproved := some true }
    createdAt := req.now }

/-- The writes of `createIbanDeposit` (from `DepositRequest.create` to the 201 response),
for the caller `userId`, the parsed amount and the user document that was found. -/
def depositWrites (env : Env) (faults : Faults) (session : Session) (req : Request)
    (userId : Nat) (amountNum : JsNum) (user : User) : Outcome × Session :=
  if faults .depositRequestCreate then (.thrown .depositRequestCreate, session)
  else
    let depositRequest := depositRequestDoc env session.staged.freshId req userId amountNum
    let session1 := session.write (fun st => st.insertDepositRequest depositRequest)
    if autoApprove env then
      let user1 := creditedUser user amountNum
      if faults .userSave then (.thrown .userSave, session1)
      else
        let session2 := session1.write (fun st => st.saveUser user1)
        if faults .transactionCreate then (.thrown .transactionCreate, session2)
        else
          let transaction :=
            depositTransactionDoc session2.staged.freshId req userId amountNum depositRequest.id
          let session3 := session2.write (fun st => st.insertTransaction transaction)
          if faults .commitTransaction then (.thrown .commitTransaction, session3)
          else
            (.sent
              { status := 201
                message := .text "Deposit approved and added to balance (development mode)"
                depositRequest := some depositRequest
                newBalance := user1.balance
                transaction := some transaction },
              session3.commitTransaction)
    else if faults .commitTransaction then (.thrown .commitTransaction, session1)
    else
      (.sent
        { status := 201
          message := .text "Deposit request submitted. It will be credited after approval."
          depositRequest := some depositRequest
          newBalance := none
          transaction := none },
        session1.commitTransaction)

/-- The `try` block of `createIbanDeposit`. -/
def createIbanDepositTry (env : Env) (faults : Faults) (session : Session) (req : Request) :
    Outcome × Session :=
  let userId := getUserId req
  let amount := req.body.amount
  let amountNum := parseFloat amount
  if !amount.truthy || amountNum.isNaN || amountNum.le (.fin 0) then
    (.sent { status := 400, message := .text "Invalid amount" }, session.abortTransaction)
  else if amountNum.lt (minDeposit env) then
    (.sent
      { status := 400, message := .withNumber "Minimum yatırım tutarı ₺" (minDeposit env) },
      session.abortTransaction)
  else if amountNum.gt (maxDeposit env) then
    (.sent
      { status := 400, message := .withNumber "Maksimum yatırım tutarı ₺" (maxDeposit env) },
      session.abortTransaction)
  else if faults .userFindById then (.thrown .userFindById, session)
  else
    match session.staged.findUserById userId with
    | none =>
      (.sent { status := 404, message := .text "User not found" }, session.abortTransaction)
    | some user => depositWrites env faults session req userId amountNum user

/-- The handler `createIbanDeposit`: the response and the store left committed. -/
def createIbanDeposit (env : Env) (faults : Faults) (db : Store) (req : Request) :
    Response × Store :=
  settle (createIbanDepositTry env faults (startTransaction db) req)

/-! ## `createWithdrawalRequest` (POST /api/payment/withdrawal/request) -/

/-- The user after the reservation `user.balance = (user.balance || 0) - amountNum`. -/
def reservedUser (user : User) (amountNum : JsNum) : User :=
  { user with balance := some ((numOrZero user.balance).sub amountNum) }

/-- The document passed to `WithdrawalRequest.create`. -/
def withdrawalRequestDoc (id : Nat) (req : Request) (userId : Nat) (amountNum : JsNum)
    (user : User) : WithdrawalRequest :=
  { id := id
    user := userId
    amount := amountNum
    iban := user.iban
    ibanHolderName := user.ibanHolderName
    bankName := strOrNull user.bankName
    description := strOr req.body.description "IBAN Çekim Talebi"
    paymentMethod := "iban"
    status := "pending"
    createdAt := req.now }

/-- The document passed to `Transaction.create` by `createWithdrawalRequest`. -/
def withdrawalTransactionDoc (id : Nat) (req : Request) (userId : Nat) (amountNum : JsNum)
    (withdrawalRequestId : Nat) : Transaction :=
  { id := id
    user := userId
    type := "withdrawal"
    amount := amountNum
    status := "pending"
    paymentMethod := "bank_transfer"
    description := "Withdrawal request created (ID: " ++ toString withdrawalRequestId ++ ")"
    transactionId := some ("WD-" ++ toString req.now ++ "-" ++ req.random)
    metadata := { withdrawalRequestId := some withdrawalRequestId }
    createdAt := req.now }

/-- The writes of `createWithdrawalRequest` (from the reservation `user.balance = ...` to the
201 response), for the caller `userId`, the parsed amount and the user document found. -/
def withdrawalWrites (faults : Faults) (session : Session) (req : Request)
    (userId : Nat) (amountNum : JsNum) (user : User) : Outcome × Session :=
  let user1 := reservedUser user amountNum
  if faults .userSave then (.thrown .userSave, session)
  else
    let session1 := session.write (fun st => st.saveUser user1)
    if faults .withdrawalRequestCreate then (.thrown .withdrawalRequestCreate, session1)
    else
      let withdrawalRequest :=
        withdrawalRequestDoc session1.staged.freshId req userId amountNum user1
      let session2 := session1.write (fun st => st.insertWithdrawalRequest withdrawalRequest)
      if faults .transactionCreate then (.thrown .transactionCreate, session2)
      else
        let transaction :=
          withdrawalTransactionDoc session2.staged.freshId req userId amountNum
            withdrawalRequest.id
        let session3 := session2.write (fun st => st.insertTransaction transaction)
        if faults .commitTransaction then (.thrown .commitTransaction, session3)
        else
          (.sent
            { status := 201
              message := .text
                "Çekim talebi oluşturuldu. Admin onayından sonra IBAN'ınıza gönderilecektir."
              withdrawalRequest := some withdrawalRequest
              newBalance := user1.balance
              transaction := some transaction },
            session3.commitTransaction)

/-- The `try` block of `createWithdrawalRequest`. -/
def createWithdrawalRequestTry (env : Env) (faults : Faults) (session : Session)
    (req : Request) : Outcome × Session :=
  let userId := getUserId req
  let amount := req.body.amount
  let amountNum := parseFloat amount
  if !amount.truthy || amountNum.isNaN || amountNum.le (.fin 0) then
    (.sent { status := 400, message := .text "Invalid amount" }, session.abortTransaction)
  else if amountNum.lt (minWithdraw env) then
    (.sent
      { status := 400, message := .withNumber "Minimum çekim tutarı ₺" (minWithdraw env) },
      session.abortTransaction)
  else if amountNum.gt (maxWithdraw env) then
    (.sent
      { status := 400, message := .withNumber "Maksimum çekim tutarı ₺" (maxWithdraw env) },
      session.abortTransaction)
  else if faults .userFindById then (.thrown .userFindById, session)
  else
    match session.staged.findUserById userId with
    | none =>
      (.sent { status := 404, message := .text "User not found" }, session.abortTransaction)
    | some user =>
      if !strTruthy user.iban || !strTruthy user.ibanHolderName then
        (.sent
          { status := 400
            message := .text "Lütfen önce IBAN bilgilerinizi profilinizden kaydedin." },
          session.abortTransaction)
      else if (numOrZero user.balance).lt amountNum then
        (.sent { status := 400, message := .text "Yetersiz bakiye" }, session.abortTransaction)
      else withdrawalWrites faults session req userId amountNum user

/-- The handler `createWithdrawalRequest`: the response and the store left committed. -/
def createWithdrawalRequest (env : Env) (faults : Faults) (db : Store) (req : Request) :
    Response × Store :=
  settle (createWithdrawalRequestTry env faults (startTransaction db) req)

/-! ## `cancelWithdrawalRequest` (POST /api/payment/withdrawal/:id/cancel) -/

/-- The end of `cancelWithdrawalRequest`: `commitTransaction` and the 200 response. -/
def cancelCommit (faults : Faults) (session : Session) (withdrawalRequest : WithdrawalRequest)
    (user : User) : Outcome × Session :=
  if faults .commitTransaction then (.thrown .commitTransaction, session)
  else
    (.sent
      { status := 200
        message := .text "Çekim talebi iptal edildi ve bakiye geri yüklendi"
        withdrawalRequest := some withdrawalRequest
        newBalance := user.balance },
      session.commitTransaction)

/-- The user after the refund `user.balance = (user.balance || 0) + withdrawalRequest.amount`. -/
def refundedUser (user : User) (withdrawalRequest : WithdrawalRequest) : User :=
  { user with balance := some ((numOrZero user.balance).add withdrawalRequest.amount) }

/-- The request after `status = 'cancelled'` and `cancelledAt = new Date()`. -/
def cancelledRequest (withdrawalRequest : WithdrawalRequest) (now : Nat) : WithdrawalRequest :=
  { withdrawalRequest with status := "cancelled", cancelledAt := some now }

/-- The transaction after `status = 'cancelled'` and the new description. -/
def cancelledTransaction (tx : Transaction) : Transaction :=
  { tx with status := "cancelled", description := "Withdrawal cancelled by user" }

/-- The writes of `cancelWithdrawalRequest` (from the refund `user.balance = ...` on), for the
caller `userId`, the request that was found and the user document that was found. -/
def cancelWrites (faults : Faults) (session : Session) (req : Request) (userId : Nat)
    (withdrawalRequest : WithdrawalRequest) (user : User) : Outcome × Session :=
  let user1 := refundedUser user withdrawalRequest
  if faults .userSave then (.thrown .userSave, session)
  else
    let session1 := session.write (fun st => st.saveUser user1)
    let withdrawalRequest1 := cancelledRequest withdrawalRequest req.now
    if faults .withdrawalRequestSave then (.thrown .withdrawalRequestSave, session1)
    else
      let session2 := session1.write (fun st => st.saveWithdrawalRequest withdrawalRequest1)
      if faults .transactionFindOne then (.thrown .transactionFindOne, session2)
      else
        match session2.staged.findWithdrawalTransaction userId withdrawalRequest1.id with
        | some tx =>
          if faults .transactionSave then (.thrown .transactionSave, session2)
          else
            cancelCommit faults
              (session2.write (fun st => st.saveTransaction (cancelledTransaction tx)))
              withdrawalRequest1 user1
        | none => cancelCommit faults session2 withdrawalRequest1 user1

/-- The `try` block of `cancelWithdrawalRequest`. -/
def cancelWithdrawalRequestTry (faults : Faults) (session : Session) (req : Request) :
    Outcome × Session :=
  let userId := getUserId req
  let id := req.paramsId
  if faults .withdrawalRequestFindOne then (.thrown .withdrawalRequestFindOne, session)
  else
    match session.staged.findWithdrawalRequest id userId with
    | none =>
      (.sent { status := 404, message := .text "Çekim talebi bulunamadı" },
        session.abortTransaction)
    | some withdrawalRequest =>
      if withdrawalRequest.status ≠ "pending" then
        (.sent
          { status := 400
            message := .text "Sadece beklemede olan çekim talepleri iptal edilebilir." },
          session.abortTransaction)
      else if faults .userFindById then (.thrown .userFindById, session)
      else
        match session.staged.findUserById userId with
        | none =>
          (.sent { status := 404, message := .text "User not found" }, session.abortTransaction)
        | some user => cancelWrites faults session req userId withdrawalRequest user

/-- The handler `cancelWithdrawalRequest`: the response and the store left committed. -/
def cancelWithdrawalRequest (faults : Faults) (db : Store) (req : Request) : Response × Store :=
  settle (cancelWithdrawalRequestTry faults (startTransaction db) req)

/-! ## `getMyDepositRequests` and `getMyWithdrawalRequests` (the two listings) -/

/-- The built-in `parseInt(s, 10)` on a string: leading white space is skipped, an optional
sign is read, then the longest run of decimal digits; `none` stands for `NaN`. -/
def parseIntString (s : String) : Option Int :=
  let digits := fun (r : List Char) =>
    if (r.takeWhile isDecimalDigit).isEmpty then none
    else some (digitsValue (r.takeWhile isDecimalDigit) : Int)
  match s.data.dropWhile isJsWhiteSpace with
  | '-' :: r => (digits r).map (fun n => -n)
  | '+' :: r => digits r
  | r => digits r

/-- The expression `parseInt(v, 10) || dflt` for a query parameter `v` that is destructured
with the default `dflt`: an absent parameter gives the default, a text is parsed, and `NaN`
and `0` are falsy. -/
def intParam (v : Option String) (dflt : Int) : Int :=
  match v with
  | none => dflt
  | some s =>
    match parseIntString s with
    | some n => if n = 0 then dflt else n
    | none => dflt

/-- The sort `{ createdAt: -1 }`: newest first, documents of equal time in stored order. -/
def newestFirst {α : Type} (createdAt : α → Nat) (l : List α) : List α :=
  l.insertionSort (fun a b => createdAt b ≤ createdAt a)

/-- The cursor options `.limit(limitNum).skip(skipNum)` on a sorted result: the server
rejects a negative skip (`none`), and a negative limit counts as its absolute value. -/
def limitSkip {α : Type} (l : List α) (limitNum skipNum : Int) : Option (List α) :=
  if skipNum < 0 then none else some ((l.drop skipNum.toNat).take limitNum.natAbs)

/-- The JSON answer of a listing: the page, `totalPages`, `currentPage` and `total` with
status 200, or status 500 with the message of the error that was caught. -/
inductive ListResult (α : Type) where
  | json (items : List α) (totalPages : Int) (currentPage : Int) (total : Nat)
  | error (op : DbOp)

/-- The HTTP status of a listing answer. -/
def ListResult.status {α : Type} : ListResult α → Nat
  | .json _ _ _ _ => 200
  | .error _ => 500

/-- The documents of a listing answer (none when the answer is an error). -/
def ListResult.items {α : Type} : ListResult α → List α
  | .json items _ _ _ => items
  | .error _ => []

/-- The field `total` of a listing answer (0 when the answer is an error). -/
def ListResult.total {α : Type} : ListResult α → Nat
  | .json _ _ _ total => total
  | .error _ => 0

/-- The filter `query` of `getMyDepositRequests`: the owner, and when `status` is given
(truthy) the stored status must be one of `s`, `s.toLowerCase()`, `s.toUpperCase()`. -/
def depositQuery (userId : Nat) (status : Option String) (d : DepositRequest) : Bool :=
  decide (d.user = userId) &&
    (if strTruthy status then
      decide (d.status = status.getD "") || decide (d.status = toLowerCase (status.getD ""))
        || decide (d.status = toUpperCase (status.getD ""))
    else true)

/-- The handler `getMyDepositRequests`. -/
def getMyDepositRequests (faults : Faults) (db : Store) (req : Request) :
    ListResult DepositRequest :=
  let userId := getUserId req
  let query := depositQuery userId req.query.status
  let pageNum := intParam req.query.page 1
  let limitNum := intParam req.query.limit 50
  if faults .depositRequestFind then .error .depositRequestFind
  else
    match limitSkip (newestFirst (fun d => d.createdAt) (db.depositRequests.filter query))
        limitNum ((pageNum - 1) * limitNum) with
    | none => .error .depositRequestFind
    | some depositRequests =>
      if faults .depositRequestCount then .error .depositRequestCount
      else
        let total := (db.depositRequests.filter query).length
        .json depositRequests (Int.ceil ((total : ℚ) / (limitNum : ℚ))) pageNum total

/-- The filter `query` of `getMyWithdrawalRequests`: the owner, and when `status` is given
(truthy) the stored status must be `status` itself. -/
def withdrawalQuery (userId : Nat) (status : Option String) (w : WithdrawalRequest) : Bool :=
  decide (w.user = userId) &&
    (if strTruthy status then decide (w.status = status.getD "") else true)

/-- The projection `.select('-adminNotes -rejectionReason')`. -/
def selectPublic (w : WithdrawalRequest) : WithdrawalRequest :=
  { w with adminNotes := none, rejectionReason := none }

/-- The handler `getMyWithdrawalRequests`. -/
def getMyWithdrawalRequests (faults : Faults) (db : Store) (req : Request) :
    ListResult WithdrawalRequest :=
  let userId := getUserId req
  let query := withdrawalQuery userId req.query.status
  let pageNum := intParam req.query.page 1
  let limitNum := intParam req.query.limit 50
  if faults .withdrawalRequestFind then .error .withdrawalRequestFind
  else
    match limitSkip (newestFirst (fun w => w.createdAt) (db.withdrawalRequests.filter query))
        limitNum ((pageNum - 1) * limitNum) with
    | none => .error .withdrawalRequestFind
    | some withdrawalRequests =>
      if faults .withdrawalRequestCount then .error .withdrawalRequestCount
      else
        let total := (db.withdrawalRequests.filter query).length
        .json (withdrawalRequests.map selectPublic)
          (Int.ceil ((total : ℚ) / (limitNum : ℚ))) pageNum total

/-! ## `updateProfile` (PUT /api/payment/profile) -/

/-- The capital letters `A`-`Z` (the class `[A-Z]`). -/
def isUpperLetter (c : Char) : Bool := 65 ≤ c.toNat && c.toNat ≤ 90

/-- The class `[A-Z0-9]`. -/
def isUpperAlnum (c : Char) : Bool := isUpperLetter c || isDecimalDigit c

/-- The test of the regular expression `^[A-Z]{2}\d{2}[A-Z0-9]{4,30}$` on a text. -/
def ibanRegexTest (cs : List Char) : Bool :=
  match cs with
  | a :: b :: c :: d :: rest =>
    isUpperLetter a && isUpperLetter b && isDecimalDigit c && isDecimalDigit d &&
    decide (4 ≤ rest.length) && decide (rest.length ≤ 30) && rest.all isUpperAlnum
  | _ => false

/-- The call `.replace(/\s/g, '')`: every white-space character is removed. -/
def removeWhiteSpace (s : String) : List Char := s.data.filter (fun c => !isJsWhiteSpace c)

/-- The object `allowedFields` after the keys with an undefined value were deleted, applied
as `$set` to a user: a field that is present replaces the stored one. -/
def setAllowedFields (body : ReqBody) (u : User) : User :=
  { u with
    iban := if body.iban.isSome then body.iban else u.iban
    ibanHolderName := if body.ibanHolderName.isSome then body.ibanHolderName else u.ibanHolderName
    bankName := if body.bankName.isSome then body.bankName else u.bankName
    phone := if body.phone.isSome then body.phone else u.phone
    firstName := if body.firstName.isSome then body.firstName else u.firstName
    lastName := if body.lastName.isSome then body.lastName else u.lastName }

/-- The handler `updateProfile`: the response and the store afterwards. -/
def updateProfile (faults : Faults) (db : Store) (req : Request) : Response × Store :=
  let userId := getUserId req
  if strTruthy req.body.iban && !ibanRegexTest (removeWhiteSpace (req.body.iban.getD "")) then
    ({ status := 400, message := .text "Geçersiz IBAN formatı" }, db)
  else if faults .userFindByIdAndUpdate then (errorResponse .userFindByIdAndUpdate, db)
  else
    match db.findUserById userId with
    | none => ({ status := 404, message := .text "User not found" }, db)
    | some u =>
      ({ status := 200
         message := .text "Profil güncellendi"
         user := some (setAllowedFields req.body u) },
        db.saveUser (setAllowedFields req.body u))

/-! ## `allowedOrigins` and `corsOptions.origin` (server.js) -/

/-- The environment variables `server.js` consults to build the allowed origins and to decide
on an origin; `none` is an undefined variable. -/
structure ServerEnv where
  NODE_ENV : Option String := none
  FRONTEND_URL : Option String := none
  ALLOWED_ORIGINS : Option String := none

/-- The method `split(',')`, on the characters of a text: the pieces between the commas, one
more than there are commas. -/
def splitComma : List Char → List (List Char)
  | [] => [[]]
  | c :: cs =>
    if c = ',' then [] :: splitComma cs
    else
      match splitComma cs with
      | [] => [[c]]
      | piece :: pieces => (c :: piece) :: pieces

/-- The method `trim`: white space is removed at both ends. -/
def trim (cs : List Char) : List Char :=
  ((cs.dropWhile isJsWhiteSpace).reverse.dropWhile isJsWhiteSpace).reverse

/-- The array `allowedOrigins` as the module builds it when it is loaded: `FRONTEND_URL` when
set, then the trimmed pieces of `ALLOWED_ORIGINS` when set, then the two localhost defaults
when `NODE_ENV` is `development`. -/
def allowedOrigins (env : ServerEnv) : List String :=
  (if strTruthy env.FRONTEND_URL then [env.FRONTEND_URL.getD ""] else [])
  ++ (if strTruthy env.ALLOWED_ORIGINS then
        (splitComma (env.ALLOWED_ORIGINS.getD "").data).map (fun piece => String.mk (trim piece))
      else [])
  ++ (if env.NODE_ENV = some "development" then
        ["http://localhost:3000", "http://localhost:3002"]
      else [])

/-- What `corsOptions.origin` passes to its callback: `callback(null, true)` or
`callback(new Error(msg), false)`. -/
inductive CorsCallback where
  | allow
  | error (message : String)
  deriving DecidableEq

/-- The function `corsOptions.origin`, with `process.env` and the array `allowedOrigins` it
closes over as arguments; `origin` is the Origin header handed over by the `cors` middleware,
`none` when the request has none.  Logging is left out. -/
def corsOptions.origin (env : ServerEnv) (allowedOrigins : List String)
    (origin : Option String) : CorsCallback :=
  if !strTruthy origin then .allow
  else
    let o := origin.getD ""
    if env.NODE_ENV = some "development"
        && (startsWith o.data "http://localhost:".data
          || startsWith o.data "http://127.0.0.1:".data) then .allow
    else if env.NODE_ENV = some "production" then
      if allowedOrigins.length = 0 then .allow
      else if !allowedOrigins.contains o then
        .error "The CORS policy for this site does not allow access from the specified Origin."
      else .allow
    else
      if decide (allowedOrigins.length > 0) && !allowedOrigins.contains o then .allow
      else .allow

/-! ## Notions of the specification used to state the properties -/

/-- Equality of two texts ignoring letter case. -/
def eqIgnoreCase (a b : String) : Bool := decide (toLowerCase a = toLowerCase b)

/-! ## Sequences of calls and the quantities of the invariants -/

/-- One call of a handler that writes, with the storage faults met during its run. -/
inductive Call where
  | deposit (faults : Faults) (req : Request)
  | withdrawal (faults : Faults) (req : Request)
  | cancel (faults : Faults) (req : Request)
  | profile (faults : Faults) (req : Request)

/-- The store after one call. -/
def runCall (env : Env) (db : Store) : Call → Store
  | .deposit faults req => (createIbanDeposit env faults db req).2
  | .withdrawal faults req => (createWithdrawalRequest env faults db req).2
  | .cancel faults req => (cancelWithdrawalRequest faults db req).2
  | .profile faults req => (updateProfile faults db req).2

/-- The store after a sequence of calls, each run on the store the previous one left. -/
def runCalls (env : Env) (db : Store) (calls : List Call) : Store :=
  calls.foldl (runCall env) db

/-- The balance of a user is at least 0; a user document without a balance counts, since
every handler reads it as `user.balance || 0`. -/
def User.balanceNonneg (u : User) : Bool :=
  match u.balance with
  | some x => (JsNum.fin 0).le x
  | none => true

/-- Every stored user has a balance of at least 0. -/
def Store.balancesNonneg (s : Store) : Bool := s.users.all User.balanceNonneg

/-- Every stored withdrawal request in status `pending` has an amount of at least 0. -/
def Store.pendingAmountsNonneg (s : Store) : Bool :=
  s.withdrawalRequests.all (fun w => decide (w.status ≠ "pending") || (JsNum.fin 0).le w.amount)

/-- A number that is neither `NaN` nor infinite. -/
def JsNum.isFinite : JsNum → Bool
  | .fin _ => true
  | _ => false

/-- The amounts of the withdrawal requests of `userId` that are in status `pending`. -/
def pendingAmounts (s : Store) (userId : Nat) : List JsNum :=
  (s.withdrawalRequests.filter
    (fun w => decide (w.user = userId) && decide (w.status = "pending"))).map (fun w => w.amount)

/-- The sum of a list of numbers. -/
def sumAmounts (l : List JsNum) : JsNum := l.foldr JsNum.add (.fin 0)

/-- The balance of `userId` plus the amounts of that user's pending withdrawal requests. -/
def balancePlusPending (s : Store) (userId : Nat) : JsNum :=
  (numOrZero ((s.findUserById userId).bind (fun u => u.balance))).add
    (sumAmounts (pendingAmounts s userId))

/-- The amounts in the store are numbers: every balance that is set and every amount of a
withdrawal request is finite. -/
def Store.amountsFinite (s : Store) : Bool :=
  s.users.all (fun u => match u.balance with
    | some x => x.isFinite
    | none => true)
  && s.withdrawalRequests.all (fun w => w.amount.isFinite)

/-- No two stored withdrawal requests share an identifier. -/
def Store.requestIdsUnique (s : Store) : Bool :=
  decide (s.withdrawalRequests.map (fun w => w.id)).Nodup

/-! ## IEEE-754 doubles

A finite JavaScript number is a double: `m * 2 ^ e` with `m < 2 ^ 53` and
`-1074 ≤ e ≤ 971`.  The result of `+` or `-` is the double nearest to the exact result, ties
going to the even mantissa, and `Infinity` beyond the largest double.  Every number a handler
stores is either carried over or the result of one such operation on numbers it read, and the
handlers compare only numbers they read; so what the program leaves after a call on a store of
doubles is `Store.toDouble` of what the exact run leaves. -/

/-- The integer nearest to `n / d`, the even one of the two when `n / d` lies half way. -/
def roundHalfEven (n d : Nat) : Nat :=
  if 2 * (n % d) < d then n / d
  else if d < 2 * (n % d) then n / d + 1
  else if (n / d) % 2 = 0 then n / d
  else n / d + 1

/-- The number of binary digits of `n`, found in at most `fuel` halvings. -/
def bitLength : Nat → Nat → Nat
  | 0, _ => 0
  | fuel + 1, n => if n = 0 then 0 else bitLength fuel (n / 2) + 1

/-- The integer `k` with `2 ^ k ≤ n / d < 2 ^ (k + 1)`, for positive `n` and `d`. -/
def floorLog2 (n d : Nat) : Int :=
  let k : Int := (bitLength n n : Int) - (bitLength d d : Int)
  if d * 2 ^ k.toNat ≤ n * 2 ^ (-k).toNat then k else k - 1

/-- The double nearest to the positive rational `n / d`, as mantissa and exponent
(`m * 2 ^ e`); `none` when the rounding leaves the range of the finite doubles.  The
exponent of the result is that of `n / d`, and never below that of the subnormal doubles. -/
def doubleOf (n d : Nat) : Option (Nat × Int) :=
  let e : Int := max (floorLog2 n d) (-1022)
  let m : Nat := roundHalfEven (n * 2 ^ (52 - e).toNat) (d * 2 ^ (e - 52).toNat)
  if 1023 < e ∨ (e = 1023 ∧ 2 ^ 53 ≤ m) then none else some (m, e - 52)

/-- The double nearest to the positive rational `n / d`, as a number. -/
def roundPos (n d : Nat) : JsNum :=
  match doubleOf n d with
  | none => .posInf
  | some (m, e) => .fin ((m : ℚ) * 2 ^ e)

/-- The double nearest to a rational (round to nearest, ties to even). -/
def roundDouble (q : ℚ) : JsNum :=
  if q = 0 then .fin 0
  else if 0 < q then roundPos q.num.natAbs q.den
  else (roundPos q.num.natAbs q.den).neg

/-- A number as the program holds it: a finite value is rounded to the nearest double. -/
def JsNum.toDouble : JsNum → JsNum
  | .fin q => roundDouble q
  | x => x

/-- A user document with its numbers as the program holds them. -/
def User.toDouble (u : User) : User :=
  { u with
    balance := u.balance.map JsNum.toDouble
    totalDeposits := u.totalDeposits.map JsNum.toDouble }

/-- A deposit request with its amount as the program holds it. -/
def DepositRequest.toDouble (d : DepositRequest) : DepositRequest :=
  { d with amount := d.amount.toDouble }

/-- A withdrawal request with its amount as the program holds it. -/
def WithdrawalRequest.toDouble (w : WithdrawalRequest) : WithdrawalRequest :=
  { w with amount := w.amount.toDouble }

/-- A transaction with its amount as the program holds it. -/
def Transaction.toDouble (t : Transaction) : Transaction :=
  { t with amount := t.amount.toDouble }

/-- The store as the program holds it: every number is rounded to the nearest double. -/
def Store.toDouble (s : Store) : Store :=
  { users := s.users.map User.toDouble
    depositRequests := s.depositRequests.map DepositRequest.toDouble
    withdrawalRequests := s.withdrawalRequests.map WithdrawalRequest.toDouble
    transactions := s.transactions.map Transaction.toDouble }

/-! ## The IBAN shape of the specification -/

/-- The shape the specification gives for an IBAN: two capital letters, then two digits, then
4 to 30 characters that are capital letters or digits. -/
def HasIbanShape (cs : List Char) : Prop :=
  ∃ country check rest : List Char,
    cs = country ++ check ++ rest
    ∧ country.length = 2 ∧ (∀ c ∈ country, isUpperLetter c = true)
    ∧ check.length = 2 ∧ (∀ c ∈ check, isDecimalDigit c = true)
    ∧ 4 ≤ rest.length ∧ rest.length ≤ 30 ∧ (∀ c ∈ rest, isUpperAlnum c = true)

/-! ## Sample data -/

/-- A user with saved IBAN details and a balance of 500. -/
def sampleUser : User :=
  { id := 1
    balance := some (.fin 500)
    totalDeposits := some (.fin 1000)
    iban := some "TR330006100519786457841326"
    ibanHolderName := some "Ayşe Yılmaz"
    bankName := some "Ziraat Bankası" }

/-- A store that holds `sampleUser` and nothing else. -/
def sampleStore : Store := { users := [sampleUser] }

/-- The user `sampleUser` asks to withdraw 200. -/
def sampleWithdrawal : Request :=
  { user := { _id := 1 }, body := { amount := .number (.fin 200) }, now := 1700000000000 }

/-- A store whose only user has saved IBAN details but an empty bank name. -/
def emptyBankNameStore : Store := { users := [{ sampleUser with bankName := some "" }] }

/-- A pending withdrawal request of `sampleUser` for 200. -/
def pendingRequest : WithdrawalRequest :=
  { id := 7
    user := 1
    amount := .fin 200
    iban := some "TR330006100519786457841326"
    ibanHolderName := some "Ayşe Yılmaz"
    bankName := some "Ziraat Bankası"
    description := "IBAN Çekim Talebi"
    paymentMethod := "iban"
    status := "pending"
    createdAt := 1700000000000 }

/-- A withdrawal request of `sampleUser` that was already paid. -/
def paidRequest : WithdrawalRequest := { pendingRequest with id := 8, status := "paid" }

/-- The transaction logged for `pendingRequest`. -/
def pendingTransaction : Transaction :=
  { id := 9
    user := 1
    type := "withdrawal"
    amount := .fin 200
    status := "pending"
    paymentMethod := "bank_transfer"
    description := "Withdrawal request created (ID: 7)"
    metadata := { withdrawalRequestId := some 7 }
    createdAt := 1700000000000 }

/-- A store with `sampleUser`, a pending and a paid request, and the transaction of the
pending one. -/
def pendingStore : Store :=
  { users := [sampleUser]
    withdrawalRequests := [pendingRequest, paidRequest]
    transactions := [pendingTransaction] }

/-- The user `sampleUser` asks to cancel request 7. -/
def sampleCancel : Request := { user := { _id := 1 }, paramsId := 7, now := 1700000060000 }

/-- The user `sampleUser` asks to cancel the request created by `sampleWithdrawal` in
`sampleStore`, which received the identifier 2. -/
def sampleCancelCreated : Request := { user := { _id := 1 }, paramsId := 2, now := 1700000060000 }

/-- The user `sampleUser` asks to cancel request 8. -/
def sampleCancelPaid : Request := { user := { _id := 1 }, paramsId := 8, now := 1700000060000 }

/-- The user `sampleUser` asks to withdraw 600, more than the balance of 500. -/
def largeWithdrawal : Request :=
  { user := { _id := 1 }, body := { amount := .number (.fin 600) }, now := 1700000000000 }

/-- The user `sampleUser` announces a deposit of 250. -/
def sampleDeposit : Request :=
  { user := { _id := 1 }, body := { amount := .string "250" }, now := 1700000000000 }

/-- The production environment with nothing else set: deposits wait for approval. -/
def productionEnv : Env := { NODE_ENV := some "production" }

/-- An environment whose lower deposit and withdrawal bounds are configured as 0. -/
def zeroMinEnv : Env := { MIN_DEPOSIT := some "0", MIN_WITHDRAWAL := some "0" }

/-- A store whose only user has saved IBAN details and a balance of 60000. -/
def richStore : Store := { users := [{ sampleUser with balance := some (.fin 60000) }] }

/-- A request of user 1 with the amount 0. -/
def zeroAmount : Request := { user := { _id := 1 }, body := { amount := .number (.fin 0) } }

/-- The user `sampleUser` saves an IBAN written in groups of four, as printed on cards. -/
def spacedIbanUpdate : Request :=
  { user := { _id := 1 }, body := { iban := some "TR33 0006 1005 1978 6457 8413 26" } }

/-- The user `sampleUser` saves the IBAN `TR330006100519786457841326`. -/
def plainIbanUpdate : Request :=
  { user := { _id := 1 }, body := { iban := some "TR330006100519786457841326" } }

/-- The user `sampleUser` sends an IBAN with a lowercase country code. -/
def lowercaseIbanUpdate : Request :=
  { user := { _id := 1 }, body := { iban := some "tr330006100519786457841326" } }

/-- The deposit request number `i` of user 1, created at time `i`. -/
def numberedDeposit (i : Nat) : DepositRequest :=
  { id := 1000 + i
    user := 1
    amount := .fin 100
    paymentMethod := "iban"
    description := "IBAN Havale/EFT"
    transactionReference := none
    slipImage := none
    status := "pending"
    approvedAt := none
    adminNotes := none
    createdAt := i }

/-- The withdrawal request number `i` of user 1, created at time `i`. -/
def numberedWithdrawal (i : Nat) : WithdrawalRequest :=
  { pendingRequest with id := 2000 + i, createdAt := i }

/-- A store with 120 deposit requests and 120 withdrawal requests of user 1, and one
withdrawal request of user 2. -/
def manyRequestsStore : Store :=
  { users := [sampleUser]
    depositRequests := (List.range 120).map numberedDeposit
    withdrawalRequests :=
      { pendingRequest with id := 5000, user := 2 } :: (List.range 120).map numberedWithdrawal }

/-- User 1 asks for page 2 of a listing, 50 documents a page. -/
def pageTwo : Request :=
  { user := { _id := 1 }, query := { page := some "2", limit := some "50" } }

/-- A store in which user 1 has one deposit request and one withdrawal request, both stored
with the status `pending`. -/
def oneOfEachStore : Store :=
  { users := [sampleUser]
    depositRequests := [numberedDeposit 1]
    withdrawalRequests := [pendingRequest] }

/-- User 1 asks for a listing with `status=PENDING`. -/
def upperCasePending : Request :=
  { user := { _id := 1 }, query := { status := some "PENDING" } }

/-- The production environment with the explicit flag set to `TRUE`. -/
def productionOverrideEnv : Env :=
  { NODE_ENV := some "production", DEV_AUTO_APPROVE_IBAN_DEPOSITS := some "TRUE" }

/-- A store whose only user is banned, with saved IBAN details and a balance of 500. -/
def bannedStore : Store := { users := [{ sampleUser with status := "banned" }] }

/-- User 2 asks to cancel request 7, which belongs to user 1. -/
def otherUserCancel : Request := { user := { _id := 2 }, paramsId := 7, now := 1700000060000 }

/-- User 1 asks to cancel request 99, which does not exist. -/
def unknownIdCancel : Request := { user := { _id := 1 }, paramsId := 99, now := 1700000060000 }

/-- The user `sampleUser` announces a deposit of 250, sent as a JSON number. -/
def numericDeposit : Request :=
  { user := { _id := 1 }, body := { amount := .number (.fin 250) }, now := 1700000000000 }

/-- A store in which the pending request of `sampleUser` has no transaction at all. -/
def unloggedStore : Store :=
  { users := [sampleUser]
    withdrawalRequests := [pendingRequest] }

/-- A completed deposit of `sampleUser`, which refers to no withdrawal request. -/
def otherTransaction : Transaction :=
  { id := 10
    user := 1
    type := "deposit"
    amount := .fin 300
    status := "completed"
    paymentMethod := "bank_transfer"
    description := "Auto-approved deposit"
    metadata := { depositRequestId := some 3, autoApproved := some true }
    createdAt := 1700000000000 }

/-- A store with `sampleUser`, the pending request, its transaction and one other
transaction. -/
def loggedStore : Store :=
  { users := [sampleUser]
    withdrawalRequests := [pendingRequest]
    transactions := [otherTransaction, pendingTransaction] }

/-- The double that is written `228.4`. -/
def double228_4 : ℚ := 8036110585089229 / 35184372088832

/-- The double that is written `100.2`. -/
def double100_2 : ℚ := 7050948166601933 / 70368744177664

/-- A store whose only user, `sampleUser`, has a balance of 228.4. -/
def fractionalStore : Store :=
  { users := [{ sampleUser with balance := some (.fin double228_4) }] }

/-- The user `sampleUser` asks to withdraw 100.2, sent as a JSON number. -/
def fractionalWithdrawal : Request :=
  { user := { _id := 1 }
    body := { amount := .number (.fin double100_2) }
    now := 1700000000000 }

/-! ## Sessions -/

@[simp]
theorem startTransaction_staged (db : Store) : (startTransaction db).staged = db := rfl
@[simp]
theorem startTransaction_committed (db : Store) : (startTransaction db).committed = db := rfl
@[simp]
theorem abort_committed (s : Session) : s.abortTransaction.committed = s.committed := rfl
@[simp]
theorem commit_committed (s : Session) : s.commitTransaction.committed = s.staged := rfl
@[simp]
theorem write_committed (s : Session) (f : Store → Store) :
    (s.write f).committed = s.committed := rfl
@[simp]
theorem write_staged (s : Session) (f : Store → Store) :
    (s.write f).staged = f s.staged := rfl
@[simp]
theorem settle_sent (res : Response) (s : Session) :
    settle (.sent res, s) = (res, s.committed) := rfl
@[simp]
theorem settle_thrown (op : DbOp) (s : Session) :
    settle (.thrown op, s) = (errorResponse op, s.committed) := rfl
@[simp]
theorem errorResponse_status (op : DbOp) : (errorResponse op).status = 500 := rfl
@[simp]
theorem noFaults_apply (op : DbOp) : noFaults op = false := rfl

/-- The end of a handler whose `try` block threw. -/
theorem settle_of_thrown (r : Outcome × Session) (db : Store)
    (h : (∃ op, r.1 = .thrown op) ∧ r.2.committed = db) :
    ∃ op, settle r = (errorResponse op, db) := by
  obtain ⟨⟨op, h1⟩, h2⟩ := h
  obtain ⟨o, s⟩ := r
  simp only at h1 h2
  subst h1
  exact ⟨op, by simp [h2]⟩

/-! ## Numbers -/

/-- A positive finite number, or `Infinity`, is above zero. -/
theorem zero_lt_of_valid (a : JsNum) (h1 : a.isNaN = false) (h2 : a.le (.fin 0) = false) :
    (JsNum.fin 0).lt a = true := by
  cases a with
  | nan => simp [JsNum.isNaN] at h1
  | negInf => simp [JsNum.le] at h2
  | fin q => simpa [JsNum.le, JsNum.lt] using h2
  | posInf => rfl

/-- An accepted amount is positive, so a balance that covers it is a stored, non-zero number:
`user.balance || 0` is then the stored balance itself. -/
theorem balance_of_covers (bal : Option JsNum) (a : JsNum) (h1 : a.isNaN = false)
    (h2 : a.le (.fin 0) = false) (h3 : (numOrZero bal).lt a = false) :
    ∃ b, bal = some b ∧ numOrZero bal = b ∧ b.truthy = true := by
  have key := zero_lt_of_valid a h1 h2
  cases bal with
  | none => simp [numOrZero, key] at h3
  | some b =>
    by_cases hb : b.truthy = true
    · exact ⟨b, rfl, by simp [numOrZero, hb], hb⟩
    · simp [numOrZero, hb, key] at h3

/-- Reserving an accepted amount and refunding it gives the balance back, as long as neither
operation rounds. -/
theorem refund_of_reserve (b a : JsNum) (h1 : a.isNaN = false) (h2 : a.le (.fin 0) = false)
    (h3 : b.lt a = false) (hb : b.truthy = true) :
    (numOrZero (some (b.sub a))).add a = b := by
  cases a with
  | nan => simp [JsNum.isNaN] at h1
  | negInf => simp [JsNum.le] at h2
  | fin q =>
    cases b with
    | nan => simp [JsNum.truthy] at hb
    | negInf => simp [JsNum.lt] at h3
    | fin p =>
      by_cases hz : p - q = 0
      · have : p + -q = 0 := by linarith
        simp [JsNum.sub, JsNum.neg, JsNum.add, numOrZero, JsNum.truthy, this]
        linarith
      · have : ¬ (p + -q = 0) := by intro h; apply hz; linarith
        simp [JsNum.sub, JsNum.neg, JsNum.add, numOrZero, JsNum.truthy, this]
    | posInf => simp [JsNum.sub, JsNum.neg, JsNum.add, numOrZero, JsNum.truthy]
  | posInf =>
    cases b with
    | nan => simp [JsNum.truthy] at hb
    | negInf => simp [JsNum.lt] at h3
    | fin p => simp [JsNum.lt] at h3
    | posInf => simp [JsNum.sub, JsNum.neg, JsNum.add, numOrZero, JsNum.truthy]

/-- A value that parses to a non-zero finite number is truthy. -/
theorem truthy_of_parse (v : JsValue) (q : ℚ) (h : parseFloat v = .fin q) (hq : q ≠ 0) :
    v.truthy = true := by
  cases v with
  | undefined => simp [parseFloat] at h
  | null => simp [parseFloat] at h
  | bool b => simp [parseFloat] at h
  | number n =>
    simp only [parseFloat] at h
    subst h
    simp [JsValue.truthy, JsNum.truthy, hq]
  | string s =>
    by_cases hs : s = ""
    · subst hs
      have : parseFloatString "" = .nan := by decide
      simp [parseFloat, this] at h
    · simp [JsValue.truthy, hs]
  | object str => rfl

/-- A falsy value parses to `NaN` or to zero. -/
theorem parse_of_falsy (v : JsValue) (h : v.truthy = false) :
    parseFloat v = .nan ∨ parseFloat v = .fin 0 := by
  cases v with
  | undefined => left; rfl
  | null => left; rfl
  | bool b => left; rfl
  | number n =>
    cases n with
    | nan => left; rfl
    | negInf => simp [JsValue.truthy, JsNum.truthy] at h
    | fin q =>
      right
      simp [JsValue.truthy, JsNum.truthy] at h
      simp [parseFloat, h]
    | posInf => simp [JsValue.truthy, JsNum.truthy] at h
  | string s =>
    left
    simp [JsValue.truthy] at h
    subst h
    decide
  | object str => simp [JsValue.truthy] at h


/-- An amount that parses to a positive finite number within finite bounds passes the amount
checks of both submissions. -/
theorem amount_guards (v : JsValue) (a lo hi : ℚ) (h : parseFloat v = .fin a) (hpos : 0 < a)
    (h1 : lo ≤ a) (h2 : a ≤ hi) :
    v.truthy = true ∧ (parseFloat v).isNaN = false ∧ (parseFloat v).le (.fin 0) = false
      ∧ (parseFloat v).lt (.fin lo) = false ∧ (parseFloat v).gt (.fin hi) = false := by
  refine ⟨truthy_of_parse v a h (ne_of_gt hpos), ?_, ?_, ?_, ?_⟩
  · rw [h]; rfl
  · rw [h]; simpa [JsNum.le] using hpos
  · rw [h]; simpa [JsNum.lt] using h1
  · rw [h]; simpa [JsNum.gt, JsNum.lt] using h2

/-- An amount that passes the amount checks against finite bounds is a positive finite number
within the bounds. -/
theorem amount_of_guards (p : JsNum) (lo hi : ℚ) (g2 : p.isNaN = false)
    (g3 : p.le (.fin 0) = false) (g4 : p.lt (.fin lo) = false) (g5 : p.gt (.fin hi) = false) :
    ∃ q, p = .fin q ∧ 0 < q ∧ lo ≤ q ∧ q ≤ hi := by
  cases p with
  | nan => simp [JsNum.isNaN] at g2
  | negInf => simp [JsNum.le] at g3
  | fin q =>
    refine ⟨q, rfl, ?_, ?_, ?_⟩
    · simpa [JsNum.le] using g3
    · simpa [JsNum.lt] using g4
    · simpa [JsNum.gt, JsNum.lt] using g5
  | posInf => simp [JsNum.gt, JsNum.lt] at g5

/-- Adding a finite amount to a finite stored number. -/
theorem numOrZero_add_fin (b a : ℚ) :
    (numOrZero (some (.fin b))).add (.fin a) = .fin (b + a) := by
  by_cases hb : b = 0
  · subst hb; simp [numOrZero, JsNum.truthy, JsNum.add]
  · simp [numOrZero, JsNum.truthy, JsNum.add, hb]

/-- The text `250` parses to 250. -/
theorem parseFloatString_250 : parseFloatString "250" = .fin 250 := by
  simp [parseFloatString, parseUnsigned, startsWith, isJsWhiteSpace, isDecimalDigit,
    digitsValue, parseExponent]

/-- The text `0` parses to 0. -/
theorem parseFloatString_zero : parseFloatString "0" = .fin 0 := by
  simp [parseFloatString, parseUnsigned, startsWith, isJsWhiteSpace, isDecimalDigit,
    digitsValue, parseExponent]

/-! ## Store operations -/

/-- An element of a list is at most the maximum of the list. -/
theorem le_foldr_max (l : List Nat) (n : Nat) (h : n ∈ l) : n ≤ l.foldr max 0 := by
  induction l with
  | nil => simp at h
  | cons x xs ih =>
    simp only [List.foldr_cons]
    rcases List.mem_cons.mp h with h | h
    · subst h; exact le_max_left _ _
    · exact le_trans (ih h) (le_max_right _ _)

/-- The fresh identifier is above every identifier in use. -/
theorem lt_freshId (s : Store) (n : Nat) (h : n ∈ s.usedIds) : n < s.freshId :=
  Nat.lt_succ_of_le (le_foldr_max _ _ h)

theorem withdrawalRequest_id_lt_freshId (s : Store) (w : WithdrawalRequest)
    (h : w ∈ s.withdrawalRequests) : w.id < s.freshId := by
  apply lt_freshId
  simp only [Store.usedIds, List.mem_append, List.mem_map]
  exact Or.inl (Or.inl (Or.inl (Or.inl (Or.inl (Or.inr ⟨w, h, rfl⟩)))))

theorem depositRequest_id_lt_freshId (s : Store) (d : DepositRequest)
    (h : d ∈ s.depositRequests) : d.id < s.freshId := by
  apply lt_freshId
  simp only [Store.usedIds, List.mem_append, List.mem_map]
  exact Or.inl (Or.inl (Or.inl (Or.inl (Or.inl (Or.inl (Or.inl (Or.inr ⟨d, h, rfl⟩)))))))

theorem transaction_id_lt_freshId (s : Store) (t : Transaction)
    (h : t ∈ s.transactions) : t.id < s.freshId := by
  apply lt_freshId
  simp only [Store.usedIds, List.mem_append, List.mem_map]
  exact Or.inl (Or.inl (Or.inl (Or.inr ⟨t, h, rfl⟩)))

theorem transaction_ref_lt_freshId (s : Store) (t : Transaction) (k : Nat)
    (h : t ∈ s.transactions) (hk : t.metadata.withdrawalRequestId = some k) :
    k < s.freshId := by
  apply lt_freshId
  simp only [Store.usedIds, List.mem_append, List.mem_map]
  exact Or.inr ⟨t, h, by simp [hk]⟩

/-- The user found by `findById` has the identifier asked for. -/
theorem findUserById_id (s : Store) (id : Nat) (u : User) (h : s.findUserById id = some u) :
    u.id = id := by
  have := List.find?_some h
  simpa using this

/-- Searching by identifier after the document of that identifier was replaced. -/
theorem find_users_replace (l : List User) (id : Nat) (u0 u1 : User)
    (h : l.find? (fun u => decide (u.id = id)) = some u0) (hid : u1.id = id) :
    (l.map (fun x => if x.id = u1.id then u1 else x)).find? (fun u => decide (u.id = id))
      = some u1 := by
  induction l with
  | nil => simp at h
  | cons x xs ih =>
    by_cases hx : x.id = id
    · simp [List.find?_cons, hx, hid]
    · have hx1 : ¬ x.id = u1.id := by rw [hid]; exact hx
      have h1 : xs.find? (fun u => decide (u.id = id)) = some u0 := by
        simpa [List.find?_cons, hx] using h
      simp [List.find?_cons, hx, hx1, ih h1]

/-- After `user.save()`, `findById` returns the saved document. -/
theorem findUserById_saveUser (s : Store) (id : Nat) (u0 u1 : User)
    (h : s.findUserById id = some u0) (hid : u1.id = id) :
    (s.saveUser u1).findUserById id = some u1 :=
  find_users_replace s.users id u0 u1 h hid

/-- Replacing by identifier in a list that ends with the only document of that identifier. -/
theorem map_replace_append {α : Type} (key : α → Nat) (l : List α) (w w1 : α)
    (h : ∀ x ∈ l, key x ≠ key w) :
    (l ++ [w]).map (fun x => if key x = key w then w1 else x) = l ++ [w1] := by
  rw [List.map_append]
  congr 1
  · conv_rhs => rw [← List.map_id l]
    apply List.map_congr_left
    intro x hx
    simp [h x hx]
  · simp

/-- Searching a list that ends with the only document satisfying the predicate. -/
theorem find_append_last {α : Type} (p : α → Bool) (l : List α) (w : α)
    (h : ∀ x ∈ l, p x = false) (hw : p w = true) :
    (l ++ [w]).find? p = some w := by
  rw [List.find?_append]
  have : l.find? p = none := by
    rw [List.find?_eq_none]
    intro x hx
    simp [h x hx]
  simp [this, hw]

/-! ## `createWithdrawalRequest`: structure of a run -/

/-- A storage fault in the writes of a withdrawal leaves the committed store untouched;
without one the writes run as in a fault-free run. -/
theorem withdrawalWrites_faults (faults : Faults) (session : Session) (req : Request)
    (userId : Nat) (amountNum : JsNum) (user : User) :
    withdrawalWrites faults session req userId amountNum user
        = withdrawalWrites noFaults session req userId amountNum user
      ∨ ((∃ op, (withdrawalWrites faults session req userId amountNum user).1 = .thrown op)
          ∧ (withdrawalWrites faults session req userId amountNum user).2.committed
              = session.committed) := by
  by_cases h1 : faults .userSave = true
  · right; simp [withdrawalWrites, h1]
  by_cases h2 : faults .withdrawalRequestCreate = true
  · right; simp [withdrawalWrites, h1, h2]
  by_cases h3 : faults .transactionCreate = true
  · right; simp [withdrawalWrites, h1, h2, h3]
  by_cases h4 : faults .commitTransaction = true
  · right; simp [withdrawalWrites, h1, h2, h3, h4]
  left
  simp [withdrawalWrites, h1, h2, h3, h4, noFaults]

/-- Once every guard has passed, the handler is its writes followed by the end of the run. -/
theorem createWithdrawalRequest_of_guards (env : Env) (faults : Faults) (db : Store)
    (req : Request) (user : User)
    (hf : faults .userFindById = false)
    (hu : db.findUserById (getUserId req) = some user)
    (g1 : req.body.amount.truthy = true)
    (g2 : (parseFloat req.body.amount).isNaN = false)
    (g3 : (parseFloat req.body.amount).le (.fin 0) = false)
    (g4 : (parseFloat req.body.amount).lt (minWithdraw env) = false)
    (g5 : (parseFloat req.body.amount).gt (maxWithdraw env) = false)
    (g6 : strTruthy user.iban = true)
    (g7 : strTruthy user.ibanHolderName = true)
    (g8 : (numOrZero user.balance).lt (parseFloat req.body.amount) = false) :
    createWithdrawalRequest env faults db req
      = settle (withdrawalWrites faults (startTransaction db) req (getUserId req)
          (parseFloat req.body.amount) user) := by
  simp [createWithdrawalRequest, createWithdrawalRequestTry, hf, hu, g1, g2, g3, g4, g5, g6, g7, g8]

/-- A fault-free run that answers 201 has passed every guard. -/
theorem createWithdrawalRequest_guards_of_201 (env : Env) (db : Store) (req : Request)
    (h : (createWithdrawalRequest env noFaults db req).1.status = 201) :
    ∃ user, db.findUserById (getUserId req) = some user
      ∧ req.body.amount.truthy = true
      ∧ (parseFloat req.body.amount).isNaN = false
      ∧ (parseFloat req.body.amount).le (.fin 0) = false
      ∧ (parseFloat req.body.amount).lt (minWithdraw env) = false
      ∧ (parseFloat req.body.amount).gt (maxWithdraw env) = false
      ∧ strTruthy user.iban = true
      ∧ strTruthy user.ibanHolderName = true
      ∧ (numOrZero user.balance).lt (parseFloat req.body.amount) = false := by
  by_cases g1 : req.body.amount.truthy = true
  swap
  · simp [createWithdrawalRequest, createWithdrawalRequestTry, g1] at h
  by_cases g2 : (parseFloat req.body.amount).isNaN = true
  · simp [createWithdrawalRequest, createWithdrawalRequestTry, g1, g2] at h
  by_cases g3 : (parseFloat req.body.amount).le (.fin 0) = true
  · simp [createWithdrawalRequest, createWithdrawalRequestTry, g1, g2, g3] at h
  by_cases g4 : (parseFloat req.body.amount).lt (minWithdraw env) = true
  · simp [createWithdrawalRequest, createWithdrawalRequestTry, g1, g2, g3, g4] at h
  by_cases g5 : (parseFloat req.body.amount).gt (maxWithdraw env) = true
  · simp [createWithdrawalRequest, createWithdrawalRequestTry, g1, g2, g3, g4, g5] at h
  cases hu : db.findUserById (getUserId req) with
  | none => simp [createWithdrawalRequest, createWithdrawalRequestTry, g1, g2, g3, g4, g5, hu] at h
  | some user =>
    by_cases g6 : strTruthy user.iban = true
    swap
    · simp [createWithdrawalRequest, createWithdrawalRequestTry, g1, g2, g3, g4, g5, hu, g6] at h
    by_cases g7 : strTruthy user.ibanHolderName = true
    swap
    · simp [createWithdrawalRequest, createWithdrawalRequestTry, g1, g2, g3, g4, g5, hu, g6,
        g7] at h
    by_cases g8 : (numOrZero user.balance).lt (parseFloat req.body.amount) = true
    · simp [createWithdrawalRequest, createWithdrawalRequestTry, g1, g2, g3, g4, g5, hu, g6,
        g7, g8] at h
    exact ⟨user, rfl, g1, by simpa using g2, by simpa using g3, by simpa using g4,
      by simpa using g5, g6, g7, by simpa using g8⟩

/-- Storage faults either make `createWithdrawalRequest` answer 500 with the store untouched,
or change nothing in the run. -/
theorem createWithdrawalRequest_faults (env : Env) (faults : Faults) (db : Store)
    (req : Request) :
    createWithdrawalRequest env faults db req = createWithdrawalRequest env noFaults db req
      ∨ ∃ op, createWithdrawalRequest env faults db req = (errorResponse op, db) := by
  by_cases g1 : (!req.body.amount.truthy || (parseFloat req.body.amount).isNaN
      || (parseFloat req.body.amount).le (.fin 0)) = true
  · left; simp [createWithdrawalRequest, createWithdrawalRequestTry, g1]
  by_cases g2 : (parseFloat req.body.amount).lt (minWithdraw env) = true
  · left; simp [createWithdrawalRequest, createWithdrawalRequestTry, g1, g2]
  by_cases g3 : (parseFloat req.body.amount).gt (maxWithdraw env) = true
  · left; simp [createWithdrawalRequest, createWithdrawalRequestTry, g1, g2, g3]
  by_cases hf : faults .userFindById = true
  · right
    exact ⟨.userFindById,
      by simp [createWithdrawalRequest, createWithdrawalRequestTry, g1, g2, g3, hf]⟩
  cases hu : db.findUserById (getUserId req) with
  | none =>
    left; simp [createWithdrawalRequest, createWithdrawalRequestTry, g1, g2, g3, hf, hu]
  | some user =>
    by_cases g5 : (!strTruthy user.iban || !strTruthy user.ibanHolderName) = true
    · left; simp [createWithdrawalRequest, createWithdrawalRequestTry, g1, g2, g3, hf, hu, g5]
    by_cases g6 : (numOrZero user.balance).lt (parseFloat req.body.amount) = true
    · left
      simp [createWithdrawalRequest, createWithdrawalRequestTry, g1, g2, g3, hf, hu, g5, g6]
    have e : ∀ f : Faults, f .userFindById = false → createWithdrawalRequest env f db req
        = settle (withdrawalWrites f (startTransaction db) req (getUserId req)
            (parseFloat req.body.amount) user) := by
      intro f hf
      simp [createWithdrawalRequest, createWithdrawalRequestTry, g1, g2, g3, hf, hu, g5, g6]
    rw [e faults (by simpa using hf), e noFaults rfl]
    rcases withdrawalWrites_faults faults (startTransaction db) req (getUserId req)
        (parseFloat req.body.amount) user with h | h
    · left; rw [h]
    · right; exact settle_of_thrown _ _ h

/-- The outcome of the writes of a withdrawal in a run without storage faults. -/
theorem settle_withdrawalWrites (db : Store) (req : Request) (userId : Nat) (a : JsNum)
    (user : User) :
    settle (withdrawalWrites noFaults (startTransaction db) req userId a user) =
      ({ status := 201
         message := .text
           "Çekim talebi oluşturuldu. Admin onayından sonra IBAN'ınıza gönderilecektir."
         withdrawalRequest := some
           (withdrawalRequestDoc (db.saveUser (reservedUser user a)).freshId req userId a
             (reservedUser user a))
         newBalance := some ((numOrZero user.balance).sub a)
         transaction := some
           (withdrawalTransactionDoc
             ((db.saveUser (reservedUser user a)).insertWithdrawalRequest
               (withdrawalRequestDoc (db.saveUser (reservedUser user a)).freshId req userId a
                 (reservedUser user a))).freshId
             req userId a (db.saveUser (reservedUser user a)).freshId) },
       ((db.saveUser (reservedUser user a)).insertWithdrawalRequest
          (withdrawalRequestDoc (db.saveUser (reservedUser user a)).freshId req userId a
            (reservedUser user a))).insertTransaction
         (withdrawalTransactionDoc
           ((db.saveUser (reservedUser user a)).insertWithdrawalRequest
             (withdrawalRequestDoc (db.saveUser (reservedUser user a)).freshId req userId a
               (reservedUser user a))).freshId
           req userId a (db.saveUser (reservedUser user a)).freshId)) := rfl

/-- A run of `createWithdrawalRequest` that answers 201, written out: the caller exists, the
stored balance `b` is a non-zero number covering the amount, and the response and the store
are those of the three writes. -/
theorem createWithdrawalRequest_of_201 (env : Env) (faults : Faults) (db : Store)
    (req : Request) (h : (createWithdrawalRequest env faults db req).1.status = 201) :
    ∃ user b,
      db.findUserById (getUserId req) = some user
      ∧ user.balance = some b ∧ numOrZero user.balance = b ∧ b.truthy = true
      ∧ (parseFloat req.body.amount).isNaN = false
      ∧ (parseFloat req.body.amount).le (.fin 0) = false
      ∧ b.lt (parseFloat req.body.amount) = false
      ∧ createWithdrawalRequest env faults db req
          = settle (withdrawalWrites noFaults (startTransaction db) req (getUserId req)
              (parseFloat req.body.amount) user) := by
  rcases createWithdrawalRequest_faults env faults db req with e | ⟨op, e⟩
  swap
  · rw [e] at h; simp at h
  rw [e] at h ⊢
  obtain ⟨user, hu, g1, g2, g3, g4, g5, g6, g7, g8⟩ :=
    createWithdrawalRequest_guards_of_201 env db req h
  obtain ⟨b, hb, hb1, hb2⟩ := balance_of_covers user.balance _ g2 g3 g8
  refine ⟨user, b, hu, hb, hb1, hb2, g2, g3, ?_, ?_⟩
  · rw [← hb1]; exact g8
  · exact createWithdrawalRequest_of_guards env noFaults db req user rfl hu g1 g2 g3 g4 g5 g6 g7 g8

/-- An amount that fails one of the three amount checks is refused with 400 and nothing is
written, whatever the storage does. -/
theorem createWithdrawalRequest_rejected (env : Env) (faults : Faults) (db : Store)
    (req : Request)
    (h : (!req.body.amount.truthy || (parseFloat req.body.amount).isNaN
          || (parseFloat req.body.amount).le (.fin 0)
          || (parseFloat req.body.amount).lt (minWithdraw env)
          || (parseFloat req.body.amount).gt (maxWithdraw env)) = true) :
    (createWithdrawalRequest env faults db req).1.status = 400
      ∧ (createWithdrawalRequest env faults db req).2 = db := by
  by_cases g : (!req.body.amount.truthy || (parseFloat req.body.amount).isNaN
      || (parseFloat req.body.amount).le (.fin 0)) = true
  · simp [createWithdrawalRequest, createWithdrawalRequestTry, g]
  by_cases g4 : (parseFloat req.body.amount).lt (minWithdraw env) = true
  · simp [createWithdrawalRequest, createWithdrawalRequestTry, g, g4]
  by_cases g5 : (parseFloat req.body.amount).gt (maxWithdraw env) = true
  · simp [createWithdrawalRequest, createWithdrawalRequestTry, g, g4, g5]
  · simp only [Bool.or_eq_true] at h g
    rcases h with (h | h) | h
    · exact absurd h g
    · exact absurd h g4
    · exact absurd h g5

/-! ## `cancelWithdrawalRequest`: structure of a run -/

/-- Searching a request by identifier and owner after the request of that identifier was
replaced by one of the same owner. -/
theorem find_requests_replace (l : List WithdrawalRequest) (id userId : Nat)
    (w w1 : WithdrawalRequest)
    (h : l.find? (fun x => decide (x.id = id) && decide (x.user = userId)) = some w)
    (hid : w1.id = id) (hu : w1.user = userId) :
    (l.map (fun x => if x.id = w1.id then w1 else x)).find?
        (fun x => decide (x.id = id) && decide (x.user = userId)) = some w1 := by
  induction l with
  | nil => simp at h
  | cons x xs ih =>
    by_cases hx : x.id = id
    · simp [List.find?_cons, hx, hid, hu]
    · have hx1 : ¬ x.id = w1.id := by rw [hid]; exact hx
      have h1 : xs.find? (fun x => decide (x.id = id) && decide (x.user = userId)) = some w := by
        simpa [List.find?_cons, hx] using h
      simp [List.find?_cons, hx, hx1, ih h1]

/-- The request found by `findOne` has the identifier and the owner asked for. -/
theorem findWithdrawalRequest_spec (s : Store) (id userId : Nat) (w : WithdrawalRequest)
    (h : s.findWithdrawalRequest id userId = some w) : w.id = id ∧ w.user = userId := by
  have := List.find?_some h
  simpa using this

/-- The store after the writes of a cancellation: the refunded user, the cancelled request,
and the linked transaction cancelled when there is one. -/
theorem cancelWithdrawalRequest_of_pending (db : Store) (req : Request)
    (w : WithdrawalRequest) (user : User)
    (hw : db.findWithdrawalRequest req.paramsId (getUserId req) = some w)
    (hp : w.status = "pending")
    (hu : db.findUserById (getUserId req) = some user) :
    cancelWithdrawalRequest noFaults db req =
      ({ status := 200
         message := .text "Çekim talebi iptal edildi ve bakiye geri yüklendi"
         withdrawalRequest := some (cancelledRequest w req.now)
         newBalance := some ((numOrZero user.balance).add w.amount) },
       match db.findWithdrawalTransaction (getUserId req) w.id with
       | some tx =>
         (((db.saveUser (refundedUser user w)).saveWithdrawalRequest
           (cancelledRequest w req.now)).saveTransaction (cancelledTransaction tx))
       | none =>
         ((db.saveUser (refundedUser user w)).saveWithdrawalRequest
           (cancelledRequest w req.now))) := by
  have e : ((db.saveUser (refundedUser user w)).saveWithdrawalRequest
      (cancelledRequest w req.now)).findWithdrawalTransaction (getUserId req)
        (cancelledRequest w req.now).id
      = db.findWithdrawalTransaction (getUserId req) w.id := rfl
  simp only [cancelWithdrawalRequest, cancelWithdrawalRequestTry, noFaults_apply,
    startTransaction_staged, hw, hp, hu, cancelWrites, write_staged, e]
  cases db.findWithdrawalTransaction (getUserId req) w.id <;>
    simp [cancelCommit, refundedUser]

/-- A request that is not pending is refused and nothing is written. -/
theorem cancelWithdrawalRequest_of_not_pending (db : Store) (req : Request)
    (w : WithdrawalRequest)
    (hw : db.findWithdrawalRequest req.paramsId (getUserId req) = some w)
    (hp : w.status ≠ "pending") :
    cancelWithdrawalRequest noFaults db req =
      ({ status := 400
         message := .text "Sadece beklemede olan çekim talepleri iptal edilebilir." }, db) := by
  simp [cancelWithdrawalRequest, cancelWithdrawalRequestTry, hw, hp]

/-- A storage fault in the writes of a cancellation leaves the committed store untouched;
without one the writes run as in a fault-free run. -/
theorem cancelWrites_faults (faults : Faults) (session : Session) (req : Request)
    (userId : Nat) (w : WithdrawalRequest) (user : User) :
    cancelWrites faults session req userId w user = cancelWrites noFaults session req userId w user
      ∨ ((∃ op, (cancelWrites faults session req userId w user).1 = .thrown op)
          ∧ (cancelWrites faults session req userId w user).2.committed = session.committed) := by
  by_cases h1 : faults .userSave = true
  · right; simp [cancelWrites, h1]
  by_cases h2 : faults .withdrawalRequestSave = true
  · right; simp [cancelWrites, h1, h2]
  by_cases h3 : faults .transactionFindOne = true
  · right; simp [cancelWrites, h1, h2, h3]
  cases ht : (session.staged.saveUser (refundedUser user w)).saveWithdrawalRequest
      (cancelledRequest w req.now) |>.findWithdrawalTransaction userId
        (cancelledRequest w req.now).id with
  | none =>
    by_cases h5 : faults .commitTransaction = true
    · right; simp [cancelWrites, cancelCommit, h1, h2, h3, h5, ht]
    · left; simp [cancelWrites, cancelCommit, h1, h2, h3, h5, ht]
  | some tx =>
    by_cases h4 : faults .transactionSave = true
    · right; simp [cancelWrites, cancelCommit, h1, h2, h3, h4, ht]
    by_cases h5 : faults .commitTransaction = true
    · right; simp [cancelWrites, cancelCommit, h1, h2, h3, h4, h5, ht]
    · left; simp [cancelWrites, cancelCommit, h1, h2, h3, h4, h5, ht]

/-- Storage faults either make `cancelWithdrawalRequest` answer 500 with the store untouched,
or change nothing in the run. -/
theorem cancelWithdrawalRequest_faults (faults : Faults) (db : Store) (req : Request) :
    cancelWithdrawalRequest faults db req = cancelWithdrawalRequest noFaults db req
      ∨ ∃ op, cancelWithdrawalRequest faults db req = (errorResponse op, db) := by
  by_cases hf : faults .withdrawalRequestFindOne = true
  · right
    exact ⟨.withdrawalRequestFindOne,
      by simp [cancelWithdrawalRequest, cancelWithdrawalRequestTry, hf]⟩
  cases hw : db.findWithdrawalRequest req.paramsId (getUserId req) with
  | none => left; simp [cancelWithdrawalRequest, cancelWithdrawalRequestTry, hf, hw]
  | some w =>
    by_cases hp : w.status = "pending"
    swap
    · left; simp [cancelWithdrawalRequest, cancelWithdrawalRequestTry, hf, hw, hp]
    by_cases hf2 : faults .userFindById = true
    · right
      exact ⟨.userFindById,
        by simp [cancelWithdrawalRequest, cancelWithdrawalRequestTry, hf, hw, hp, hf2]⟩
    cases hu : db.findUserById (getUserId req) with
    | none => left; simp [cancelWithdrawalRequest, cancelWithdrawalRequestTry, hf, hw, hp, hf2, hu]
    | some user =>
      have e : ∀ f : Faults, f .withdrawalRequestFindOne = false → f .userFindById = false →
          cancelWithdrawalRequest f db req
            = settle (cancelWrites f (startTransaction db) req (getUserId req) w user) := by
        intro f k1 k2
        simp [cancelWithdrawalRequest, cancelWithdrawalRequestTry, k1, k2, hw, hp, hu]
      rw [e faults (by simpa using hf) (by simpa using hf2), e noFaults rfl rfl]
      rcases cancelWrites_faults faults (startTransaction db) req (getUserId req) w user
        with h | h
      · left; rw [h]
      · right; exact settle_of_thrown _ _ h

/-- The users after a successful cancellation. -/
theorem cancel_users (db : Store) (req : Request) (w : WithdrawalRequest) (user : User)
    (hw : db.findWithdrawalRequest req.paramsId (getUserId req) = some w)
    (hp : w.status = "pending")
    (hu : db.findUserById (getUserId req) = some user) :
    (cancelWithdrawalRequest noFaults db req).2.users
      = (db.saveUser (refundedUser user w)).users := by
  rw [cancelWithdrawalRequest_of_pending db req w user hw hp hu]
  cases db.findWithdrawalTransaction (getUserId req) w.id <;> rfl

/-- The withdrawal requests after a successful cancellation. -/
theorem cancel_withdrawalRequests (db : Store) (req : Request) (w : WithdrawalRequest)
    (user : User)
    (hw : db.findWithdrawalRequest req.paramsId (getUserId req) = some w)
    (hp : w.status = "pending")
    (hu : db.findUserById (getUserId req) = some user) :
    (cancelWithdrawalRequest noFaults db req).2.withdrawalRequests
      = db.withdrawalRequests.map
          (fun x => if x.id = w.id then cancelledRequest w req.now else x) := by
  rw [cancelWithdrawalRequest_of_pending db req w user hw hp hu]
  cases db.findWithdrawalTransaction (getUserId req) w.id <;> rfl

/-- The deposit requests after a successful cancellation. -/
theorem cancel_depositRequests (db : Store) (req : Request) (w : WithdrawalRequest)
    (user : User)
    (hw : db.findWithdrawalRequest req.paramsId (getUserId req) = some w)
    (hp : w.status = "pending")
    (hu : db.findUserById (getUserId req) = some user) :
    (cancelWithdrawalRequest noFaults db req).2.depositRequests = db.depositRequests := by
  rw [cancelWithdrawalRequest_of_pending db req w user hw hp hu]
  cases db.findWithdrawalTransaction (getUserId req) w.id <;> rfl

/-- The transactions after a successful cancellation. -/
theorem cancel_transactions (db : Store) (req : Request) (w : WithdrawalRequest) (user : User)
    (hw : db.findWithdrawalRequest req.paramsId (getUserId req) = some w)
    (hp : w.status = "pending")
    (hu : db.findUserById (getUserId req) = some user) :
    (cancelWithdrawalRequest noFaults db req).2.transactions
      = match db.findWithdrawalTransaction (getUserId req) w.id with
        | some tx =>
          db.transactions.map (fun x => if x.id = tx.id then cancelledTransaction tx else x)
        | none => db.transactions := by
  rw [cancelWithdrawalRequest_of_pending db req w user hw hp hu]
  cases db.findWithdrawalTransaction (getUserId req) w.id <;> rfl

/-- Cancelling a pending request that was just appended together with its transaction, both
under identifiers that nothing in the store uses or refers to. -/
theorem cancel_after_insert (db0 : Store) (u1 : User) (wr : WithdrawalRequest)
    (tx : Transaction) (creq : Request)
    (hu1 : db0.findUserById (getUserId creq) = some u1)
    (hid : creq.paramsId = wr.id) (howner : wr.user = getUserId creq)
    (hp : wr.status = "pending")
    (htxu : tx.user = getUserId creq) (href : tx.metadata.withdrawalRequestId = some wr.id)
    (hfresh : ∀ x ∈ db0.withdrawalRequests, x.id ≠ wr.id)
    (hnoref : ∀ t ∈ db0.transactions, t.metadata.withdrawalRequestId ≠ some wr.id)
    (htxfresh : ∀ t ∈ db0.transactions, t.id ≠ tx.id) :
    (cancelWithdrawalRequest noFaults ((db0.insertWithdrawalRequest wr).insertTransaction tx)
        creq).1.status = 200
    ∧ (cancelWithdrawalRequest noFaults ((db0.insertWithdrawalRequest wr).insertTransaction tx)
        creq).1.newBalance = some ((numOrZero u1.balance).add wr.amount)
    ∧ (cancelWithdrawalRequest noFaults ((db0.insertWithdrawalRequest wr).insertTransaction tx)
        creq).2.users = (db0.saveUser (refundedUser u1 wr)).users
    ∧ (cancelWithdrawalRequest noFaults ((db0.insertWithdrawalRequest wr).insertTransaction tx)
        creq).2.withdrawalRequests = db0.withdrawalRequests ++ [cancelledRequest wr creq.now]
    ∧ (cancelWithdrawalRequest noFaults ((db0.insertWithdrawalRequest wr).insertTransaction tx)
        creq).2.transactions = db0.transactions ++ [cancelledTransaction tx]
    ∧ (cancelWithdrawalRequest noFaults ((db0.insertWithdrawalRequest wr).insertTransaction tx)
        creq).2.depositRequests = db0.depositRequests := by
  have hw : ((db0.insertWithdrawalRequest wr).insertTransaction tx).findWithdrawalRequest
      creq.paramsId (getUserId creq) = some wr := by
    show (db0.withdrawalRequests ++ [wr]).find? _ = some wr
    apply find_append_last
    · intro x hx
      have := hfresh x hx
      simp [hid, this]
    · simp [hid, howner]
  have hu : ((db0.insertWithdrawalRequest wr).insertTransaction tx).findUserById
      (getUserId creq) = some u1 := hu1
  have ht : ((db0.insertWithdrawalRequest wr).insertTransaction tx).findWithdrawalTransaction
      (getUserId creq) wr.id = some tx := by
    show (db0.transactions ++ [tx]).find? _ = some tx
    apply find_append_last
    · intro t ht
      have := hnoref t ht
      simp [this]
    · simp [htxu, href]
  refine ⟨?_, ?_, ?_, ?_, ?_, ?_⟩
  · rw [cancelWithdrawalRequest_of_pending _ creq wr u1 hw hp hu]
  · rw [cancelWithdrawalRequest_of_pending _ creq wr u1 hw hp hu]
  · rw [cancel_users _ creq wr u1 hw hp hu]; rfl
  · rw [cancel_withdrawalRequests _ creq wr u1 hw hp hu]
    exact map_replace_append (fun x => x.id) db0.withdrawalRequests wr
      (cancelledRequest wr creq.now) hfresh
  · rw [cancel_transactions _ creq wr u1 hw hp hu, ht]
    exact map_replace_append (fun x => x.id) db0.transactions tx (cancelledTransaction tx)
      htxfresh
  · rw [cancel_depositRequests _ creq wr u1 hw hp hu]; rfl

/-! ## `createIbanDeposit`: structure of a run -/

/-- Once every guard has passed, the handler is its writes followed by the end of the run. -/
theorem createIbanDeposit_of_guards (env : Env) (faults : Faults) (db : Store)
    (req : Request) (user : User)
    (hf : faults .userFindById = false)
    (hu : db.findUserById (getUserId req) = some user)
    (g1 : req.body.amount.truthy = true)
    (g2 : (parseFloat req.body.amount).isNaN = false)
    (g3 : (parseFloat req.body.amount).le (.fin 0) = false)
    (g4 : (parseFloat req.body.amount).lt (minDeposit env) = false)
    (g5 : (parseFloat req.body.amount).gt (maxDeposit env) = false) :
    createIbanDeposit env faults db req
      = settle (depositWrites env faults (startTransaction db) req (getUserId req)
          (parseFloat req.body.amount) user) := by
  simp [createIbanDeposit, createIbanDepositTry, hf, hu, g1, g2, g3, g4, g5]

/-- An amount that fails the first check is refused with `Invalid amount`. -/
theorem createIbanDeposit_invalid (env : Env) (faults : Faults) (db : Store) (req : Request)
    (h : req.body.amount.truthy = false ∨ (parseFloat req.body.amount).isNaN = true
      ∨ (parseFloat req.body.amount).le (.fin 0) = true) :
    createIbanDeposit env faults db req
      = ({ status := 400, message := .text "Invalid amount" }, db) := by
  rcases h with h | h | h <;> simp [createIbanDeposit, createIbanDepositTry, h]

/-- An amount below the lower bound is refused. -/
theorem createIbanDeposit_below (env : Env) (faults : Faults) (db : Store) (req : Request)
    (h : (parseFloat req.body.amount).lt (minDeposit env) = true) :
    (createIbanDeposit env faults db req).1.status = 400
      ∧ (createIbanDeposit env faults db req).2 = db := by
  by_cases g : (!req.body.amount.truthy || (parseFloat req.body.amount).isNaN
      || (parseFloat req.body.amount).le (.fin 0)) = true
  · simp [createIbanDeposit, createIbanDepositTry, g]
  · simp [createIbanDeposit, createIbanDepositTry, g, h]

/-- An amount above the upper bound is refused. -/
theorem createIbanDeposit_above (env : Env) (faults : Faults) (db : Store) (req : Request)
    (h : (parseFloat req.body.amount).gt (maxDeposit env) = true) :
    (createIbanDeposit env faults db req).1.status = 400
      ∧ (createIbanDeposit env faults db req).2 = db := by
  by_cases g : (!req.body.amount.truthy || (parseFloat req.body.amount).isNaN
      || (parseFloat req.body.amount).le (.fin 0)) = true
  · simp [createIbanDeposit, createIbanDepositTry, g]
  by_cases g4 : (parseFloat req.body.amount).lt (minDeposit env) = true
  · simp [createIbanDeposit, createIbanDepositTry, g, g4]
  · simp [createIbanDeposit, createIbanDepositTry, g, g4, h]

/-- The outcome of the writes of a deposit under auto-approval, without storage faults. -/
theorem settle_depositWrites_auto (env : Env) (db : Store) (req : Request) (userId : Nat)
    (a : JsNum) (user : User) (hauto : autoApprove env = true) :
    settle (depositWrites env noFaults (startTransaction db) req userId a user) =
      ({ status := 201
         message := .text "Deposit approved and added to balance (development mode)"
         depositRequest := some (depositRequestDoc env db.freshId req userId a)
         newBalance := some ((numOrZero user.balance).add a)
         transaction := some
           (depositTransactionDoc
             ((db.insertDepositRequest (depositRequestDoc env db.freshId req userId a)).saveUser
               (creditedUser user a)).freshId
             req userId a db.freshId) },
       ((db.insertDepositRequest (depositRequestDoc env db.freshId req userId a)).saveUser
          (creditedUser user a)).insertTransaction
         (depositTransactionDoc
           ((db.insertDepositRequest (depositRequestDoc env db.freshId req userId a)).saveUser
             (creditedUser user a)).freshId
           req userId a db.freshId)) := by
  simp [depositWrites, hauto, creditedUser, depositRequestDoc]

/-- The outcome of the writes of a deposit when approval is required, without storage
faults. -/
theorem settle_depositWrites_manual (env : Env) (db : Store) (req : Request) (userId : Nat)
    (a : JsNum) (user : User) (hauto : autoApprove env = false) :
    settle (depositWrites env noFaults (startTransaction db) req userId a user) =
      ({ status := 201
         message := .text "Deposit request submitted. It will be credited after approval."
         depositRequest := some (depositRequestDoc env db.freshId req userId a)
         newBalance := none
         transaction := none },
       db.insertDepositRequest (depositRequestDoc env db.freshId req userId a)) := by
  simp [depositWrites, hauto]

/-- A storage fault in the writes of a deposit leaves the committed store untouched; without
one the writes run as in a fault-free run. -/
theorem depositWrites_faults (env : Env) (faults : Faults) (session : Session) (req : Request)
    (userId : Nat) (amountNum : JsNum) (user : User) :
    depositWrites env faults session req userId amountNum user
        = depositWrites env noFaults session req userId amountNum user
      ∨ ((∃ op, (depositWrites env faults session req userId amountNum user).1 = .thrown op)
          ∧ (depositWrites env faults session req userId amountNum user).2.committed
              = session.committed) := by
  by_cases h1 : faults .depositRequestCreate = true
  · right; simp [depositWrites, h1]
  by_cases h5 : faults .commitTransaction = true
  · right
    by_cases hauto : autoApprove env = true
    · by_cases h2 : faults .userSave = true
      · simp [depositWrites, h1, hauto, h2]
      by_cases h3 : faults .transactionCreate = true
      · simp [depositWrites, h1, hauto, h2, h3]
      · simp [depositWrites, h1, hauto, h2, h3, h5]
    · simp [depositWrites, h1, hauto, h5]
  by_cases hauto : autoApprove env = true
  · by_cases h2 : faults .userSave = true
    · right; simp [depositWrites, h1, hauto, h2]
    by_cases h3 : faults .transactionCreate = true
    · right; simp [depositWrites, h1, hauto, h2, h3]
    · left; simp [depositWrites, h1, hauto, h2, h3, h5]
  · left; simp [depositWrites, h1, hauto, h5]

/-- Storage faults either make `createIbanDeposit` answer 500 with the store untouched, or
change nothing in the run. -/
theorem createIbanDeposit_faults (env : Env) (faults : Faults) (db : Store) (req : Request) :
    createIbanDeposit env faults db req = createIbanDeposit env noFaults db req
      ∨ ∃ op, createIbanDeposit env faults db req = (errorResponse op, db) := by
  by_cases g1 : (!req.body.amount.truthy || (parseFloat req.body.amount).isNaN
      || (parseFloat req.body.amount).le (.fin 0)) = true
  · left; simp [createIbanDeposit, createIbanDepositTry, g1]
  by_cases g2 : (parseFloat req.body.amount).lt (minDeposit env) = true
  · left; simp [createIbanDeposit, createIbanDepositTry, g1, g2]
  by_cases g3 : (parseFloat req.body.amount).gt (maxDeposit env) = true
  · left; simp [createIbanDeposit, createIbanDepositTry, g1, g2, g3]
  by_cases hf : faults .userFindById = true
  · right
    exact ⟨.userFindById, by simp [createIbanDeposit, createIbanDepositTry, g1, g2, g3, hf]⟩
  cases hu : db.findUserById (getUserId req) with
  | none => left; simp [createIbanDeposit, createIbanDepositTry, g1, g2, g3, hf, hu]
  | some user =>
    have e : ∀ f : Faults, f .userFindById = false → createIbanDeposit env f db req
        = settle (depositWrites env f (startTransaction db) req (getUserId req)
            (parseFloat req.body.amount) user) := by
      intro f hf
      simp [createIbanDeposit, createIbanDepositTry, g1, g2, g3, hf, hu]
    rw [e faults (by simpa using hf), e noFaults rfl]
    rcases depositWrites_faults env faults (startTransaction db) req (getUserId req)
        (parseFloat req.body.amount) user with h | h
    · left; rw [h]
    · right; exact settle_of_thrown _ _ h

/-- In a run without storage faults the writes of a deposit end in a 201 response. -/
theorem depositWrites_status (env : Env) (session : Session) (req : Request) (userId : Nat)
    (a : JsNum) (user : User) :
    (settle (depositWrites env noFaults session req userId a user)).1.status = 201 := by
  by_cases hauto : autoApprove env = true <;> simp [depositWrites, hauto]

/-- The answer of `createIbanDeposit` for an existing user, without storage faults: 201 when
the amount passes the three amount checks, 400 otherwise. -/
theorem createIbanDeposit_status (env : Env) (db : Store) (req : Request) (user : User)
    (hu : db.findUserById (getUserId req) = some user) :
    (createIbanDeposit env noFaults db req).1.status
      = if (!req.body.amount.truthy || (parseFloat req.body.amount).isNaN
            || (parseFloat req.body.amount).le (.fin 0)
            || (parseFloat req.body.amount).lt (minDeposit env)
            || (parseFloat req.body.amount).gt (maxDeposit env)) = true
        then 400 else 201 := by
  by_cases g1 : req.body.amount.truthy = true
  swap
  · rw [createIbanDeposit_invalid env noFaults db req (Or.inl (by simpa using g1))]
    simp [g1]
  by_cases g2 : (parseFloat req.body.amount).isNaN = true
  · rw [createIbanDeposit_invalid env noFaults db req (Or.inr (Or.inl g2))]
    simp [g2]
  by_cases g3 : (parseFloat req.body.amount).le (.fin 0) = true
  · rw [createIbanDeposit_invalid env noFaults db req (Or.inr (Or.inr g3))]
    simp [g3]
  by_cases g4 : (parseFloat req.body.amount).lt (minDeposit env) = true
  · rw [(createIbanDeposit_below env noFaults db req g4).1]
    simp [g4]
  by_cases g5 : (parseFloat req.body.amount).gt (maxDeposit env) = true
  · rw [(createIbanDeposit_above env noFaults db req g5).1]
    simp [g5]
  rw [createIbanDeposit_of_guards env noFaults db req user rfl hu g1 (by simpa using g2)
    (by simpa using g3) (by simpa using g4) (by simpa using g5), depositWrites_status]
  simp [g1, g2, g3, g4, g5]

/-! ## The possible ends of a run -/

/-- A fault-free `createIbanDeposit` either refuses with 400 or 404, creating nothing and
leaving the store as it was, or passes every guard and performs its writes. -/
theorem createIbanDeposit_cases (env : Env) (db : Store) (req : Request) :
    ((createIbanDeposit env noFaults db req).2 = db
        ∧ ((createIbanDeposit env noFaults db req).1.status = 400
          ∨ (createIbanDeposit env noFaults db req).1.status = 404)
        ∧ (createIbanDeposit env noFaults db req).1.depositRequest = none)
      ∨ ∃ user, db.findUserById (getUserId req) = some user
          ∧ (parseFloat req.body.amount).isNaN = false
          ∧ (parseFloat req.body.amount).le (.fin 0) = false
          ∧ createIbanDeposit env noFaults db req
              = settle (depositWrites env noFaults (startTransaction db) req (getUserId req)
                  (parseFloat req.body.amount) user) := by
  by_cases g1 : req.body.amount.truthy = true
  swap
  · left; simp [createIbanDeposit, createIbanDepositTry, g1]
  by_cases g2 : (parseFloat req.body.amount).isNaN = true
  · left; simp [createIbanDeposit, createIbanDepositTry, g1, g2]
  by_cases g3 : (parseFloat req.body.amount).le (.fin 0) = true
  · left; simp [createIbanDeposit, createIbanDepositTry, g1, g2, g3]
  by_cases g4 : (parseFloat req.body.amount).lt (minDeposit env) = true
  · left; simp [createIbanDeposit, createIbanDepositTry, g1, g2, g3, g4]
  by_cases g5 : (parseFloat req.body.amount).gt (maxDeposit env) = true
  · left; simp [createIbanDeposit, createIbanDepositTry, g1, g2, g3, g4, g5]
  cases hu : db.findUserById (getUserId req) with
  | none => left; simp [createIbanDeposit, createIbanDepositTry, g1, g2, g3, g4, g5, hu]
  | some user =>
    right
    exact ⟨user, rfl, by simpa using g2, by simpa using g3,
      createIbanDeposit_of_guards env noFaults db req user rfl hu g1 (by simpa using g2)
        (by simpa using g3) (by simpa using g4) (by simpa using g5)⟩

/-- A fault-free `createWithdrawalRequest` either refuses with 400 or 404 and leaves the
store as it was, or answers 201. -/
theorem createWithdrawalRequest_cases (env : Env) (db : Store) (req : Request) :
    ((createWithdrawalRequest env noFaults db req).2 = db
        ∧ ((createWithdrawalRequest env noFaults db req).1.status = 400
          ∨ (createWithdrawalRequest env noFaults db req).1.status = 404))
      ∨ (createWithdrawalRequest env noFaults db req).1.status = 201 := by
  by_cases g : (!req.body.amount.truthy || (parseFloat req.body.amount).isNaN
      || (parseFloat req.body.amount).le (.fin 0)
      || (parseFloat req.body.amount).lt (minWithdraw env)
      || (parseFloat req.body.amount).gt (maxWithdraw env)) = true
  · left
    have h := createWithdrawalRequest_rejected env noFaults db req g
    exact ⟨h.2, Or.inl h.1⟩
  simp only [Bool.or_eq_true, not_or, Bool.not_eq_true, Bool.not_eq_true',
    Bool.not_eq_false] at g
  obtain ⟨⟨⟨⟨g1, g2⟩, g3⟩, g4⟩, g5⟩ := g
  cases hu : db.findUserById (getUserId req) with
  | none =>
    left; simp [createWithdrawalRequest, createWithdrawalRequestTry, g1, g2, g3, g4, g5, hu]
  | some user =>
    by_cases g6 : strTruthy user.iban = true
    swap
    · left
      simp [createWithdrawalRequest, createWithdrawalRequestTry, g1, g2, g3, g4, g5, hu, g6]
    by_cases g7 : strTruthy user.ibanHolderName = true
    swap
    · left
      simp [createWithdrawalRequest, createWithdrawalRequestTry, g1, g2, g3, g4, g5, hu, g6,
        g7]
    by_cases g8 : (numOrZero user.balance).lt (parseFloat req.body.amount) = true
    · left
      simp [createWithdrawalRequest, createWithdrawalRequestTry, g1, g2, g3, g4, g5, hu, g6,
        g7, g8]
    right
    rw [createWithdrawalRequest_of_guards env noFaults db req user rfl hu g1 g2 g3 g4 g5 g6 g7
      (by simpa using g8), settle_withdrawalWrites]

/-- A fault-free `cancelWithdrawalRequest` either refuses with 400 or 404 and leaves the
store as it was, or has found a pending request of the caller and the caller's user. -/
theorem cancelWithdrawalRequest_cases (db : Store) (req : Request) :
    ((cancelWithdrawalRequest noFaults db req).2 = db
        ∧ ((cancelWithdrawalRequest noFaults db req).1.status = 400
          ∨ (cancelWithdrawalRequest noFaults db req).1.status = 404))
      ∨ ∃ w user, db.findWithdrawalRequest req.paramsId (getUserId req) = some w
          ∧ w.status = "pending" ∧ db.findUserById (getUserId req) = some user := by
  cases hw : db.findWithdrawalRequest req.paramsId (getUserId req) with
  | none => left; simp [cancelWithdrawalRequest, cancelWithdrawalRequestTry, hw]
  | some w =>
    by_cases hp : w.status = "pending"
    swap
    · left; simp [cancelWithdrawalRequest, cancelWithdrawalRequestTry, hw, hp]
    cases hu : db.findUserById (getUserId req) with
    | none => left; simp [cancelWithdrawalRequest, cancelWithdrawalRequestTry, hw, hp, hu]
    | some user => right; exact ⟨w, user, rfl, hp, rfl⟩

/-- A run of `updateProfile` either writes nothing, or has found the caller's user and
stores that user with the allowed fields of the body set. -/
theorem updateProfile_cases (faults : Faults) (db : Store) (req : Request) :
    ((updateProfile faults db req).2 = db ∧ (updateProfile faults db req).1.status ≠ 200)
      ∨ ∃ u, db.findUserById (getUserId req) = some u
          ∧ updateProfile faults db req
              = ({ status := 200
                   message := .text "Profil güncellendi"
                   user := some (setAllowedFields req.body u) },
                 db.saveUser (setAllowedFields req.body u)) := by
  by_cases h1 : (strTruthy req.body.iban
      && !ibanRegexTest (removeWhiteSpace (req.body.iban.getD ""))) = true
  · left; simp [updateProfile, h1]
  by_cases h2 : faults .userFindByIdAndUpdate = true
  · left; simp [updateProfile, h1, h2, errorResponse]
  cases hu : db.findUserById (getUserId req) with
  | none => left; simp [updateProfile, h1, h2, hu]
  | some u => right; exact ⟨u, rfl, by simp [updateProfile, h1, h2, hu]⟩

/-! ## The listings: sorting, paging and the page count -/

/-- The sort `newestFirst` keeps the documents and puts them in descending order of time. -/
theorem newestFirst_spec {α : Type} (createdAt : α → Nat) (l : List α) :
    (newestFirst createdAt l).Perm l
      ∧ (newestFirst createdAt l).Sorted (fun a b => createdAt b ≤ createdAt a) := by
  haveI : IsTotal α (fun a b => createdAt b ≤ createdAt a) :=
    ⟨fun a b => le_total (createdAt b) (createdAt a)⟩
  haveI : IsTrans α (fun a b => createdAt b ≤ createdAt a) :=
    ⟨fun a b c hab hbc => le_trans hbc hab⟩
  exact ⟨List.perm_insertionSort _ l, List.sorted_insertionSort _ l⟩

/-- For a page `p >= 1` and a limit `l >= 1` the cursor drops `(p - 1) * l` documents and
takes the next `l`. -/
theorem limitSkip_page {α : Type} (ordered : List α) (p l : Nat) (hp : 1 ≤ p) :
    limitSkip ordered (l : Int) (((p : Int) - 1) * (l : Int))
      = some ((ordered.drop ((p - 1) * l)).take l) := by
  have h1 : ((p : Int) - 1) * (l : Int) = (((p - 1) * l : Nat) : Int) := by
    push_cast [Nat.cast_sub hp]
    ring
  have h2 : ¬ ((((p - 1) * l : Nat) : Int) < 0) := Int.not_lt.mpr (Int.ofNat_nonneg _)
  rw [limitSkip, h1, if_neg h2, Int.toNat_ofNat, Int.natAbs_ofNat]

/-- The length of a page. -/
theorem page_length {α : Type} (ordered : List α) (p l : Nat) (hp : 1 ≤ p) :
    ((ordered.drop ((p - 1) * l)).take l).length
      = min (p * l) ordered.length - (p - 1) * l := by
  have h : p * l = (p - 1) * l + l := by
    obtain ⟨k, rfl⟩ : ∃ k, p = k + 1 := ⟨p - 1, by omega⟩
    simp [Nat.add_mul]
  rw [List.length_take, List.length_drop, h]
  omega

/-- The documents of a page are those at the positions `(p - 1) * l + i` of the ordering. -/
theorem page_getElem {α : Type} (ordered : List α) (p l i : Nat)
    (hi : i < ((ordered.drop ((p - 1) * l)).take l).length) :
    ((ordered.drop ((p - 1) * l)).take l)[i]? = ordered[(p - 1) * l + i]? := by
  have hil : i < l := by
    rw [List.length_take] at hi
    omega
  rw [List.getElem?_take_of_lt hil, List.getElem?_drop]

/-- The page count `Math.ceil(total / limitNum)` is the least number of pages of `l`
documents that hold `n` documents. -/
theorem ceil_pages (n l : Nat) (hl : 1 ≤ l) :
    (n : Int) ≤ ⌈(n : ℚ) / (l : ℚ)⌉ * (l : Int)
      ∧ ⌈(n : ℚ) / (l : ℚ)⌉ * (l : Int) < (n : Int) + (l : Int) := by
  have hlq : (0 : ℚ) < (l : ℚ) := by exact_mod_cast hl
  constructor
  · have h := Int.le_ceil ((n : ℚ) / (l : ℚ))
    have h2 : (n : ℚ) ≤ (⌈(n : ℚ) / (l : ℚ)⌉ : ℚ) * (l : ℚ) := by
      rwa [div_le_iff₀ hlq] at h
    exact_mod_cast h2
  · have h := Int.ceil_lt_add_one ((n : ℚ) / (l : ℚ))
    have h2 : (⌈(n : ℚ) / (l : ℚ)⌉ : ℚ) * (l : ℚ) < (n : ℚ) + (l : ℚ) := by
      have h3 : (⌈(n : ℚ) / (l : ℚ)⌉ : ℚ) * (l : ℚ) < ((n : ℚ) / (l : ℚ) + 1) * (l : ℚ) :=
        mul_lt_mul_of_pos_right h hlq
      have h4 : ((n : ℚ) / (l : ℚ) + 1) * (l : ℚ) = (n : ℚ) + (l : ℚ) := by
        field_simp
      rw [h4] at h3
      exact h3
    exact_mod_cast h2

/-- Without a status parameter the deposit filter selects the requests of the caller. -/
theorem depositQuery_none (userId : Nat) :
    depositQuery userId none = fun d => decide (d.user = userId) := by
  funext d
  simp [depositQuery, strTruthy]

/-- Without a status parameter the withdrawal filter selects the requests of the caller. -/
theorem withdrawalQuery_none (userId : Nat) :
    withdrawalQuery userId none = fun w => decide (w.user = userId) := by
  funext w
  simp [withdrawalQuery, strTruthy]

/-- The answer of `getMyDepositRequests` for a page `p >= 1` and a limit `l >= 1`. -/
theorem getMyDepositRequests_page (db : Store) (req : Request) (p l : Nat)
    (hp : intParam req.query.page 1 = (p : Int)) (hl : intParam req.query.limit 50 = (l : Int))
    (hp1 : 1 ≤ p) :
    getMyDepositRequests noFaults db req
      = .json
          (((newestFirst (fun d => d.createdAt)
              (db.depositRequests.filter (depositQuery (getUserId req) req.query.status))).drop
                ((p - 1) * l)).take l)
          ⌈((db.depositRequests.filter
              (depositQuery (getUserId req) req.query.status)).length : ℚ) / (l : ℚ)⌉
          p
          (db.depositRequests.filter (depositQuery (getUserId req) req.query.status)).length := by
  simp only [getMyDepositRequests, noFaults_apply, hp, hl, limitSkip_page _ p l hp1]
  simp

/-- The answer of `getMyWithdrawalRequests` for a page `p >= 1` and a limit `l >= 1`. -/
theorem getMyWithdrawalRequests_page (db : Store) (req : Request) (p l : Nat)
    (hp : intParam req.query.page 1 = (p : Int)) (hl : intParam req.query.limit 50 = (l : Int))
    (hp1 : 1 ≤ p) :
    getMyWithdrawalRequests noFaults db req
      = .json
          ((((newestFirst (fun w => w.createdAt)
              (db.withdrawalRequests.filter
                (withdrawalQuery (getUserId req) req.query.status))).drop
                  ((p - 1) * l)).take l).map selectPublic)
          ⌈((db.withdrawalRequests.filter
              (withdrawalQuery (getUserId req) req.query.status)).length : ℚ) / (l : ℚ)⌉
          p
          (db.withdrawalRequests.filter
            (withdrawalQuery (getUserId req) req.query.status)).length := by
  simp only [getMyWithdrawalRequests, noFaults_apply, hp, hl, limitSkip_page _ p l hp1]
  simp

/-! ## The stores a call can leave -/

/-- A run of `createIbanDeposit`, with or without storage faults, leaves the store as it was
or has found the caller and accepted the amount; the withdrawal requests are then untouched
and the users are those before the run (approval required) or have the caller credited
(auto-approval). -/
theorem createIbanDeposit_store (env : Env) (faults : Faults) (db : Store) (req : Request) :
    (createIbanDeposit env faults db req).2 = db
      ∨ ∃ user, db.findUserById (getUserId req) = some user
          ∧ (parseFloat req.body.amount).isNaN = false
          ∧ (parseFloat req.body.amount).le (.fin 0) = false
          ∧ (createIbanDeposit env faults db req).2.withdrawalRequests = db.withdrawalRequests
          ∧ ((createIbanDeposit env faults db req).2.users = db.users
            ∨ (createIbanDeposit env faults db req).2.users
                = (db.saveUser (creditedUser user (parseFloat req.body.amount))).users) := by
  rcases createIbanDeposit_faults env faults db req with e | ⟨op, e⟩
  swap
  · left; rw [e]
  rw [e]
  rcases createIbanDeposit_cases env db req with ⟨h, -⟩ | ⟨user, hu, g2, g3, h⟩
  · left; exact h
  right
  refine ⟨user, hu, g2, g3, ?_⟩
  rw [h]
  by_cases hauto : autoApprove env = true
  · rw [settle_depositWrites_auto env db req _ _ user hauto]
    exact ⟨rfl, Or.inr rfl⟩
  · rw [settle_depositWrites_manual env db req _ _ user (by simpa using hauto)]
    exact ⟨rfl, Or.inl rfl⟩

/-- A run of `createIbanDeposit` under auto-approval that answers 201 has found the caller,
accepted the amount and performed the three writes. -/
theorem createIbanDeposit_of_201_auto (env : Env) (faults : Faults) (db : Store)
    (req : Request) (hauto : autoApprove env = true)
    (h : (createIbanDeposit env faults db req).1.status = 201) :
    ∃ user, db.findUserById (getUserId req) = some user
      ∧ (parseFloat req.body.amount).isNaN = false
      ∧ (parseFloat req.body.amount).le (.fin 0) = false
      ∧ (createIbanDeposit env faults db req).2.withdrawalRequests = db.withdrawalRequests
      ∧ (createIbanDeposit env faults db req).2.users
          = (db.saveUser (creditedUser user (parseFloat req.body.amount))).users := by
  rcases createIbanDeposit_faults env faults db req with e | ⟨op, e⟩
  swap
  · rw [e] at h; simp [errorResponse] at h
  rw [e] at h ⊢
  rcases createIbanDeposit_cases env db req with ⟨-, h1 | h1, -⟩ | ⟨user, hu, g2, g3, h1⟩
  · rw [h1] at h; exact absurd h (by decide)
  · rw [h1] at h; exact absurd h (by decide)
  refine ⟨user, hu, g2, g3, ?_⟩
  rw [h1, settle_depositWrites_auto env db req _ _ user hauto]
  exact ⟨rfl, rfl⟩

/-- A run of `createWithdrawalRequest`, with or without storage faults, leaves the store as it
was or has found the caller, accepted an amount the balance covers, stored the caller with the
amount reserved and appended one pending request for that amount. -/
theorem createWithdrawalRequest_store (env : Env) (faults : Faults) (db : Store)
    (req : Request) :
    (createWithdrawalRequest env faults db req).2 = db
      ∨ ∃ user, db.findUserById (getUserId req) = some user
          ∧ (parseFloat req.body.amount).isNaN = false
          ∧ (parseFloat req.body.amount).le (.fin 0) = false
          ∧ (parseFloat req.body.amount).gt (maxWithdraw env) = false
          ∧ (numOrZero user.balance).lt (parseFloat req.body.amount) = false
          ∧ (createWithdrawalRequest env faults db req).2.users
              = (db.saveUser (reservedUser user (parseFloat req.body.amount))).users
          ∧ (createWithdrawalRequest env faults db req).2.withdrawalRequests
              = db.withdrawalRequests
                ++ [withdrawalRequestDoc
                      (db.saveUser (reservedUser user (parseFloat req.body.amount))).freshId
                      req (getUserId req) (parseFloat req.body.amount)
                      (reservedUser user (parseFloat req.body.amount))] := by
  rcases createWithdrawalRequest_faults env faults db req with e | ⟨op, e⟩
  swap
  · left; rw [e]
  rw [e]
  rcases createWithdrawalRequest_cases env db req with ⟨h, -⟩ | h
  · left; exact h
  right
  obtain ⟨user, hu, g1, g2, g3, g4, g5, g6, g7, g8⟩ :=
    createWithdrawalRequest_guards_of_201 env db req h
  refine ⟨user, hu, g2, g3, g5, g8, ?_⟩
  rw [createWithdrawalRequest_of_guards env noFaults db req user rfl hu g1 g2 g3 g4 g5 g6 g7 g8,
    settle_withdrawalWrites]
  exact ⟨rfl, rfl⟩

/-- A run of `cancelWithdrawalRequest`, with or without storage faults, leaves the store as it
was or has found a pending request of the caller, stored the caller with the amount refunded
and replaced the request by its cancelled form. -/
theorem cancelWithdrawalRequest_store (faults : Faults) (db : Store) (req : Request) :
    (cancelWithdrawalRequest faults db req).2 = db
      ∨ ∃ w user, db.findWithdrawalRequest req.paramsId (getUserId req) = some w
          ∧ w.status = "pending"
          ∧ db.findUserById (getUserId req) = some user
          ∧ (cancelWithdrawalRequest faults db req).2.users
              = (db.saveUser (refundedUser user w)).users
          ∧ (cancelWithdrawalRequest faults db req).2.withdrawalRequests
              = db.withdrawalRequests.map
                  (fun x => if x.id = w.id then cancelledRequest w req.now else x) := by
  rcases cancelWithdrawalRequest_faults faults db req with e | ⟨op, e⟩
  swap
  · left; rw [e]
  rw [e]
  rcases cancelWithdrawalRequest_cases db req with ⟨h, -⟩ | ⟨w, user, hw, hp, hu⟩
  · left; exact h
  right
  exact ⟨w, user, hw, hp, hu, cancel_users db req w user hw hp hu,
    cancel_withdrawalRequests db req w user hw hp hu⟩

/-! ## Balances that stay at or above zero -/

/-- The sum of two numbers that are at least 0 is at least 0. -/
theorem nonneg_add (x y : JsNum) (hx : (JsNum.fin 0).le x = true)
    (hy : (JsNum.fin 0).le y = true) : (JsNum.fin 0).le (x.add y) = true := by
  cases x <;> cases y <;> simp_all [JsNum.le, JsNum.add]
  exact add_nonneg hx hy

/-- An accepted amount is at least 0. -/
theorem nonneg_of_valid (a : JsNum) (h1 : a.isNaN = false) (h2 : a.le (.fin 0) = false) :
    (JsNum.fin 0).le a = true := by
  cases a <;> simp_all [JsNum.le, JsNum.isNaN]
  exact le_of_lt h2

/-- The balance read as `user.balance || 0` is at least 0 when the stored one is. -/
theorem numOrZero_nonneg (u : User) (h : u.balanceNonneg = true) :
    (JsNum.fin 0).le (numOrZero u.balance) = true := by
  unfold User.balanceNonneg at h
  cases hb : u.balance with
  | none => simp [numOrZero, JsNum.le]
  | some x =>
    rw [hb] at h
    by_cases ht : x.truthy = true
    · simpa [numOrZero, ht] using h
    · simp [numOrZero, ht, JsNum.le]

/-- What is left after reserving a finite amount that the balance covers is at least 0. -/
theorem nonneg_sub (y a : JsNum) (hi : ℚ) (hy : (JsNum.fin 0).le y = true)
    (h1 : a.isNaN = false) (h2 : a.gt (.fin hi) = false) (h3 : y.lt a = false) :
    (JsNum.fin 0).le (y.sub a) = true := by
  cases a with
  | nan => simp [JsNum.isNaN] at h1
  | posInf => simp [JsNum.gt, JsNum.lt] at h2
  | negInf => cases y <;> simp_all [JsNum.le, JsNum.sub, JsNum.neg, JsNum.add]
  | fin q =>
    cases y with
    | nan => simp [JsNum.le] at hy
    | negInf => simp [JsNum.le] at hy
    | posInf => simp [JsNum.le, JsNum.sub, JsNum.neg, JsNum.add]
    | fin p =>
      simp only [JsNum.lt, decide_eq_false_iff_not, not_lt] at h3
      simp only [JsNum.le, JsNum.sub, JsNum.neg, JsNum.add, decide_eq_true_eq]
      linarith

/-- Replacing the documents of one identifier by a document that satisfies a test keeps the
test true of every document. -/
theorem all_users_replace (p : User → Bool) (l : List User) (u1 : User)
    (h : l.all p = true) (h1 : p u1 = true) :
    (l.map (fun x => if x.id = u1.id then u1 else x)).all p = true := by
  rw [List.all_eq_true] at h ⊢
  intro x hx
  obtain ⟨y, hy, rfl⟩ := List.mem_map.mp hx
  by_cases e : y.id = u1.id
  · simpa [e] using h1
  · simpa [e] using h y hy

/-- The user found by `findById` is a stored user. -/
theorem findUserById_mem (s : Store) (id : Nat) (u : User) (h : s.findUserById id = some u) :
    u ∈ s.users :=
  List.mem_of_find?_eq_some h

/-- The request found by `findOne` is a stored request. -/
theorem findWithdrawalRequest_mem (s : Store) (id userId : Nat) (w : WithdrawalRequest)
    (h : s.findWithdrawalRequest id userId = some w) : w ∈ s.withdrawalRequests :=
  List.mem_of_find?_eq_some h

/-- A stored user has a balance of at least 0 when every stored user has. -/
theorem balanceNonneg_of_mem (s : Store) (u : User) (h : s.balancesNonneg = true)
    (hu : u ∈ s.users) : u.balanceNonneg = true := by
  unfold Store.balancesNonneg at h
  rw [List.all_eq_true] at h
  exact h u hu

/-- One call keeps every balance and every pending amount at or above 0, as long as the upper
withdrawal bound is a finite number. -/
theorem runCall_nonneg (env : Env) (hi : ℚ) (hmax : maxWithdraw env = .fin hi) (db : Store)
    (hbal : db.balancesNonneg = true) (hamt : db.pendingAmountsNonneg = true) (c : Call) :
    (runCall env db c).balancesNonneg = true
      ∧ (runCall env db c).pendingAmountsNonneg = true := by
  cases c with
  | deposit faults req =>
    simp only [runCall]
    rcases createIbanDeposit_store env faults db req with e | ⟨user, hu, g2, g3, hw, hus⟩
    · rw [e]; exact ⟨hbal, hamt⟩
    constructor
    · rcases hus with e | e
      · unfold Store.balancesNonneg at hbal ⊢
        rw [e]; exact hbal
      · unfold Store.balancesNonneg at hbal ⊢
        rw [e]
        apply all_users_replace _ _ _ hbal
        have := balanceNonneg_of_mem db user hbal (findUserById_mem db _ user hu)
        exact nonneg_add _ _ (numOrZero_nonneg user this) (nonneg_of_valid _ g2 g3)
    · unfold Store.pendingAmountsNonneg at hamt ⊢
      rw [hw]; exact hamt
  | withdrawal faults req =>
    simp only [runCall]
    rcases createWithdrawalRequest_store env faults db req with
      e | ⟨user, hu, g2, g3, g5, g8, hus, hw⟩
    · rw [e]; exact ⟨hbal, hamt⟩
    constructor
    · unfold Store.balancesNonneg at hbal ⊢
      rw [hus]
      apply all_users_replace _ _ _ hbal
      have := balanceNonneg_of_mem db user hbal (findUserById_mem db _ user hu)
      rw [hmax] at g5
      exact nonneg_sub _ _ hi (numOrZero_nonneg user this) g2 g5 g8
    · unfold Store.pendingAmountsNonneg at hamt ⊢
      rw [hw, List.all_append, hamt]
      simp [withdrawalRequestDoc, nonneg_of_valid _ g2 g3]
  | cancel faults req =>
    simp only [runCall]
    rcases cancelWithdrawalRequest_store faults db req with e | ⟨w, user, hw, hp, hu, hus, hws⟩
    · rw [e]; exact ⟨hbal, hamt⟩
    constructor
    · unfold Store.balancesNonneg at hbal ⊢
      rw [hus]
      apply all_users_replace _ _ _ hbal
      have h1 := balanceNonneg_of_mem db user hbal (findUserById_mem db _ user hu)
      have h2 : (JsNum.fin 0).le w.amount = true := by
        unfold Store.pendingAmountsNonneg at hamt
        rw [List.all_eq_true] at hamt
        simpa [hp] using hamt w (findWithdrawalRequest_mem db _ _ w hw)
      exact nonneg_add _ _ (numOrZero_nonneg user h1) h2
    · unfold Store.pendingAmountsNonneg at hamt ⊢
      rw [hws]
      rw [List.all_eq_true] at hamt ⊢
      intro x hx
      obtain ⟨y, hy, rfl⟩ := List.mem_map.mp hx
      by_cases e : y.id = w.id
      · simp [e, cancelledRequest]
      · simpa [e] using hamt y hy
  | profile faults req =>
    simp only [runCall]
    rcases updateProfile_cases faults db req with ⟨e, -⟩ | ⟨u, hu, e⟩
    · rw [e]; exact ⟨hbal, hamt⟩
    rw [e]
    constructor
    · unfold Store.balancesNonneg at hbal ⊢
      apply all_users_replace _ _ _ hbal
      exact balanceNonneg_of_mem db u hbal (findUserById_mem db _ u hu)
    · exact hamt

/-! ## The balance plus the pending amounts -/

/-- Addition of numbers is commutative. -/
theorem jsAdd_comm (x y : JsNum) : x.add y = y.add x := by
  cases x <;> cases y <;> simp [JsNum.add, add_comm]

/-- Addition of numbers is associative as long as no rounding takes place. -/
theorem jsAdd_assoc (x y z : JsNum) : (x.add y).add z = x.add (y.add z) := by
  cases x <;> cases y <;> cases z <;> simp [JsNum.add, add_assoc]

/-- Two summands may change places under a third. -/
theorem jsAdd_left_comm (x y z : JsNum) : x.add (y.add z) = y.add (x.add z) := by
  rw [← jsAdd_assoc, jsAdd_comm x y, jsAdd_assoc]

/-- The sum of a list with one more amount at its end. -/
theorem sumAmounts_append_one (l : List JsNum) (a : JsNum) :
    sumAmounts (l ++ [a]) = (sumAmounts l).add a := by
  induction l with
  | nil => cases a <;> simp [sumAmounts, JsNum.add]
  | cons x xs ih =>
    simp only [sumAmounts, List.cons_append, List.foldr_cons] at ih ⊢
    rw [ih, jsAdd_assoc]

/-- A number other than `NaN` is read back as itself by `|| 0`. -/
theorem numOrZero_some (x : JsNum) (h : x.isNaN = false) : numOrZero (some x) = x := by
  cases x with
  | nan => simp [JsNum.isNaN] at h
  | negInf => rfl
  | posInf => rfl
  | fin q =>
    by_cases hq : q = 0
    · subst hq; simp [numOrZero, JsNum.truthy]
    · simp [numOrZero, JsNum.truthy, hq]

/-- A finite number is `fin` of a rational. -/
theorem fin_of_isFinite (x : JsNum) (h : x.isFinite = true) : ∃ q, x = .fin q := by
  cases x with
  | fin q => exact ⟨q, rfl⟩
  | nan => simp [JsNum.isFinite] at h
  | negInf => simp [JsNum.isFinite] at h
  | posInf => simp [JsNum.isFinite] at h

/-- In a store whose amounts are finite, the balance of a stored user reads as a finite
number. -/
theorem balance_finite (s : Store) (h : s.amountsFinite = true) (u : User) (hu : u ∈ s.users) :
    ∃ b, numOrZero u.balance = .fin b := by
  simp only [Store.amountsFinite, Bool.and_eq_true, List.all_eq_true] at h
  have h1 := h.1 u hu
  cases hb : u.balance with
  | none => exact ⟨0, rfl⟩
  | some x =>
    rw [hb] at h1
    obtain ⟨q, rfl⟩ := fin_of_isFinite x h1
    exact ⟨q, numOrZero_some _ rfl⟩

/-- In a store whose amounts are finite, the amount of a stored request is finite. -/
theorem amount_finite (s : Store) (h : s.amountsFinite = true) (w : WithdrawalRequest)
    (hw : w ∈ s.withdrawalRequests) : ∃ q, w.amount = .fin q := by
  simp only [Store.amountsFinite, Bool.and_eq_true, List.all_eq_true] at h
  exact fin_of_isFinite _ (h.2 w hw)

/-- Saving a user leaves the users of every other identifier as they were found. -/
theorem find_users_replace_ne (l : List User) (id : Nat) (u1 : User) (hid : u1.id ≠ id) :
    (l.map (fun x => if x.id = u1.id then u1 else x)).find? (fun u => decide (u.id = id))
      = l.find? (fun u => decide (u.id = id)) := by
  induction l with
  | nil => rfl
  | cons x xs ih =>
    by_cases hx : x.id = u1.id
    · have hx1 : ¬ x.id = id := by rw [hx]; exact hid
      simp [List.find?_cons, hx, hx1, hid, ih]
    · rw [List.map_cons, if_neg hx, List.find?_cons, List.find?_cons, ih]

/-- The balance plus the pending amounts, read from the users and the withdrawal requests of
the store. -/
theorem balancePlusPending_eq (s : Store) (userId : Nat) (us : List User)
    (l : List WithdrawalRequest) (hs : s.users = us) (hw : s.withdrawalRequests = l) :
    balancePlusPending s userId
      = (numOrZero ((us.find? (fun u => decide (u.id = userId))).bind
          (fun u => u.balance))).add
        (sumAmounts ((l.filter
          (fun w => decide (w.user = userId) && decide (w.status = "pending"))).map
            (fun w => w.amount))) := by
  simp only [balancePlusPending, pendingAmounts, Store.findUserById, hs, hw]

/-- An amount that is accepted and covered by a finite balance is finite. -/
theorem fin_of_covered (a : JsNum) (b : ℚ) (g2 : a.isNaN = false)
    (g3 : a.le (.fin 0) = false) (g8 : (JsNum.fin b).lt a = false) : ∃ q, a = .fin q := by
  cases a with
  | fin q => exact ⟨q, rfl⟩
  | nan => simp [JsNum.isNaN] at g2
  | negInf => simp [JsNum.le] at g3
  | posInf => simp [JsNum.lt] at g8

/-- Two stored requests with the same identifier are the same request when identifiers are
unique. -/
theorem request_eq_of_id (l : List WithdrawalRequest)
    (hn : (l.map (fun w => w.id)).Nodup) (x w : WithdrawalRequest) (hx : x ∈ l) (hw : w ∈ l)
    (h : x.id = w.id) : x = w :=
  List.inj_on_of_nodup_map hn hx hw h

/-- Replacing a request of another owner leaves the pending requests of `userId` as they
were. -/
theorem pending_replace_other (l : List WithdrawalRequest)
    (hn : (l.map (fun w => w.id)).Nodup) (w w1 : WithdrawalRequest) (hw : w ∈ l)
    (userId : Nat) (h : w.user ≠ userId) (h1 : w1.user ≠ userId) :
    (l.map (fun x => if x.id = w.id then w1 else x)).filter
        (fun x => decide (x.user = userId) && decide (x.status = "pending"))
      = l.filter (fun x => decide (x.user = userId) && decide (x.status = "pending")) := by
  induction l with
  | nil => rfl
  | cons x xs ih =>
    rw [List.map_cons, List.nodup_cons] at hn
    by_cases hx : x.id = w.id
    · have hxw : x = w := request_eq_of_id (x :: xs)
        (by rw [List.map_cons, List.nodup_cons]; exact hn) x w (List.mem_cons_self _ _) hw hx
      have hrest : xs.map (fun y => if y.id = w.id then w1 else y) = xs := by
        conv_rhs => rw [← List.map_id xs]
        apply List.map_congr_left
        intro y hy
        have : y.id ≠ w.id := by
          intro e
          apply hn.1
          rw [hx, ← e]
          exact List.mem_map_of_mem _ hy
        simp [this]
      subst hxw
      simp [List.map_cons, List.filter_cons, hrest, h, h1]
    · have hw1 : w ∈ xs := by
        rcases List.mem_cons.mp hw with e | e
        · exact absurd (by rw [e]) hx
        · exact e
      simp [List.map_cons, List.filter_cons, hx, ih hn.2 hw1]

/-- Cancelling one pending request of `userId` takes its amount, and nothing else, out of the
pending amounts of `userId`. -/
theorem pending_replace_own (l : List WithdrawalRequest)
    (hn : (l.map (fun w => w.id)).Nodup) (w w1 : WithdrawalRequest) (hw : w ∈ l)
    (userId : Nat) (h : w.user = userId) (hp : w.status = "pending")
    (h1 : w1.status ≠ "pending") :
    sumAmounts ((l.filter
        (fun x => decide (x.user = userId) && decide (x.status = "pending"))).map
          (fun x => x.amount))
      = w.amount.add (sumAmounts (((l.map (fun x => if x.id = w.id then w1 else x)).filter
          (fun x => decide (x.user = userId) && decide (x.status = "pending"))).map
            (fun x => x.amount))) := by
  induction l with
  | nil => simp at hw
  | cons x xs ih =>
    rw [List.map_cons, List.nodup_cons] at hn
    by_cases hx : x.id = w.id
    · have hxw : x = w := request_eq_of_id (x :: xs)
        (by rw [List.map_cons, List.nodup_cons]; exact hn) x w (List.mem_cons_self _ _) hw hx
      have hrest : xs.map (fun y => if y.id = w.id then w1 else y) = xs := by
        conv_rhs => rw [← List.map_id xs]
        apply List.map_congr_left
        intro y hy
        have : y.id ≠ w.id := by
          intro e
          apply hn.1
          rw [hx, ← e]
          exact List.mem_map_of_mem _ hy
        simp [this]
      subst hxw
      simp [List.map_cons, List.filter_cons, hrest, h, hp, h1, sumAmounts]
    · have hw1 : w ∈ xs := by
        rcases List.mem_cons.mp hw with e | e
        · exact absurd (by rw [e]) hx
        · exact e
      have ih1 := ih hn.2 hw1
      by_cases hpx : (decide (x.user = userId) && decide (x.status = "pending")) = true
      · simp only [List.map_cons, hx, if_false, List.filter_cons, hpx, if_true, sumAmounts,
          List.foldr_cons] at ih1 ⊢
        rw [ih1, jsAdd_left_comm]
      · simp only [List.map_cons, hx, if_false, List.filter_cons, hpx] at ih1 ⊢
        exact ih1

/-! ## Rounding to doubles -/

/-- The double nearest to a positive rational, from its numerator and denominator. -/
theorem roundDouble_of_pos (q : ℚ) (n d m : Nat) (e : Int) (hq : 0 < q)
    (hn : q.num = (n : Int)) (hd : q.den = d) (h : doubleOf n d = some (m, e)) :
    roundDouble q = .fin ((m : ℚ) * 2 ^ e) := by
  have hne : q ≠ 0 := ne_of_gt hq
  simp only [roundDouble, hne, hq, if_true, if_false, hn, hd, Int.natAbs_ofNat, roundPos, h]

/-- The doubles written `228.4` and `100.2`. -/
theorem double228_4_nearest : roundDouble (1142 / 5) = .fin double228_4 := by
  rw [roundDouble_of_pos (1142 / 5) 1142 5 8036110585089229 (-45) (by norm_num) (by norm_num)
    (by norm_num) (by decide)]
  norm_num [double228_4]

/-- The double written `100.2`. -/
theorem double100_2_nearest : roundDouble (501 / 5) = .fin double100_2 := by
  rw [roundDouble_of_pos (501 / 5) 501 5 7050948166601933 (-46) (by norm_num) (by norm_num)
    (by norm_num) (by decide)]
  norm_num [double100_2]

/-- A double is held as it is: `228.4`. -/
theorem double228_4_fixed : (JsNum.fin double228_4).toDouble = .fin double228_4 := by
  show roundDouble double228_4 = _
  rw [roundDouble_of_pos double228_4 8036110585089229 35184372088832 8036110585089229 (-45)
    (by norm_num [double228_4]) (by norm_num [double228_4]) (by norm_num [double228_4])
    (by decide)]
  norm_num [double228_4]

/-- A double is held as it is: `100.2`. -/
theorem double100_2_fixed : (JsNum.fin double100_2).toDouble = .fin double100_2 := by
  show roundDouble double100_2 = _
  rw [roundDouble_of_pos double100_2 7050948166601933 70368744177664 7050948166601933 (-46)
    (by norm_num [double100_2]) (by norm_num [double100_2]) (by norm_num [double100_2])
    (by decide)]
  norm_num [double100_2]

/-- The subtraction `228.4 - 100.2` in doubles: the exact result lies half way between two
doubles and goes to the even one. -/
theorem double_sub_rounds :
    ((JsNum.fin double228_4).sub (.fin double100_2)).toDouble
      = .fin (2255318250894131 / 17592186044416) := by
  have e : (JsNum.fin double228_4).sub (.fin double100_2)
      = .fin (9021273003576525 / 70368744177664) := by
    simp only [JsNum.sub, JsNum.neg, JsNum.add, double228_4, double100_2]
    norm_num
  rw [e]
  show roundDouble _ = _
  rw [roundDouble_of_pos _ 9021273003576525 70368744177664 4510636501788262 (-45)
    (by norm_num) (by norm_num) (by norm_num) (by decide)]
  norm_num

/-- The addition `128.2 + 100.2` in doubles, `128.2` being the result of the subtraction
above: the result is the double just below `228.4`. -/
theorem double_add_rounds :
    ((JsNum.fin (2255318250894131 / 17592186044416)).add (.fin double100_2)).toDouble
      = .fin (2009027646272307 / 8796093022208) := by
  have e : (JsNum.fin (2255318250894131 / 17592186044416)).add (.fin double100_2)
      = .fin (16072221170178457 / 70368744177664) := by
    simp only [JsNum.add, double100_2]
    norm_num
  rw [e]
  show roundDouble _ = _
  rw [roundDouble_of_pos _ 16072221170178457 70368744177664 8036110585089228 (-45)
    (by norm_num) (by norm_num) (by norm_num) (by decide)]
  norm_num

/-- Rounding the numbers of a store does not change which user `findById` returns. -/
theorem findUserById_toDouble (s : Store) (id : Nat) :
    s.toDouble.findUserById id = (s.findUserById id).map User.toDouble := by
  simp only [Store.findUserById, Store.toDouble, List.find?_map]
  rfl

/-- A withdrawal submission that passes every guard, followed at once by its cancellation,
with the numbers held as doubles in between: the cancellation answers 200, the created
request and its transaction are stored as cancelled next to the earlier documents, and the
caller is stored with the refund added to the rounded reserved balance. -/
theorem cancel_after_reserve (env : Env) (db : Store) (req creq : Request) (user : User)
    (hu : db.findUserById (getUserId req) = some user)
    (g1 : req.body.amount.truthy = true)
    (g2 : (parseFloat req.body.amount).isNaN = false)
    (g3 : (parseFloat req.body.amount).le (.fin 0) = false)
    (g4 : (parseFloat req.body.amount).lt (minWithdraw env) = false)
    (g5 : (parseFloat req.body.amount).gt (maxWithdraw env) = false)
    (g6 : strTruthy user.iban = true) (g7 : strTruthy user.ibanHolderName = true)
    (g8 : (numOrZero user.balance).lt (parseFloat req.body.amount) = false)
    (hcaller : getUserId creq = getUserId req)
    (hid : creq.paramsId
      = (db.saveUser (reservedUser user (parseFloat req.body.amount))).freshId) :
    (cancelWithdrawalRequest noFaults (createWithdrawalRequest env noFaults db req).2.toDouble
        creq).1.status = 200
    ∧ (cancelWithdrawalRequest noFaults (createWithdrawalRequest env noFaults db req).2.toDouble
        creq).2.withdrawalRequests
      = db.toDouble.withdrawalRequests
        ++ [cancelledRequest
            (withdrawalRequestDoc
              (db.saveUser (reservedUser user (parseFloat req.body.amount))).freshId req
              (getUserId req) (parseFloat req.body.amount)
              (reservedUser user (parseFloat req.body.amount))).toDouble creq.now]
    ∧ ((cancelWithdrawalRequest noFaults
          (createWithdrawalRequest env noFaults db req).2.toDouble creq).2.transactions.map
        (fun t => (t.id, t.status))
      = db.transactions.map (fun t => (t.id, t.status))
        ++ [(((db.saveUser (reservedUser user (parseFloat req.body.amount))).insertWithdrawalRequest
              (withdrawalRequestDoc
                (db.saveUser (reservedUser user (parseFloat req.body.amount))).freshId req
                (getUserId req) (parseFloat req.body.amount)
                (reservedUser user (parseFloat req.body.amount)))).freshId, "cancelled")])
    ∧ (cancelWithdrawalRequest noFaults (createWithdrawalRequest env noFaults db req).2.toDouble
        creq).2.findUserById (getUserId req)
      = some { user with
          balance := some
            ((numOrZero
                (some ((numOrZero user.balance).sub (parseFloat req.body.amount)).toDouble)).add
              (parseFloat req.body.amount).toDouble)
          totalDeposits := user.totalDeposits.map JsNum.toDouble } := by
  have huid := findUserById_id db _ user hu
  rw [createWithdrawalRequest_of_guards env noFaults db req user rfl hu g1 g2 g3 g4 g5 g6 g7 g8,
    settle_withdrawalWrites]
  set a := parseFloat req.body.amount with ha
  set u1 := reservedUser user a with hu1def
  set db0 := db.saveUser u1 with hdb0
  set wr := withdrawalRequestDoc db0.freshId req (getUserId req) a u1 with hwr
  set tx := withdrawalTransactionDoc (db0.insertWithdrawalRequest wr).freshId req
    (getUserId req) a db0.freshId with htx
  have hshape : ((db0.insertWithdrawalRequest wr).insertTransaction tx).toDouble
      = (db0.toDouble.insertWithdrawalRequest wr.toDouble).insertTransaction tx.toDouble := by
    simp [Store.toDouble, Store.insertWithdrawalRequest, Store.insertTransaction]
  have hu1 : db0.toDouble.findUserById (getUserId creq) = some u1.toDouble := by
    rw [hcaller, findUserById_toDouble, findUserById_saveUser db _ user u1 hu huid]
    rfl
  rw [hshape]
  obtain ⟨k1, -, k3, k4, k5, -⟩ := cancel_after_insert db0.toDouble u1.toDouble wr.toDouble
    tx.toDouble creq hu1 hid hcaller.symm rfl hcaller.symm rfl
    (by
      intro x hx
      obtain ⟨y, hy, rfl⟩ := List.mem_map.mp hx
      exact Nat.ne_of_lt (withdrawalRequest_id_lt_freshId db0 y hy))
    (by
      intro t ht heq
      obtain ⟨y, hy, rfl⟩ := List.mem_map.mp ht
      exact Nat.lt_irrefl _ (transaction_ref_lt_freshId db0 y _ hy heq))
    (by
      intro t ht
      obtain ⟨y, hy, rfl⟩ := List.mem_map.mp ht
      exact Nat.ne_of_lt (transaction_id_lt_freshId (db0.insertWithdrawalRequest wr) y hy))
  refine ⟨k1, ?_, ?_, ?_⟩
  · rw [k4]
    simp [Store.toDouble, hdb0, Store.saveUser]
  · rw [k5]
    simp [Store.toDouble, hdb0, Store.saveUser, cancelledTransaction, Transaction.toDouble, htx,
      withdrawalTransactionDoc]
  · show (cancelWithdrawalRequest noFaults _ creq).2.users.find? _ = _
    rw [k3]
    have := findUserById_saveUser db0.toDouble (getUserId req) u1.toDouble
      (refundedUser u1.toDouble wr.toDouble) (by rw [← hcaller]; exact hu1) huid
    rw [show ((db0.toDouble.saveUser (refundedUser u1.toDouble wr.toDouble)).users.find?
        (fun u => decide (u.id = getUserId req)))
        = (db0.toDouble.saveUser (refundedUser u1.toDouble wr.toDouble)).findUserById
            (getUserId req) from rfl, this]
    rfl

/-- The guards of `createWithdrawalRequest` pass for `fractionalWithdrawal` on
`fractionalStore` under the default bounds. -/
theorem fractional_guards :
    fractionalWithdrawal.body.amount.truthy = true
    ∧ (parseFloat fractionalWithdrawal.body.amount).isNaN = false
    ∧ (parseFloat fractionalWithdrawal.body.amount).le (.fin 0) = false
    ∧ (parseFloat fractionalWithdrawal.body.amount).lt (minWithdraw {}) = false
    ∧ (parseFloat fractionalWithdrawal.body.amount).gt (maxWithdraw {}) = false
    ∧ (numOrZero ({ sampleUser with balance := some (.fin double228_4) } : User).balance).lt
        (parseFloat fractionalWithdrawal.body.amount) = false := by
  have hmin : minWithdraw {} = .fin 100 := rfl
  have hmax : maxWithdraw {} = .fin 50000 := rfl
  have ha : parseFloat fractionalWithdrawal.body.amount = .fin double100_2 := rfl
  obtain ⟨g1, g2, g3, g4, g5⟩ := amount_guards fractionalWithdrawal.body.amount double100_2 100
    50000 ha (by norm_num [double100_2]) (by norm_num [double100_2])
    (by norm_num [double100_2])
  refine ⟨g1, g2, g3, by rw [hmin]; exact g4, by rw [hmax]; exact g5, ?_⟩
  rw [ha]
  have : (JsNum.fin double228_4).truthy = true := by
    simp [JsNum.truthy, double228_4]
  simp only [numOrZero, this, if_true, JsNum.lt, decide_eq_false_iff_not, not_lt]
  norm_num [double228_4, double100_2]

/-- The whole number 200 is a double. -/
theorem toDouble_200 : (JsNum.fin 200).toDouble = .fin 200 := by
  show roundDouble 200 = _
  rw [roundDouble_of_pos 200 200 1 7036874417766400 (-45) (by norm_num) (by norm_num)
    (by norm_num) (by decide)]
  norm_num

/-- The whole number 300 is a double. -/
theorem toDouble_300 : (JsNum.fin 300).toDouble = .fin 300 := by
  show roundDouble 300 = _
  rw [roundDouble_of_pos 300 300 1 5277655813324800 (-44) (by norm_num) (by norm_num)
    (by norm_num) (by decide)]
  norm_num

/-- The whole number 1000 is a double. -/
theorem toDouble_1000 : (JsNum.fin 1000).toDouble = .fin 1000 := by
  show roundDouble 1000 = _
  rw [roundDouble_of_pos 1000 1000 1 8796093022208000 (-43) (by norm_num) (by norm_num)
    (by norm_num) (by decide)]
  norm_num

/-- The whole number 700 is a double. -/
theorem toDouble_700 : (JsNum.fin 700).toDouble = .fin 700 := by
  show roundDouble 700 = _
  rw [roundDouble_of_pos 700 700 1 6157265115545600 (-43) (by norm_num) (by norm_num)
    (by norm_num) (by decide)]
  norm_num

/-- The whole number 500 is a double. -/
theorem toDouble_500 : (JsNum.fin 500).toDouble = .fin 500 := by
  show roundDouble 500 = _
  rw [roundDouble_of_pos 500 500 1 8796093022208000 (-44) (by norm_num) (by norm_num)
    (by norm_num) (by decide)]
  norm_num

/-! ## Reservations in exact arithmetic -/

/-- When no operation rounds, reservations are conserved: in a store whose amounts are
finite and whose withdrawal requests have distinct identifiers, the balance of a user plus the
amounts of that user's pending withdrawal requests, computed exactly, is the same after any
`createWithdrawalRequest` call and after any `cancelWithdrawalRequest` call as before it; a
`createIbanDeposit` call that succeeds under auto-approval raises the quantity of the caller
by the amount and leaves that of every other user as it was. -/
theorem balancePlusPending_exact (db : Store) (hfin : db.amountsFinite = true)
    (huniq : db.requestIdsUnique = true) :
    (∀ env faults req userId,
      balancePlusPending (createWithdrawalRequest env faults db req).2 userId
        = balancePlusPending db userId)
    ∧ (∀ faults req userId,
      balancePlusPending (cancelWithdrawalRequest faults db req).2 userId
        = balancePlusPending db userId)
    ∧ (∀ env faults req, autoApprove env = true →
      (createIbanDeposit env faults db req).1.status = 201 →
      balancePlusPending (createIbanDeposit env faults db req).2 (getUserId req)
          = (balancePlusPending db (getUserId req)).add (parseFloat req.body.amount)
        ∧ ∀ userId, userId ≠ getUserId req →
          balancePlusPending (createIbanDeposit env faults db req).2 userId
            = balancePlusPending db userId) := by
  have hn : (db.withdrawalRequests.map (fun w => w.id)).Nodup := by
    simpa [Store.requestIdsUnique] using huniq
  refine ⟨?_, ?_, ?_⟩
  · intro env faults req userId
    rcases createWithdrawalRequest_store env faults db req with
      e | ⟨user, hu, g2, g3, -, g8, hus, hws⟩
    · rw [e]
    obtain ⟨b, hb⟩ := balance_finite db hfin user (findUserById_mem db _ user hu)
    rw [hb] at g8
    obtain ⟨q, hq⟩ := fin_of_covered _ b g2 g3 g8
    have huid := findUserById_id db _ user hu
    rw [balancePlusPending_eq _ userId _ _ hus hws, balancePlusPending_eq db userId _ _ rfl rfl]
    simp only [Store.saveUser]
    by_cases hid : userId = getUserId req
    · subst hid
      rw [find_users_replace db.users _ user _ hu (show (reservedUser user _).id = _ from huid)]
      have hu1 : db.users.find? (fun u => decide (u.id = getUserId req)) = some user := hu
      rw [hu1]
      simp only [Option.some_bind, reservedUser, hb, hq, List.filter_append, List.map_append]
      have e1 : (JsNum.fin b).sub (.fin q) = .fin (b - q) := by
        simp [JsNum.sub, JsNum.neg, JsNum.add, sub_eq_add_neg]
      rw [e1, numOrZero_some (.fin (b - q)) rfl]
      simp only [withdrawalRequestDoc, List.filter_cons, List.filter_nil, decide_True,
        Bool.and_self, if_true, List.map_cons, List.map_nil]
      rw [sumAmounts_append_one, ← jsAdd_assoc, jsAdd_comm _ (JsNum.fin q), ← jsAdd_assoc]
      congr 1
      simp [JsNum.add]
    · have hne : (reservedUser user (parseFloat req.body.amount)).id ≠ userId :=
        fun e => hid (e.symm.trans huid)
      rw [find_users_replace_ne db.users userId _ hne]
      have hdoc : (getUserId req = userId) = False := by
        simp only [eq_iff_iff, iff_false]
        exact fun e => hid e.symm
      simp [List.filter_append, withdrawalRequestDoc, hdoc]
  · intro faults req userId
    rcases cancelWithdrawalRequest_store faults db req with e | ⟨w, user, hw, hp, hu, hus, hws⟩
    · rw [e]
    obtain ⟨b, hb⟩ := balance_finite db hfin user (findUserById_mem db _ user hu)
    have hwm := findWithdrawalRequest_mem db _ _ w hw
    obtain ⟨q, hq⟩ := amount_finite db hfin w hwm
    have huid := findUserById_id db _ user hu
    obtain ⟨-, hwu⟩ := findWithdrawalRequest_spec db _ _ w hw
    rw [balancePlusPending_eq _ userId _ _ hus hws, balancePlusPending_eq db userId _ _ rfl rfl]
    simp only [Store.saveUser]
    by_cases hid : userId = getUserId req
    · subst hid
      rw [find_users_replace db.users _ user _ hu (show (refundedUser user _).id = _ from huid)]
      have hu1 : db.users.find? (fun u => decide (u.id = getUserId req)) = some user := hu
      rw [hu1, pending_replace_own db.withdrawalRequests hn w (cancelledRequest w req.now) hwm
        (getUserId req) hwu hp (by simp [cancelledRequest])]
      simp only [Option.some_bind, refundedUser, hb, hq]
      rw [numOrZero_some ((JsNum.fin b).add (.fin q)) rfl, jsAdd_assoc]
    · have hne : (refundedUser user w).id ≠ userId :=
        fun e => hid (e.symm.trans huid)
      rw [find_users_replace_ne db.users userId _ hne,
        pending_replace_other db.withdrawalRequests hn w (cancelledRequest w req.now) hwm userId
          (by rw [hwu]; exact fun e => hid e.symm)
          (by simp only [cancelledRequest]; rw [hwu]; exact fun e => hid e.symm)]
  · intro env faults req hauto h201
    obtain ⟨user, hu, g2, g3, hws, hus⟩ :=
      createIbanDeposit_of_201_auto env faults db req hauto h201
    obtain ⟨b, hb⟩ := balance_finite db hfin user (findUserById_mem db _ user hu)
    have huid := findUserById_id db _ user hu
    constructor
    · rw [balancePlusPending_eq _ _ _ _ hus hws, balancePlusPending_eq db _ _ _ rfl rfl]
      simp only [Store.saveUser]
      rw [find_users_replace db.users _ user _ hu (show (creditedUser user _).id = _ from huid)]
      have hu1 : db.users.find? (fun u => decide (u.id = getUserId req)) = some user := hu
      rw [hu1]
      simp only [Option.some_bind, creditedUser, hb]
      have hnn : ((JsNum.fin b).add (parseFloat req.body.amount)).isNaN = false := by
        cases h : parseFloat req.body.amount <;> simp_all [JsNum.add, JsNum.isNaN, JsNum.le]
      rw [numOrZero_some _ hnn, jsAdd_assoc, jsAdd_assoc,
        jsAdd_comm (parseFloat req.body.amount)]
    · intro userId hid
      have hne : (creditedUser user (parseFloat req.body.amount)).id ≠ userId :=
        fun e => hid (e.symm.trans huid)
      rw [balancePlusPending_eq _ _ _ _ hus hws, balancePlusPending_eq db _ _ _ rfl rfl]
      simp only [Store.saveUser]
      rw [find_users_replace_ne db.users userId _ hne]

/-! ## The transaction linked to a withdrawal request -/

/-- Two searches whose tests agree on every element of the list find the same element. -/
theorem find_congr_mem {α : Type} (p q : α → Bool) (l : List α)
    (h : ∀ x ∈ l, p x = q x) : l.find? p = l.find? q := by
  induction l with
  | nil => rfl
  | cons x xs ih =>
    have hx := h x (List.mem_cons_self _ _)
    have ih1 := ih (fun y hy => h y (List.mem_cons_of_mem _ hy))
    simp only [List.find?_cons, hx, ih1]

/-- When transaction identifiers are unique, replacing by identifier replaces the one
document and nothing else. -/
theorem map_replace_by_id (l : List Transaction) (hn : (l.map (fun t => t.id)).Nodup)
    (tx tx1 : Transaction) (h : tx ∈ l) :
    l.map (fun x => if x.id = tx.id then tx1 else x)
      = l.map (fun x => if x = tx then tx1 else x) := by
  apply List.map_congr_left
  intro x hx
  by_cases e : x = tx
  · simp [e]
  · have : ¬ x.id = tx.id := fun e1 => e (List.inj_on_of_nodup_map hn hx h e1)
    simp [e, this]

/-! ## The ends of `corsOptions.origin` -/

/-- The function either allows, or calls back with the CORS policy error; the latter only in
production, with a list that is not empty, for an origin that is a non-empty text outside the
list. -/
theorem corsOptions_origin_cases (env : ServerEnv) (allowed : List String)
    (origin : Option String) :
    corsOptions.origin env allowed origin = .allow
      ∨ (corsOptions.origin env allowed origin
            = .error
              "The CORS policy for this site does not allow access from the specified Origin."
          ∧ env.NODE_ENV = some "production" ∧ allowed ≠ []
          ∧ ∃ o, origin = some o ∧ o ≠ "" ∧ o ∉ allowed) := by
  cases origin with
  | none => left; simp [corsOptions.origin, strTruthy]
  | some o =>
    by_cases ho : o = ""
    · left; simp [corsOptions.origin, strTruthy, ho]
    by_cases hdev : env.NODE_ENV = some "development"
    · left
      by_cases hl : (startsWith o.data "http://localhost:".data
          || startsWith o.data "http://127.0.0.1:".data) = true
      · simp [corsOptions.origin, strTruthy, ho, hdev, hl]
      · simp [corsOptions.origin, strTruthy, ho, hdev, hl]
    by_cases hprod : env.NODE_ENV = some "production"
    · by_cases hlen : allowed = []
      · left; simp [corsOptions.origin, strTruthy, ho, hprod, hlen]
      · by_cases hin : o ∈ allowed
        · left; simp [corsOptions.origin, strTruthy, ho, hprod, hlen, hin]
        · right
          exact ⟨by simp [corsOptions.origin, strTruthy, ho, hprod, hlen, hin], hprod, hlen,
            o, rfl, ho, hin⟩
    · left; simp [corsOptions.origin, strTruthy, ho, hdev, hprod]

/-! ## C1: a successful withdrawal submission reserves the amount -/

/-- C1 (as amended): whenever `createWithdrawalRequest` answers 201, the caller's stored
balance `b` becomes `b - amount` and is the `newBalance` returned; exactly one
WithdrawalRequest is appended (status `pending`, the amount, owned by the caller, `iban` and
`ibanHolderName` copied from the user, `bankName` the user's bank name or null when that is
missing or empty) and exactly one Transaction is appended (type `withdrawal`, status
`pending`, the amount) whose `metadata.withdrawalRequestId` is the id of the new request, an
id no earlier request has. -/
theorem createWithdrawalRequest_reserves (env : Env) (faults : Faults) (db : Store)
    (req : Request) (h : (createWithdrawalRequest env faults db req).1.status = 201) :
    ∃ user b wr tx,
      db.findUserById (getUserId req) = some user ∧ user.balance = some b
      ∧ (createWithdrawalRequest env faults db req).2.findUserById (getUserId req)
          = some { user with balance := some (b.sub (parseFloat req.body.amount)) }
      ∧ (createWithdrawalRequest env faults db req).1.newBalance
          = some (b.sub (parseFloat req.body.amount))
      ∧ (createWithdrawalRequest env faults db req).2.withdrawalRequests
          = db.withdrawalRequests ++ [wr]
      ∧ (createWithdrawalRequest env faults db req).1.withdrawalRequest = some wr
      ∧ wr.status = "pending" ∧ wr.amount = parseFloat req.body.amount
      ∧ wr.user = getUserId req ∧ wr.user = user.id
      ∧ wr.iban = user.iban ∧ wr.ibanHolderName = user.ibanHolderName
      ∧ wr.bankName = strOrNull user.bankName
      ∧ (∀ w ∈ db.withdrawalRequests, w.id ≠ wr.id)
      ∧ (createWithdrawalRequest env faults db req).2.transactions = db.transactions ++ [tx]
      ∧ (createWithdrawalRequest env faults db req).1.transaction = some tx
      ∧ tx.type = "withdrawal" ∧ tx.status = "pending"
      ∧ tx.amount = parseFloat req.body.amount ∧ tx.user = getUserId req
      ∧ tx.metadata.withdrawalRequestId = some wr.id
      ∧ (createWithdrawalRequest env faults db req).2.depositRequests = db.depositRequests := by
  rcases createWithdrawalRequest_faults env faults db req with e | ⟨op, e⟩
  swap
  · rw [e] at h; simp at h
  rw [e] at h ⊢
  obtain ⟨user, hu, g1, g2, g3, g4, g5, g6, g7, g8⟩ :=
    createWithdrawalRequest_guards_of_201 env db req h
  obtain ⟨b, hb, hb1, -⟩ := balance_of_covers user.balance _ g2 g3 g8
  have hid := findUserById_id db _ user hu
  rw [createWithdrawalRequest_of_guards env noFaults db req user rfl hu g1 g2 g3 g4 g5 g6 g7 g8,
    settle_withdrawalWrites]
  refine ⟨user, b, _, _, hu, hb, ?_, ?_, rfl, rfl, rfl, rfl, rfl, hid.symm, rfl, rfl, rfl, ?_,
    rfl, rfl, rfl, rfl, rfl, rfl, rfl, rfl⟩
  · have := findUserById_saveUser db (getUserId req) user
      (reservedUser user (parseFloat req.body.amount)) hu hid
    simpa [reservedUser, hb1, Store.insertTransaction, Store.insertWithdrawalRequest,
      Store.findUserById] using this
  · simp [hb1]
  · intro w hw
    have := withdrawalRequest_id_lt_freshId
      (db.saveUser (reservedUser user (parseFloat req.body.amount))) w hw
    exact Nat.ne_of_lt this

/-- C1, witness: `sampleUser` withdraws 200 out of 500. -/
theorem createWithdrawalRequest_reserves_witness :
    (createWithdrawalRequest {} noFaults sampleStore sampleWithdrawal).1.status = 201
    ∧ ∃ user b wr tx,
      sampleStore.findUserById (getUserId sampleWithdrawal) = some user ∧ user.balance = some b
      ∧ (createWithdrawalRequest {} noFaults sampleStore sampleWithdrawal).2.findUserById
            (getUserId sampleWithdrawal)
          = some { user with balance := some (b.sub (parseFloat sampleWithdrawal.body.amount)) }
      ∧ (createWithdrawalRequest {} noFaults sampleStore sampleWithdrawal).1.newBalance
          = some (b.sub (parseFloat sampleWithdrawal.body.amount))
      ∧ (createWithdrawalRequest {} noFaults sampleStore sampleWithdrawal).2.withdrawalRequests
          = sampleStore.withdrawalRequests ++ [wr]
      ∧ (createWithdrawalRequest {} noFaults sampleStore sampleWithdrawal).1.withdrawalRequest
          = some wr
      ∧ wr.status = "pending" ∧ wr.amount = parseFloat sampleWithdrawal.body.amount
      ∧ wr.user = getUserId sampleWithdrawal ∧ wr.user = user.id
      ∧ wr.iban = user.iban ∧ wr.ibanHolderName = user.ibanHolderName
      ∧ wr.bankName = strOrNull user.bankName
      ∧ (∀ w ∈ sampleStore.withdrawalRequests, w.id ≠ wr.id)
      ∧ (createWithdrawalRequest {} noFaults sampleStore sampleWithdrawal).2.transactions
          = sampleStore.transactions ++ [tx]
      ∧ (createWithdrawalRequest {} noFaults sampleStore sampleWithdrawal).1.transaction = some tx
      ∧ tx.type = "withdrawal" ∧ tx.status = "pending"
      ∧ tx.amount = parseFloat sampleWithdrawal.body.amount
      ∧ tx.user = getUserId sampleWithdrawal
      ∧ tx.metadata.withdrawalRequestId = some wr.id
      ∧ (createWithdrawalRequest {} noFaults sampleStore sampleWithdrawal).2.depositRequests
          = sampleStore.depositRequests :=
  ⟨by decide,
    createWithdrawalRequest_reserves {} noFaults sampleStore sampleWithdrawal (by decide)⟩

/-- C1, counterexample to the claim as first stated: a user whose stored bank name is the
empty string withdraws 200; the request is created (201) with `bankName` null, which is not
the user's `bankName`. -/
theorem createWithdrawalRequest_bankName_counterexample :
    (emptyBankNameStore.findUserById 1).map (fun u => u.bankName) = some (some "")
    ∧ (createWithdrawalRequest {} noFaults emptyBankNameStore sampleWithdrawal).1.status = 201
    ∧ (createWithdrawalRequest {} noFaults emptyBankNameStore
          sampleWithdrawal).2.withdrawalRequests.map (fun w => w.bankName) = [none] := by
  decide

/-! ## C2: submitting a withdrawal and cancelling it -/

/-- C2 (as amended): when `createWithdrawalRequest` answers 201 and the same caller at once
cancels the created request (in a run without storage faults, the numbers being held as
doubles), the cancellation answers 200, the request is stored with status `cancelled`, the
linked Transaction is stored with status `cancelled`, no other request or transaction changes
its status.  When the balance `b` before the submission and the amount `a` are doubles, the
caller's balance afterwards is the double nearest to `d + a`, where `d` is the double nearest
to `b - a`; that is `b` itself whenever the subtraction `b - a` is exact. -/
theorem withdrawal_cancel_round_trip (env : Env) (faults : Faults) (db : Store)
    (req creq : Request)
    (h : (createWithdrawalRequest env faults db req).1.status = 201)
    (hcaller : getUserId creq = getUserId req)
    (hid : (createWithdrawalRequest env faults db req).1.withdrawalRequest.map (fun w => w.id)
      = some creq.paramsId) :
    ∃ user b wr tx,
      db.findUserById (getUserId req) = some user ∧ user.balance = some b
      ∧ (createWithdrawalRequest env faults db req).1.withdrawalRequest = some wr
      ∧ (createWithdrawalRequest env faults db req).1.transaction = some tx
      ∧ (cancelWithdrawalRequest noFaults (createWithdrawalRequest env faults db req).2.toDouble
          creq).1.status = 200
      ∧ (cancelWithdrawalRequest noFaults (createWithdrawalRequest env faults db req).2.toDouble
          creq).2.toDouble.withdrawalRequests.map (fun w => (w.id, w.status))
        = db.withdrawalRequests.map (fun w => (w.id, w.status)) ++ [(wr.id, "cancelled")]
      ∧ (cancelWithdrawalRequest noFaults (createWithdrawalRequest env faults db req).2.toDouble
          creq).2.toDouble.transactions.map (fun t => (t.id, t.status))
        = db.transactions.map (fun t => (t.id, t.status)) ++ [(tx.id, "cancelled")]
      ∧ (b.toDouble = b → (parseFloat req.body.amount).toDouble = parseFloat req.body.amount →
          ((cancelWithdrawalRequest noFaults
              (createWithdrawalRequest env faults db req).2.toDouble
              creq).2.toDouble.findUserById (getUserId req)).bind (fun u => u.balance)
            = some ((numOrZero (some (b.sub (parseFloat req.body.amount)).toDouble)).add
                (parseFloat req.body.amount)).toDouble)
      ∧ (b.toDouble = b → (parseFloat req.body.amount).toDouble = parseFloat req.body.amount →
          (b.sub (parseFloat req.body.amount)).toDouble = b.sub (parseFloat req.body.amount) →
          ((cancelWithdrawalRequest noFaults
              (createWithdrawalRequest env faults db req).2.toDouble
              creq).2.toDouble.findUserById (getUserId req)).bind (fun u => u.balance)
            = some b) := by
  rcases createWithdrawalRequest_faults env faults db req with e | ⟨op, e⟩
  swap
  · rw [e] at h; simp [errorResponse] at h
  rw [e] at h hid ⊢
  obtain ⟨user, hu, g1, g2, g3, g4, g5, g6, g7, g8⟩ :=
    createWithdrawalRequest_guards_of_201 env db req h
  obtain ⟨b, hb, hb1, hb2⟩ := balance_of_covers user.balance _ g2 g3 g8
  have hresp := createWithdrawalRequest_of_guards env noFaults db req user rfl hu g1 g2 g3 g4 g5
    g6 g7 g8
  rw [settle_withdrawalWrites] at hresp
  have hid1 : creq.paramsId
      = (db.saveUser (reservedUser user (parseFloat req.body.amount))).freshId := by
    rw [hresp] at hid
    simpa [withdrawalRequestDoc] using hid.symm
  obtain ⟨k1, k2, k3, k4⟩ := cancel_after_reserve env db req creq user hu g1 g2 g3 g4 g5 g6 g7
    g8 hcaller hid1
  have hbal : ((cancelWithdrawalRequest noFaults
        (createWithdrawalRequest env noFaults db req).2.toDouble
        creq).2.toDouble.findUserById (getUserId req)).bind (fun u => u.balance)
      = some ((numOrZero (some (b.sub (parseFloat req.body.amount)).toDouble)).add
          (parseFloat req.body.amount).toDouble).toDouble := by
    rw [findUserById_toDouble, k4, hb1]
    rfl
  refine ⟨user, b, _, _, hu, hb, by rw [hresp], by rw [hresp], k1, ?_, ?_, ?_, ?_⟩
  rotate_left 2
  · intro _ ha'
    rw [hbal, ha']
  · intro hb' ha' hs
    rw [hbal, hs, ha', refund_of_reserve b _ g2 g3 (by rw [← hb1]; exact g8) hb2, hb']
  · show List.map _ (List.map WithdrawalRequest.toDouble _) = _
    rw [k2]
    simp [Store.toDouble, cancelledRequest, WithdrawalRequest.toDouble, withdrawalRequestDoc,
      Function.comp_def]
  · show List.map _ (List.map Transaction.toDouble _) = _
    have : ((fun t : Transaction => (t.id, t.status)) ∘ Transaction.toDouble)
        = fun t => (t.id, t.status) := rfl
    rw [List.map_map, this, k3]
    simp [withdrawalTransactionDoc]

/-- C2, witness: `sampleUser` withdraws 200 out of 500 and cancels the request at once; all
the numbers are whole, no operation rounds, and the balance is 500 again. -/
theorem withdrawal_cancel_round_trip_witness :
    (createWithdrawalRequest {} noFaults sampleStore sampleWithdrawal).1.status = 201
    ∧ (cancelWithdrawalRequest noFaults
        (createWithdrawalRequest {} noFaults sampleStore sampleWithdrawal).2.toDouble
        sampleCancelCreated).1.status = 200
    ∧ ((cancelWithdrawalRequest noFaults
          (createWithdrawalRequest {} noFaults sampleStore sampleWithdrawal).2.toDouble
          sampleCancelCreated).2.toDouble.findUserById 1).bind (fun u => u.balance)
        = some (.fin 500) := by
  obtain ⟨user, b, wr, tx, hu, hb, -, -, k1, -, -, -, k⟩ :=
    withdrawal_cancel_round_trip {} noFaults sampleStore sampleWithdrawal sampleCancelCreated
      (by decide) (by decide) (by decide)
  have hu1 : sampleStore.findUserById (getUserId sampleWithdrawal) = some sampleUser := rfl
  rw [hu1] at hu
  obtain rfl : sampleUser = user := by simpa using hu
  have hb1 : b = .fin 500 := by
    have : sampleUser.balance = some (.fin 500) := rfl
    rw [this] at hb
    simpa using hb.symm
  subst hb1
  have ha : parseFloat sampleWithdrawal.body.amount = .fin 200 := rfl
  have hsub : (JsNum.fin 500).sub (.fin 200) = .fin 300 := by
    simp only [JsNum.sub, JsNum.neg, JsNum.add]
    norm_num
  refine ⟨by decide, k1, ?_⟩
  exact k toDouble_500 (by rw [ha]; exact toDouble_200)
    (by rw [ha, hsub]; exact toDouble_300)

/-- C2, counterexample to the claim as first stated: `sampleUser` has a balance of 228.4,
withdraws 100.2 and cancels the request at once.  Both calls succeed; the balance held after
the submission is the double nearest to `228.4 - 100.2`, and after the cancellation the
balance is the double just below 228.4 (written 228.39999999999998), not 228.4. -/
theorem withdrawal_cancel_rounding_counterexample :
    roundDouble (1142 / 5) = .fin double228_4
    ∧ roundDouble (501 / 5) = .fin double100_2
    ∧ (fractionalStore.findUserById 1).bind (fun u => u.balance) = some (.fin double228_4)
    ∧ (createWithdrawalRequest {} noFaults fractionalStore fractionalWithdrawal).1.status = 201
    ∧ (createWithdrawalRequest {} noFaults fractionalStore
          fractionalWithdrawal).1.withdrawalRequest.map (fun w => w.id)
        = some sampleCancelCreated.paramsId
    ∧ (cancelWithdrawalRequest noFaults
        (createWithdrawalRequest {} noFaults fractionalStore fractionalWithdrawal).2.toDouble
        sampleCancelCreated).1.status = 200
    ∧ ((cancelWithdrawalRequest noFaults
          (createWithdrawalRequest {} noFaults fractionalStore fractionalWithdrawal).2.toDouble
          sampleCancelCreated).2.toDouble.findUserById 1).bind (fun u => u.balance)
        = some (.fin (2009027646272307 / 8796093022208))
    ∧ (2009027646272307 / 8796093022208 : ℚ) < double228_4 := by
  obtain ⟨g1, g2, g3, g4, g5, g8⟩ := fractional_guards
  have hu : fractionalStore.findUserById (getUserId fractionalWithdrawal)
      = some { sampleUser with balance := some (.fin double228_4) } := rfl
  have hresp := createWithdrawalRequest_of_guards {} noFaults fractionalStore
    fractionalWithdrawal _ rfl hu g1 g2 g3 g4 g5 rfl rfl g8
  rw [settle_withdrawalWrites] at hresp
  obtain ⟨k1, -, -, k4⟩ := cancel_after_reserve {} fractionalStore fractionalWithdrawal
    sampleCancelCreated _ hu g1 g2 g3 g4 g5 rfl rfl g8 rfl rfl
  refine ⟨double228_4_nearest, double100_2_nearest, rfl, by rw [hresp], by rw [hresp]; rfl, k1,
    ?_, by norm_num [double228_4]⟩
  have e : getUserId fractionalWithdrawal = 1 := rfl
  rw [e] at k4
  rw [findUserById_toDouble, k4]
  have hb : numOrZero (some (JsNum.fin double228_4)) = .fin double228_4 :=
    numOrZero_some _ rfl
  have ha : parseFloat fractionalWithdrawal.body.amount = .fin double100_2 := rfl
  simp only [Option.map_some', Option.some_bind, User.toDouble, hb, ha, double_sub_rounds,
    double100_2_fixed]
  rw [numOrZero_some (.fin (2255318250894131 / 17592186044416)) rfl, double_add_rounds]

/-! ## C3: a cancellation refunds exactly once -/

/-- C3: for a pending withdrawal request found for the caller (an existing user), a first
`cancelWithdrawalRequest` succeeds and credits the amount once; a second call by the same
caller on the same request id answers 400 (`InvalidState`) and leaves the store, hence the
balance, exactly as the first call left it. -/
theorem cancelWithdrawalRequest_twice (db : Store) (req req2 : Request)
    (w : WithdrawalRequest) (user : User)
    (hw : db.findWithdrawalRequest req.paramsId (getUserId req) = some w)
    (hp : w.status = "pending")
    (hu : db.findUserById (getUserId req) = some user)
    (hcaller : getUserId req2 = getUserId req) (hid : req2.paramsId = req.paramsId) :
    (cancelWithdrawalRequest noFaults db req).1.status = 200
    ∧ (cancelWithdrawalRequest noFaults db req).2.findUserById (getUserId req)
        = some { user with balance := some ((numOrZero user.balance).add w.amount) }
    ∧ (cancelWithdrawalRequest noFaults (cancelWithdrawalRequest noFaults db req).2 req2).1
        = { status := 400
            message := .text "Sadece beklemede olan çekim talepleri iptal edilebilir." }
    ∧ (cancelWithdrawalRequest noFaults (cancelWithdrawalRequest noFaults db req).2 req2).2
        = (cancelWithdrawalRequest noFaults db req).2 := by
  have hspec := findWithdrawalRequest_spec db _ _ w hw
  have huid := findUserById_id db _ user hu
  have h1 : (cancelWithdrawalRequest noFaults db req).1.status = 200 := by
    rw [cancelWithdrawalRequest_of_pending db req w user hw hp hu]
  have h2 : (cancelWithdrawalRequest noFaults db req).2.findUserById (getUserId req)
      = some (refundedUser user w) := by
    unfold Store.findUserById
    rw [cancel_users db req w user hw hp hu]
    exact findUserById_saveUser db (getUserId req) user (refundedUser user w) hu huid
  have h3 : (cancelWithdrawalRequest noFaults db req).2.findWithdrawalRequest req2.paramsId
      (getUserId req2) = some (cancelledRequest w req.now) := by
    unfold Store.findWithdrawalRequest
    rw [cancel_withdrawalRequests db req w user hw hp hu, hid, hcaller]
    exact find_requests_replace db.withdrawalRequests req.paramsId (getUserId req) w
      (cancelledRequest w req.now) hw hspec.1 hspec.2
  have h4 := cancelWithdrawalRequest_of_not_pending
    (cancelWithdrawalRequest noFaults db req).2 req2 (cancelledRequest w req.now) h3
    (by simp [cancelledRequest])
  refine ⟨h1, h2, ?_, ?_⟩
  · rw [h4]
  · rw [h4]

/-- C3, witness: the pending request 7 of `sampleUser` is cancelled twice. -/
theorem cancelWithdrawalRequest_twice_witness :
    (cancelWithdrawalRequest noFaults pendingStore sampleCancel).1.status = 200
    ∧ (cancelWithdrawalRequest noFaults pendingStore sampleCancel).2.findUserById
          (getUserId sampleCancel)
        = some { sampleUser with
            balance := some ((numOrZero sampleUser.balance).add pendingRequest.amount) }
    ∧ (cancelWithdrawalRequest noFaults
          (cancelWithdrawalRequest noFaults pendingStore sampleCancel).2 sampleCancel).1
        = { status := 400
            message := .text "Sadece beklemede olan çekim talepleri iptal edilebilir." }
    ∧ (cancelWithdrawalRequest noFaults
          (cancelWithdrawalRequest noFaults pendingStore sampleCancel).2 sampleCancel).2
        = (cancelWithdrawalRequest noFaults pendingStore sampleCancel).2 :=
  cancelWithdrawalRequest_twice pendingStore sampleCancel sampleCancel pendingRequest sampleUser
    (by decide) (by decide) (by decide) rfl rfl

/-! ## C4: only a pending request can be cancelled -/

/-- C4: for a withdrawal request found for the caller, a status other than `pending` makes
`cancelWithdrawalRequest` answer 400 (`InvalidState`) and leaves the whole store unchanged
(request, balance and transactions), also when a storage call fails; with the status
`pending` and an existing user the call succeeds. -/
theorem cancelWithdrawalRequest_pending_only (db : Store) (req : Request)
    (w : WithdrawalRequest)
    (hw : db.findWithdrawalRequest req.paramsId (getUserId req) = some w) :
    (w.status ≠ "pending" →
      (cancelWithdrawalRequest noFaults db req).1
          = { status := 400
              message := .text "Sadece beklemede olan çekim talepleri iptal edilebilir." }
        ∧ ∀ faults, (cancelWithdrawalRequest faults db req).2 = db)
    ∧ (w.status = "pending" → ∀ user, db.findUserById (getUserId req) = some user →
        (cancelWithdrawalRequest noFaults db req).1.status = 200) := by
  constructor
  · intro hp
    have h := cancelWithdrawalRequest_of_not_pending db req w hw hp
    refine ⟨by rw [h], ?_⟩
    intro faults
    rcases cancelWithdrawalRequest_faults faults db req with e | ⟨op, e⟩
    · rw [e, h]
    · rw [e]
  · intro hp user hu
    rw [cancelWithdrawalRequest_of_pending db req w user hw hp hu]

/-- C4, witness: the paid request 8 of `sampleUser` cannot be cancelled and the store stays
as it was; the pending request 7 can. -/
theorem cancelWithdrawalRequest_pending_only_witness :
    ((cancelWithdrawalRequest noFaults pendingStore sampleCancelPaid).1
        = { status := 400
            message := .text "Sadece beklemede olan çekim talepleri iptal edilebilir." }
      ∧ ∀ faults,
        (cancelWithdrawalRequest faults pendingStore sampleCancelPaid).2 = pendingStore)
    ∧ (cancelWithdrawalRequest noFaults pendingStore sampleCancel).1.status = 200 :=
  ⟨(cancelWithdrawalRequest_pending_only pendingStore sampleCancelPaid paidRequest
      (by decide)).1 (by decide),
    (cancelWithdrawalRequest_pending_only pendingStore sampleCancel pendingRequest
      (by decide)).2 (by decide) sampleUser (by decide)⟩

/-! ## C5: insufficient funds -/

/-- C5: for an existing user with saved IBAN and holder name and an amount that parses to a
positive number within the withdrawal bounds, `createWithdrawalRequest` answers 400 with
`Yetersiz bakiye` exactly when `(user.balance || 0) < amount`; in that case the store is left
as it was (balance unchanged, no WithdrawalRequest, no Transaction), also when a storage call
fails; otherwise the request is accepted.  A missing balance counts as 0, so it is always
insufficient; for a stored finite balance `b` the test is `b < amount`. -/
theorem createWithdrawalRequest_insufficient_iff (env : Env) (db : Store) (req : Request)
    (user : User) (a lo hi : ℚ)
    (hu : db.findUserById (getUserId req) = some user)
    (hiban : strTruthy user.iban = true) (hholder : strTruthy user.ibanHolderName = true)
    (ha : parseFloat req.body.amount = .fin a) (hpos : 0 < a)
    (hlo : minWithdraw env = .fin lo) (hhi : maxWithdraw env = .fin hi)
    (h1 : lo ≤ a) (h2 : a ≤ hi) :
    ((createWithdrawalRequest env noFaults db req).1
        = { status := 400, message := .text "Yetersiz bakiye" }
      ↔ (numOrZero user.balance).lt (.fin a) = true)
    ∧ ((numOrZero user.balance).lt (.fin a) = true →
        ∀ faults, (createWithdrawalRequest env faults db req).2 = db)
    ∧ ((numOrZero user.balance).lt (.fin a) = false →
        (createWithdrawalRequest env noFaults db req).1.status = 201)
    ∧ (user.balance = none →
        (createWithdrawalRequest env noFaults db req).1
          = { status := 400, message := .text "Yetersiz bakiye" })
    ∧ (∀ b, user.balance = some (.fin b) →
        ((createWithdrawalRequest env noFaults db req).1
            = { status := 400, message := .text "Yetersiz bakiye" } ↔ b < a)) := by
  obtain ⟨g1, g2, g3, g4, g5⟩ := amount_guards req.body.amount a lo hi ha hpos h1 h2
  rw [← hlo] at g4
  rw [← hhi] at g5
  have hfail : (numOrZero user.balance).lt (.fin a) = true →
      createWithdrawalRequest env noFaults db req
        = ({ status := 400, message := .text "Yetersiz bakiye" }, db) := by
    intro g8
    rw [← ha] at g8
    simp [createWithdrawalRequest, createWithdrawalRequestTry, hu, g1, g2, g3, g4, g5, hiban,
      hholder, g8]
  have hok : (numOrZero user.balance).lt (.fin a) = false →
      (createWithdrawalRequest env noFaults db req).1.status = 201 := by
    intro g8
    rw [← ha] at g8
    rw [createWithdrawalRequest_of_guards env noFaults db req user rfl hu g1 g2 g3 g4 g5 hiban
      hholder g8, settle_withdrawalWrites]
  have hiff : (createWithdrawalRequest env noFaults db req).1
        = { status := 400, message := .text "Yetersiz bakiye" }
      ↔ (numOrZero user.balance).lt (.fin a) = true := by
    constructor
    · intro h
      by_contra hn
      have := hok (by simpa using hn)
      rw [h] at this
      simp at this
    · intro h
      rw [hfail h]
  refine ⟨hiff, ?_, hok, ?_, ?_⟩
  · intro h faults
    rcases createWithdrawalRequest_faults env faults db req with e | ⟨op, e⟩
    · rw [e, hfail h]
    · rw [e]
  · intro hnone
    apply hiff.mpr
    rw [hnone]
    simpa [numOrZero, JsNum.lt] using hpos
  · intro b hb
    rw [hiff, hb]
    by_cases hz : b = 0
    · subst hz; simp [numOrZero, JsNum.truthy, JsNum.lt]
    · simp [numOrZero, JsNum.truthy, JsNum.lt, hz]

/-- C5, witness: `sampleUser` holds 500 and asks for 600, within the default bounds: the
answer is 400 `Yetersiz bakiye` and the store is untouched. -/
theorem createWithdrawalRequest_insufficient_iff_witness :
    (createWithdrawalRequest {} noFaults sampleStore largeWithdrawal).1
        = { status := 400, message := .text "Yetersiz bakiye" }
    ∧ ∀ faults, (createWithdrawalRequest {} faults sampleStore largeWithdrawal).2
        = sampleStore :=
  ⟨(createWithdrawalRequest_insufficient_iff {} sampleStore largeWithdrawal sampleUser 600 100
      50000 (by decide) (by decide) (by decide) rfl (by decide) rfl rfl (by decide)
      (by decide)).1.mpr (by decide),
    (createWithdrawalRequest_insufficient_iff {} sampleStore largeWithdrawal sampleUser 600 100
      50000 (by decide) (by decide) (by decide) rfl (by decide) rfl rfl (by decide)
      (by decide)).2.1 (by decide)⟩

/-! ## C6 and C7: deposits with and without auto-approval -/

/-- C6: with auto-approval enabled, for an existing user and an amount that parses to a
positive number within the deposit bounds, `createIbanDeposit` answers 201; the user's
balance and `totalDeposits` become `(old || 0) + amount` (for a stored finite balance `b`,
exactly `b + amount`); exactly one DepositRequest is appended, with status `approved`, the
amount and the caller as owner; exactly one Transaction is appended, of type `deposit`, with
status `completed`, the amount, and `metadata.depositRequestId` the id of that request, which
no earlier deposit request has; the returned `newBalance` is the stored balance. -/
theorem createIbanDeposit_auto_approved (env : Env) (db : Store) (req : Request)
    (user : User) (a lo hi : ℚ)
    (hauto : autoApprove env = true)
    (hu : db.findUserById (getUserId req) = some user)
    (ha : parseFloat req.body.amount = .fin a) (hpos : 0 < a)
    (hlo : minDeposit env = .fin lo) (hhi : maxDeposit env = .fin hi)
    (h1 : lo ≤ a) (h2 : a ≤ hi) :
    ∃ d t,
      (createIbanDeposit env noFaults db req).1.status = 201
      ∧ (createIbanDeposit env noFaults db req).2.findUserById (getUserId req)
          = some { user with
              balance := some ((numOrZero user.balance).add (.fin a))
              totalDeposits := some ((numOrZero user.totalDeposits).add (.fin a)) }
      ∧ (∀ b, user.balance = some (.fin b) →
          ((createIbanDeposit env noFaults db req).2.findUserById (getUserId req)).bind
            (fun u => u.balance) = some (.fin (b + a)))
      ∧ (∀ b, user.totalDeposits = some (.fin b) →
          ((createIbanDeposit env noFaults db req).2.findUserById (getUserId req)).bind
            (fun u => u.totalDeposits) = some (.fin (b + a)))
      ∧ (createIbanDeposit env noFaults db req).1.newBalance
          = ((createIbanDeposit env noFaults db req).2.findUserById (getUserId req)).bind
              (fun u => u.balance)
      ∧ (createIbanDeposit env noFaults db req).2.depositRequests = db.depositRequests ++ [d]
      ∧ (createIbanDeposit env noFaults db req).1.depositRequest = some d
      ∧ d.status = "approved" ∧ d.amount = .fin a ∧ d.user = getUserId req
      ∧ (∀ x ∈ db.depositRequests, x.id ≠ d.id)
      ∧ (createIbanDeposit env noFaults db req).2.transactions = db.transactions ++ [t]
      ∧ (createIbanDeposit env noFaults db req).1.transaction = some t
      ∧ t.type = "deposit" ∧ t.status = "completed" ∧ t.amount = .fin a
      ∧ t.user = getUserId req ∧ t.metadata.depositRequestId = some d.id
      ∧ (createIbanDeposit env noFaults db req).2.withdrawalRequests
          = db.withdrawalRequests := by
  obtain ⟨g1, g2, g3, g4, g5⟩ := amount_guards req.body.amount a lo hi ha hpos h1 h2
  rw [← hlo] at g4
  rw [← hhi] at g5
  have huid := findUserById_id db _ user hu
  rw [createIbanDeposit_of_guards env noFaults db req user rfl hu g1 g2 g3 g4 g5,
    settle_depositWrites_auto env db req _ _ user hauto, ha]
  have hfind : (((db.insertDepositRequest
        (depositRequestDoc env db.freshId req (getUserId req) (.fin a))).saveUser
          (creditedUser user (.fin a))).insertTransaction
        (depositTransactionDoc
          ((db.insertDepositRequest
            (depositRequestDoc env db.freshId req (getUserId req) (.fin a))).saveUser
              (creditedUser user (.fin a))).freshId
          req (getUserId req) (.fin a) db.freshId)).findUserById (getUserId req)
      = some (creditedUser user (.fin a)) :=
    findUserById_saveUser
      (db.insertDepositRequest (depositRequestDoc env db.freshId req (getUserId req) (.fin a)))
      (getUserId req) user (creditedUser user (.fin a)) hu huid
  refine ⟨_, _, rfl, ?_, ?_, ?_, ?_, rfl, rfl, ?_, rfl, rfl, ?_, rfl, rfl, rfl, rfl, rfl, rfl,
    rfl, rfl⟩
  · rw [hfind]; rfl
  · intro b hb
    rw [hfind]
    simp [creditedUser, hb, numOrZero_add_fin]
  · intro b hb
    rw [hfind]
    simp [creditedUser, hb, numOrZero_add_fin]
  · rw [hfind]; rfl
  · simp [depositRequestDoc, hauto]
  · intro x hx
    exact Nat.ne_of_lt (depositRequest_id_lt_freshId db x hx)

/-- C6, witness: with no variable set, `sampleUser` deposits 250. -/
theorem createIbanDeposit_auto_approved_witness :
    (createIbanDeposit {} noFaults sampleStore sampleDeposit).1.status = 201
    ∧ (createIbanDeposit {} noFaults sampleStore sampleDeposit).1.newBalance = some (.fin 750)
    ∧ ((createIbanDeposit {} noFaults sampleStore sampleDeposit).2.findUserById 1).bind
        (fun u => u.balance) = some (.fin 750)
    ∧ ((createIbanDeposit {} noFaults sampleStore sampleDeposit).2.findUserById 1).bind
        (fun u => u.totalDeposits) = some (.fin 1250)
    ∧ (createIbanDeposit {} noFaults sampleStore sampleDeposit).2.depositRequests.map
        (fun d => (d.status, d.amount)) = [("approved", .fin 250)]
    ∧ (createIbanDeposit {} noFaults sampleStore sampleDeposit).2.transactions.map
        (fun t => (t.type, t.status, t.amount)) = [("deposit", "completed", .fin 250)] := by
  obtain ⟨d, t, k1, k2, k3, k4, k5, k6, k7, k8, k9, k10, k11, k12, k13, k14, k15, k16, k17,
      k18, k19⟩ :=
    createIbanDeposit_auto_approved {} sampleStore sampleDeposit sampleUser 250 100 50000
      (by decide) (by decide) parseFloatString_250 (by decide) rfl rfl (by decide) (by decide)
  have e3 := k3 500 rfl
  have e4 := k4 1000 rfl
  norm_num at e3 e4
  refine ⟨k1, ?_, e3, e4, ?_, ?_⟩
  · rw [k5]; exact e3
  · rw [k6]; simp [sampleStore, k8, k9]
  · rw [k12]; simp [sampleStore, k14, k15, k16]

/-- C7: when approval is required (auto-approval disabled), for an existing user and an
amount that parses to a positive number within the deposit bounds, `createIbanDeposit`
answers 201 and appends exactly one DepositRequest, with status `pending` and `approvedAt`
null; no Transaction is created, no user document changes (balance and `totalDeposits`
included), and the response carries no `newBalance` and no transaction. -/
theorem createIbanDeposit_approval_required (env : Env) (db : Store) (req : Request)
    (user : User) (a lo hi : ℚ)
    (hauto : autoApprove env = false)
    (hu : db.findUserById (getUserId req) = some user)
    (ha : parseFloat req.body.amount = .fin a) (hpos : 0 < a)
    (hlo : minDeposit env = .fin lo) (hhi : maxDeposit env = .fin hi)
    (h1 : lo ≤ a) (h2 : a ≤ hi) :
    ∃ d,
      (createIbanDeposit env noFaults db req).1.status = 201
      ∧ (createIbanDeposit env noFaults db req).2.depositRequests = db.depositRequests ++ [d]
      ∧ (createIbanDeposit env noFaults db req).1.depositRequest = some d
      ∧ d.status = "pending" ∧ d.approvedAt = none ∧ d.amount = .fin a
      ∧ d.user = getUserId req
      ∧ (createIbanDeposit env noFaults db req).2.transactions = db.transactions
      ∧ (createIbanDeposit env noFaults db req).2.users = db.users
      ∧ (createIbanDeposit env noFaults db req).2.withdrawalRequests = db.withdrawalRequests
      ∧ (createIbanDeposit env noFaults db req).1.newBalance = none
      ∧ (createIbanDeposit env noFaults db req).1.transaction = none := by
  obtain ⟨g1, g2, g3, g4, g5⟩ := amount_guards req.body.amount a lo hi ha hpos h1 h2
  rw [← hlo] at g4
  rw [← hhi] at g5
  rw [createIbanDeposit_of_guards env noFaults db req user rfl hu g1 g2 g3 g4 g5,
    settle_depositWrites_manual env db req _ _ user hauto, ha]
  refine ⟨_, rfl, rfl, rfl, ?_, ?_, rfl, rfl, rfl, rfl, rfl, rfl, rfl⟩
  · simp [depositRequestDoc, hauto]
  · simp [depositRequestDoc, hauto]

/-- C7, witness: in production with no override, `sampleUser` announces a deposit of 250. -/
theorem createIbanDeposit_approval_required_witness :
    ∃ d,
      (createIbanDeposit productionEnv noFaults sampleStore sampleDeposit).1.status = 201
      ∧ (createIbanDeposit productionEnv noFaults sampleStore sampleDeposit).2.depositRequests
          = sampleStore.depositRequests ++ [d]
      ∧ (createIbanDeposit productionEnv noFaults sampleStore sampleDeposit).1.depositRequest
          = some d
      ∧ d.status = "pending" ∧ d.approvedAt = none ∧ d.amount = .fin 250
      ∧ d.user = getUserId sampleDeposit
      ∧ (createIbanDeposit productionEnv noFaults sampleStore sampleDeposit).2.transactions
          = sampleStore.transactions
      ∧ (createIbanDeposit productionEnv noFaults sampleStore sampleDeposit).2.users
          = sampleStore.users
      ∧ (createIbanDeposit productionEnv noFaults sampleStore
            sampleDeposit).2.withdrawalRequests = sampleStore.withdrawalRequests
      ∧ (createIbanDeposit productionEnv noFaults sampleStore sampleDeposit).1.newBalance = none
      ∧ (createIbanDeposit productionEnv noFaults sampleStore sampleDeposit).1.transaction
          = none :=
  createIbanDeposit_approval_required productionEnv sampleStore sampleDeposit sampleUser 250
    100 50000 (by decide) (by decide) parseFloatString_250 (by decide) rfl rfl (by decide)
    (by decide)

/-! ## C8: deposit amount bounds -/

/-- C8 (as amended): for finite configured bounds `lo <= hi` and an existing user,
`createIbanDeposit` (without storage faults) answers 201 exactly when the amount parses to a
finite number `q` with `0 < q` and `lo <= q <= hi`, and answers 400 otherwise.  So `lo - 1`
and `hi + 1` are refused with 400, `lo` is accepted when `lo` is positive, `hi` is accepted
when `hi` is positive, and zero, negative, missing and non-numeric amounts are refused with
400. -/
theorem createIbanDeposit_amount_bounds (env : Env) (db : Store) (req : Request) (user : User)
    (lo hi : ℚ)
    (hlo : minDeposit env = .fin lo) (hhi : maxDeposit env = .fin hi) (hle : lo ≤ hi)
    (hu : db.findUserById (getUserId req) = some user) :
    ((createIbanDeposit env noFaults db req).1.status = 201
      ↔ ∃ q, parseFloat req.body.amount = .fin q ∧ 0 < q ∧ lo ≤ q ∧ q ≤ hi)
    ∧ ((createIbanDeposit env noFaults db req).1.status = 201
        ∨ (createIbanDeposit env noFaults db req).1.status = 400)
    ∧ (parseFloat req.body.amount = .fin (lo - 1) →
        (createIbanDeposit env noFaults db req).1.status = 400)
    ∧ (parseFloat req.body.amount = .fin (hi + 1) →
        (createIbanDeposit env noFaults db req).1.status = 400)
    ∧ (0 < lo → parseFloat req.body.amount = .fin lo →
        (createIbanDeposit env noFaults db req).1.status = 201)
    ∧ (0 < hi → parseFloat req.body.amount = .fin hi →
        (createIbanDeposit env noFaults db req).1.status = 201)
    ∧ (∀ q, q ≤ 0 → parseFloat req.body.amount = .fin q →
        (createIbanDeposit env noFaults db req).1.status = 400)
    ∧ (parseFloat req.body.amount = .nan →
        (createIbanDeposit env noFaults db req).1.status = 400)
    ∧ (req.body.amount = .undefined →
        (createIbanDeposit env noFaults db req).1.status = 400) := by
  have hst := createIbanDeposit_status env db req user hu
  have hiff : (createIbanDeposit env noFaults db req).1.status = 201
      ↔ ∃ q, parseFloat req.body.amount = .fin q ∧ 0 < q ∧ lo ≤ q ∧ q ≤ hi := by
    constructor
    · intro h
      rw [hst] at h
      split at h
      · simp at h
      · rename_i hc
        simp only [Bool.or_eq_true, not_or, Bool.not_eq_true, Bool.not_eq_true',
          Bool.not_eq_false] at hc
        obtain ⟨⟨⟨⟨_, g2⟩, g3⟩, g4⟩, g5⟩ := hc
        rw [hlo] at g4
        rw [hhi] at g5
        exact amount_of_guards _ lo hi g2 g3 g4 g5
    · rintro ⟨q, hq, hpos, h1, h2⟩
      obtain ⟨g1, g2, g3, g4, g5⟩ := amount_guards req.body.amount q lo hi hq hpos h1 h2
      rw [hst, hlo, hhi]
      simp [g1, g2, g3, g4, g5]
  have hor : (createIbanDeposit env noFaults db req).1.status = 201
      ∨ (createIbanDeposit env noFaults db req).1.status = 400 := by
    rw [hst]
    split
    · right; rfl
    · left; rfl
  have hrej : ∀ P : Prop,
      (P → ¬ ∃ q, parseFloat req.body.amount = .fin q ∧ 0 < q ∧ lo ≤ q ∧ q ≤ hi) →
      P → (createIbanDeposit env noFaults db req).1.status = 400 := by
    intro P hP hp
    rcases hor with h | h
    · exact absurd (hiff.mp h) (hP hp)
    · exact h
  refine ⟨hiff, hor, ?_, ?_, ?_, ?_, ?_, ?_, ?_⟩
  · apply hrej
    rintro h ⟨q, hq, _, h1, _⟩
    rw [h] at hq
    have : lo - 1 = q := by simpa using hq
    linarith
  · apply hrej
    rintro h ⟨q, hq, _, _, h2⟩
    rw [h] at hq
    have : hi + 1 = q := by simpa using hq
    linarith
  · intro hpos h
    exact hiff.mpr ⟨lo, h, hpos, le_refl _, hle⟩
  · intro hpos h
    exact hiff.mpr ⟨hi, h, hpos, hle, le_refl _⟩
  · intro q hq
    apply hrej
    rintro h ⟨q1, hq1, hpos, _, _⟩
    rw [h] at hq1
    have : q = q1 := by simpa using hq1
    linarith
  · apply hrej
    rintro h ⟨q, hq, _⟩
    rw [h] at hq
    simp at hq
  · apply hrej
    rintro h ⟨q, hq, _⟩
    rw [h] at hq
    simp [parseFloat] at hq

/-- C8, witness: with the default bounds 100 and 50000 and the user `sampleUser`, a deposit
of 250 is accepted. -/
theorem createIbanDeposit_amount_bounds_witness :
    minDeposit {} = .fin 100 ∧ maxDeposit {} = .fin 50000
    ∧ (createIbanDeposit {} noFaults sampleStore sampleDeposit).1.status = 201 :=
  ⟨rfl, rfl,
    (createIbanDeposit_amount_bounds {} sampleStore sampleDeposit sampleUser 100 50000 rfl rfl
      (by decide) (by decide)).1.mpr
      ⟨250, parseFloatString_250, by decide, by decide, by decide⟩⟩

/-- C8, counterexample to the claim as first stated: with the lower bound configured as 0
(and the default upper bound 50000, so `minDeposit <= maxDeposit`), the amount `minDeposit`,
that is 0, is refused with 400 for the existing user `sampleUser`. -/
theorem createIbanDeposit_min_counterexample :
    minDeposit zeroMinEnv = .fin 0 ∧ maxDeposit zeroMinEnv = .fin 50000
    ∧ sampleStore.findUserById (getUserId zeroAmount) = some sampleUser
    ∧ parseFloat zeroAmount.body.amount = .fin 0
    ∧ (createIbanDeposit zeroMinEnv noFaults sampleStore zeroAmount).1.status = 400 :=
  ⟨parseFloatString_zero, rfl, by decide, rfl, by decide⟩

/-! ## C9: withdrawal amount bounds -/

/-- C9 (as amended): for finite configured bounds `lo <= hi` and an existing user with saved
IBAN details and a balance of at least `hi + 1`, `createWithdrawalRequest` refuses the
amounts `lo - 1` and `hi + 1` with 400 and leaves the store, hence the balance, unchanged; it
accepts the amount `lo` when `lo` is positive and the amount `hi` when `hi` is positive; and
every amount it accepts is a finite number `q` with `lo <= q <= hi`. -/
theorem createWithdrawalRequest_amount_bounds (env : Env) (db : Store) (req : Request)
    (user : User) (lo hi b : ℚ)
    (hlo : minWithdraw env = .fin lo) (hhi : maxWithdraw env = .fin hi) (hle : lo ≤ hi)
    (hu : db.findUserById (getUserId req) = some user)
    (hiban : strTruthy user.iban = true) (hholder : strTruthy user.ibanHolderName = true)
    (hbal : user.balance = some (.fin b)) (hb : hi + 1 ≤ b) :
    (parseFloat req.body.amount = .fin (lo - 1) →
        (createWithdrawalRequest env noFaults db req).1.status = 400
        ∧ ∀ faults, (createWithdrawalRequest env faults db req).2 = db)
    ∧ (parseFloat req.body.amount = .fin (hi + 1) →
        (createWithdrawalRequest env noFaults db req).1.status = 400
        ∧ ∀ faults, (createWithdrawalRequest env faults db req).2 = db)
    ∧ (0 < lo → parseFloat req.body.amount = .fin lo →
        (createWithdrawalRequest env noFaults db req).1.status = 201)
    ∧ (0 < hi → parseFloat req.body.amount = .fin hi →
        (createWithdrawalRequest env noFaults db req).1.status = 201)
    ∧ (∀ faults, (createWithdrawalRequest env faults db req).1.status = 201 →
        ∃ q, parseFloat req.body.amount = .fin q ∧ lo ≤ q ∧ q ≤ hi) := by
  have hacc : ∀ q, 0 < q → lo ≤ q → q ≤ hi → parseFloat req.body.amount = .fin q →
      (createWithdrawalRequest env noFaults db req).1.status = 201 := by
    intro q hpos h1 h2 hq
    obtain ⟨g1, g2, g3, g4, g5⟩ := amount_guards req.body.amount q lo hi hq hpos h1 h2
    rw [← hlo] at g4
    rw [← hhi] at g5
    have g8 : (numOrZero user.balance).lt (parseFloat req.body.amount) = false := by
      have hbne : b ≠ 0 := by intro h0; rw [h0] at hb; linarith
      rw [hbal, hq]
      simp only [numOrZero, JsNum.truthy, ne_eq, hbne, not_false_eq_true, decide_True,
        if_true, JsNum.lt, decide_eq_false_iff_not, not_lt]
      linarith
    rw [createWithdrawalRequest_of_guards env noFaults db req user rfl hu g1 g2 g3 g4 g5 hiban
      hholder g8, settle_withdrawalWrites]
  have hrej : (!req.body.amount.truthy || (parseFloat req.body.amount).isNaN
        || (parseFloat req.body.amount).le (.fin 0)
        || (parseFloat req.body.amount).lt (minWithdraw env)
        || (parseFloat req.body.amount).gt (maxWithdraw env)) = true →
      (createWithdrawalRequest env noFaults db req).1.status = 400
        ∧ ∀ faults, (createWithdrawalRequest env faults db req).2 = db := by
    intro h
    exact ⟨(createWithdrawalRequest_rejected env noFaults db req h).1,
      fun faults => (createWithdrawalRequest_rejected env faults db req h).2⟩
  refine ⟨?_, ?_, ?_, ?_, ?_⟩
  · intro h
    apply hrej
    rw [h, hlo]
    simp [JsNum.lt]
  · intro h
    apply hrej
    rw [h, hhi]
    simp [JsNum.gt, JsNum.lt]
  · intro hpos h
    exact hacc lo hpos (le_refl _) hle h
  · intro hpos h
    exact hacc hi hpos hle (le_refl _) h
  · intro faults h
    rcases createWithdrawalRequest_faults env faults db req with e | ⟨op, e⟩
    swap
    · rw [e] at h; simp at h
    rw [e] at h
    obtain ⟨_, _, _, g2, g3, g4, g5, _⟩ := createWithdrawalRequest_guards_of_201 env db req h
    rw [hlo] at g4
    rw [hhi] at g5
    obtain ⟨q, hq, _, h1, h2⟩ := amount_of_guards _ lo hi g2 g3 g4 g5
    exact ⟨q, hq, h1, h2⟩

/-- C9, witness: with the default bounds 100 and 50000, a user holding 60000 is refused the
amounts 99 and 50001 and may withdraw 100 or 50000. -/
theorem createWithdrawalRequest_amount_bounds_witness :
    minWithdraw {} = .fin 100 ∧ maxWithdraw {} = .fin 50000
    ∧ (createWithdrawalRequest {} noFaults richStore
        { zeroAmount with body := { amount := .number (.fin 99) } }).1.status = 400
    ∧ (createWithdrawalRequest {} noFaults richStore
        { zeroAmount with body := { amount := .number (.fin 50001) } }).1.status = 400
    ∧ (createWithdrawalRequest {} noFaults richStore
        { zeroAmount with body := { amount := .number (.fin 100) } }).1.status = 201
    ∧ (createWithdrawalRequest {} noFaults richStore
        { zeroAmount with body := { amount := .number (.fin 50000) } }).1.status = 201 :=
  ⟨rfl, rfl,
    ((createWithdrawalRequest_amount_bounds {} richStore
      { zeroAmount with body := { amount := .number (.fin 99) } }
      { sampleUser with balance := some (.fin 60000) } 100 50000 60000 rfl rfl (by decide)
      (by decide) (by decide) (by decide) rfl (by norm_num)).1
        (by norm_num [parseFloat])).1,
    ((createWithdrawalRequest_amount_bounds {} richStore
      { zeroAmount with body := { amount := .number (.fin 50001) } }
      { sampleUser with balance := some (.fin 60000) } 100 50000 60000 rfl rfl (by decide)
      (by decide) (by decide) (by decide) rfl (by norm_num)).2.1
        (by norm_num [parseFloat])).1,
    (createWithdrawalRequest_amount_bounds {} richStore
      { zeroAmount with body := { amount := .number (.fin 100) } }
      { sampleUser with balance := some (.fin 60000) } 100 50000 60000 rfl rfl (by decide)
      (by decide) (by decide) (by decide) rfl (by norm_num)).2.2.1 (by decide) rfl,
    (createWithdrawalRequest_amount_bounds {} richStore
      { zeroAmount with body := { amount := .number (.fin 50000) } }
      { sampleUser with balance := some (.fin 60000) } 100 50000 60000 rfl rfl (by decide)
      (by decide) (by decide) (by decide) rfl (by norm_num)).2.2.2.1 (by decide) rfl⟩

/-- C9, counterexample to the claim as first stated: with the lower bound configured as 0
(and the default upper bound 50000), a user with saved IBAN details and a balance of 60000,
which is at least `maxWithdrawal + 1`, is refused the amount `minWithdrawal`, that is 0. -/
theorem createWithdrawalRequest_min_counterexample :
    minWithdraw zeroMinEnv = .fin 0 ∧ maxWithdraw zeroMinEnv = .fin 50000
    ∧ (richStore.findUserById (getUserId zeroAmount)).map (fun u => u.balance)
        = some (some (.fin 60000))
    ∧ parseFloat zeroAmount.body.amount = .fin 0
    ∧ (createWithdrawalRequest zeroMinEnv noFaults richStore zeroAmount).1.status = 400 :=
  ⟨parseFloatString_zero, rfl, by decide, rfl, by decide⟩

/-! ## C10: the IBAN format check of `updateProfile` -/

/-- The regular expression accepts exactly the texts of the specified shape. -/
theorem ibanRegexTest_iff (cs : List Char) : ibanRegexTest cs = true ↔ HasIbanShape cs := by
  constructor
  · intro h
    match cs, h with
    | a :: b :: c :: d :: rest, h =>
      simp only [ibanRegexTest, Bool.and_eq_true, decide_eq_true_eq, List.all_eq_true] at h
      obtain ⟨⟨⟨⟨⟨⟨ha, hb⟩, hc⟩, hd⟩, h4⟩, h30⟩, hr⟩ := h
      refine ⟨[a, b], [c, d], rest, rfl, rfl, ?_, rfl, ?_, h4, h30, hr⟩
      · intro x hx
        simp only [List.mem_cons, List.mem_singleton, List.not_mem_nil, or_false] at hx
        rcases hx with rfl | rfl
        · exact ha
        · exact hb
      · intro x hx
        simp only [List.mem_cons, List.mem_singleton, List.not_mem_nil, or_false] at hx
        rcases hx with rfl | rfl
        · exact hc
        · exact hd
  · rintro ⟨country, check, rest, rfl, h1, h2, h3, h4, h5, h6, h7⟩
    match country, h1, h2 with
    | [a, b], _, h2 =>
      match check, h3, h4 with
      | [c, d], _, h4 =>
        simp only [List.cons_append, List.nil_append, ibanRegexTest, Bool.and_eq_true,
          decide_eq_true_eq, List.all_eq_true]
        exact ⟨⟨⟨⟨⟨⟨h2 a (by simp), h2 b (by simp)⟩, h4 c (by simp)⟩, h4 d (by simp)⟩,
          h5⟩, h6⟩, h7⟩

/-- C10 (as amended): for a non-empty IBAN string in the body, `updateProfile` answers 400
exactly when the string, after every white-space character has been removed from it, does
not have the shape two capital letters + two digits + 4 to 30 capital letters or digits; the
400 answer carries the message `Geçersiz IBAN formatı` and nothing is written. -/
theorem updateProfile_iban_check (faults : Faults) (db : Store) (req : Request) (s : String)
    (hs : req.body.iban = some s) (hne : s ≠ "") :
    ((updateProfile faults db req).1.status = 400 ↔ ¬ HasIbanShape (removeWhiteSpace s))
    ∧ ((updateProfile faults db req).1.status = 400 →
        (updateProfile faults db req).1
            = { status := 400, message := .text "Geçersiz IBAN formatı" }
          ∧ (updateProfile faults db req).2 = db) := by
  have ht : strTruthy req.body.iban = true := by simp [hs, strTruthy, hne]
  by_cases hr : ibanRegexTest (removeWhiteSpace s) = true
  · have hshape := (ibanRegexTest_iff _).mp hr
    have hstatus : (updateProfile faults db req).1.status ≠ 400 := by
      by_cases hf : faults .userFindByIdAndUpdate = true
      · simp [updateProfile, hs, hr, hf]
      · cases hu : db.findUserById (getUserId req) <;> simp [updateProfile, hs, hr, hf, hu]
    exact ⟨⟨fun h => absurd h hstatus, fun h => absurd hshape h⟩, fun h => absurd h hstatus⟩
  · have hshape : ¬ HasIbanShape (removeWhiteSpace s) := fun h => hr ((ibanRegexTest_iff _).mpr h)
    have e : updateProfile faults db req
        = ({ status := 400, message := .text "Geçersiz IBAN formatı" }, db) := by
      simp [updateProfile, hs, hr, ht, strTruthy, hne]
    rw [e]
    exact ⟨⟨fun _ => hshape, fun _ => rfl⟩, fun _ => ⟨rfl, rfl⟩⟩

/-- C10, witness: `TR330006100519786457841326` is accepted, the same text with a lowercase
country code is refused with 400. -/
theorem updateProfile_iban_check_witness :
    (updateProfile noFaults sampleStore plainIbanUpdate).1.status ≠ 400
    ∧ (updateProfile noFaults sampleStore lowercaseIbanUpdate).1
        = { status := 400, message := .text "Geçersiz IBAN formatı" } :=
  ⟨fun h => (updateProfile_iban_check noFaults sampleStore plainIbanUpdate
      "TR330006100519786457841326" rfl (by decide)).1.mp h
        ((ibanRegexTest_iff _).mp (by decide)),
    ((updateProfile_iban_check noFaults sampleStore lowercaseIbanUpdate
      "tr330006100519786457841326" rfl (by decide)).2
        ((updateProfile_iban_check noFaults sampleStore lowercaseIbanUpdate
          "tr330006100519786457841326" rfl (by decide)).1.mpr
            (fun h => by
              have := (ibanRegexTest_iff _).mpr h
              revert this
              decide))).1⟩

/-- C10, counterexample to the claim as first stated: the non-empty string
`TR33 0006 1005 1978 6457 8413 26` does not have the shape two letters + two digits + 4 to
30 alphanumeric characters (its fifth character is a space), yet `updateProfile` accepts it
(200) and stores it as it was sent. -/
theorem updateProfile_spaced_iban_counterexample :
    ¬ HasIbanShape "TR33 0006 1005 1978 6457 8413 26".data
    ∧ (updateProfile noFaults sampleStore spacedIbanUpdate).1.status = 200
    ∧ ((updateProfile noFaults sampleStore spacedIbanUpdate).2.findUserById 1).bind
        (fun u => u.iban) = some "TR33 0006 1005 1978 6457 8413 26" := by
  refine ⟨?_, by decide, by decide⟩
  intro h
  have := (ibanRegexTest_iff _).mpr h
  revert this
  decide

/-! ## C11: pagination of the two listings -/

/-- C11: without a status filter, for a page `p >= 1` and a limit `l >= 1` (as parsed from
the query), each listing answers 200 with the documents at the positions `(p - 1) * l + 1`
to `min (p * l) N` of `ordered`, where `ordered` holds exactly the `N` requests of the caller
in descending order of creation time (for withdrawals with `adminNotes` and
`rejectionReason` left out); `total` is `N`, `currentPage` is `p`, and `totalPages` is
`ceil (N / l)`, the least number of pages of `l` documents that hold `N` documents; every
document returned belongs to the caller. -/
theorem listings_paginate (db : Store) (req : Request) (p l : Nat)
    (hstatus : req.query.status = none)
    (hp : intParam req.query.page 1 = (p : Int)) (hl : intParam req.query.limit 50 = (l : Int))
    (hp1 : 1 ≤ p) (hl1 : 1 ≤ l) :
    (∃ ordered items : List DepositRequest,
      ordered.Perm (db.depositRequests.filter (fun d => decide (d.user = getUserId req)))
      ∧ ordered.Sorted (fun a b => b.createdAt ≤ a.createdAt)
      ∧ getMyDepositRequests noFaults db req
          = .json items ⌈(ordered.length : ℚ) / (l : ℚ)⌉ p ordered.length
      ∧ items.length = min (p * l) ordered.length - (p - 1) * l
      ∧ (∀ i, i < items.length → items[i]? = ordered[(p - 1) * l + i]?)
      ∧ (∀ d ∈ items, d.user = getUserId req)
      ∧ (ordered.length : Int) ≤ ⌈(ordered.length : ℚ) / (l : ℚ)⌉ * (l : Int)
      ∧ ⌈(ordered.length : ℚ) / (l : ℚ)⌉ * (l : Int) < (ordered.length : Int) + (l : Int))
    ∧ (∃ ordered items : List WithdrawalRequest,
      ordered.Perm (db.withdrawalRequests.filter (fun w => decide (w.user = getUserId req)))
      ∧ ordered.Sorted (fun a b => b.createdAt ≤ a.createdAt)
      ∧ getMyWithdrawalRequests noFaults db req
          = .json items ⌈(ordered.length : ℚ) / (l : ℚ)⌉ p ordered.length
      ∧ items.length = min (p * l) ordered.length - (p - 1) * l
      ∧ (∀ i, i < items.length →
          items[i]? = (ordered[(p - 1) * l + i]?).map selectPublic)
      ∧ (∀ w ∈ items, w.user = getUserId req)
      ∧ (ordered.length : Int) ≤ ⌈(ordered.length : ℚ) / (l : ℚ)⌉ * (l : Int)
      ∧ ⌈(ordered.length : ℚ) / (l : ℚ)⌉ * (l : Int) < (ordered.length : Int) + (l : Int)) := by
  constructor
  · obtain ⟨hperm, hsorted⟩ := newestFirst_spec (fun d : DepositRequest => d.createdAt)
      (db.depositRequests.filter (fun d => decide (d.user = getUserId req)))
    have hlen := hperm.length_eq
    refine ⟨_, _, hperm, hsorted, ?_, page_length _ p l hp1,
      fun i hi => page_getElem _ p l i hi, ?_, ceil_pages _ l hl1⟩
    · rw [getMyDepositRequests_page db req p l hp hl hp1, hstatus, depositQuery_none, hlen]
    · intro d hd
      have h1 := List.mem_of_mem_drop (List.mem_of_mem_take hd)
      have h2 := (List.mem_filter.mp (hperm.mem_iff.mp h1)).2
      simpa using h2
  · obtain ⟨hperm, hsorted⟩ := newestFirst_spec (fun w : WithdrawalRequest => w.createdAt)
      (db.withdrawalRequests.filter (fun w => decide (w.user = getUserId req)))
    have hlen := hperm.length_eq
    refine ⟨_, (((newestFirst (fun w : WithdrawalRequest => w.createdAt)
      (db.withdrawalRequests.filter (fun w => decide (w.user = getUserId req)))).drop
        ((p - 1) * l)).take l).map selectPublic,
      hperm, hsorted, ?_, ?_, ?_, ?_, ceil_pages _ l hl1⟩
    · rw [getMyWithdrawalRequests_page db req p l hp hl hp1, hstatus, withdrawalQuery_none,
        hlen]
    · rw [List.length_map]
      exact page_length _ p l hp1
    · intro i hi
      rw [List.length_map] at hi
      rw [List.getElem?_map, page_getElem _ p l i hi]
    · intro w hw
      obtain ⟨w0, hw0, rfl⟩ := List.mem_map.mp hw
      have h1 := List.mem_of_mem_drop (List.mem_of_mem_take hw0)
      have h2 := (List.mem_filter.mp (hperm.mem_iff.mp h1)).2
      simpa [selectPublic] using h2

set_option maxRecDepth 100000 in
/-- C11, witness: with 120 requests of the caller, `page=2&limit=50` gives 50 documents,
`total` 120, `currentPage` 2 and `totalPages` 3, in both listings. -/
theorem listings_paginate_witness :
    (∃ items, getMyDepositRequests noFaults manyRequestsStore pageTwo = .json items 3 2 120
      ∧ items.length = 50)
    ∧ (∃ items, getMyWithdrawalRequests noFaults manyRequestsStore pageTwo
        = .json items 3 2 120 ∧ items.length = 50) := by
  obtain ⟨⟨o, items, hperm, -, hres, hlen, -, -, hc1, hc2⟩,
      ⟨o2, items2, hperm2, -, hres2, hlen2, -, -, hd1, hd2⟩⟩ :=
    listings_paginate manyRequestsStore pageTwo 2 50 rfl (by decide) (by decide) (by decide)
      (by decide)
  have hN : o.length = 120 := by
    rw [hperm.length_eq]
    decide
  have hN2 : o2.length = 120 := by
    rw [hperm2.length_eq]
    decide
  rw [hN] at hres hlen hc1 hc2
  rw [hN2] at hres2 hlen2 hd1 hd2
  have hT : ⌈((120 : Nat) : ℚ) / ((50 : Nat) : ℚ)⌉ = 3 := by
    push_cast at hc1 hc2 ⊢
    omega
  rw [hT] at hres hres2
  exact ⟨⟨items, hres, by simpa using hlen⟩, ⟨items2, hres2, by simpa using hlen2⟩⟩

/-! ## C12: the status filter of the two listings -/

/-- C12, the code at the failing input: user 1 has a deposit request and a withdrawal
request, both stored as `pending`, and `pending` equals `PENDING` ignoring letter case; with
`status=PENDING` the deposit listing returns the deposit request, but the withdrawal listing
answers 200 with no document at all. -/
theorem listings_status_filter_case :
    oneOfEachStore.depositRequests.map (fun d => (d.user, d.status)) = [(1, "pending")]
    ∧ oneOfEachStore.withdrawalRequests.map (fun w => (w.user, w.status)) = [(1, "pending")]
    ∧ eqIgnoreCase "pending" "PENDING" = true
    ∧ (getMyDepositRequests noFaults oneOfEachStore upperCasePending).items
        = [numberedDeposit 1]
    ∧ (getMyWithdrawalRequests noFaults oneOfEachStore upperCasePending).status = 200
    ∧ (getMyWithdrawalRequests noFaults oneOfEachStore upperCasePending).items = []
    ∧ (getMyWithdrawalRequests noFaults oneOfEachStore upperCasePending).total = 0 := by
  decide

/-! ## C13: ownership on cancel -/

/-- C13: when no stored withdrawal request has both the id of the route and the caller as
owner (the id does not exist, or every request of that id belongs to another user),
`cancelWithdrawalRequest` answers 404 `Çekim talebi bulunamadı`, whatever the status of such
a request, and the store is left exactly as it was (no balance, request or transaction
changes), also when a storage call fails. -/
theorem cancelWithdrawalRequest_not_owner (db : Store) (req : Request)
    (h : ∀ w ∈ db.withdrawalRequests, w.id = req.paramsId → w.user ≠ getUserId req) :
    (cancelWithdrawalRequest noFaults db req).1
        = { status := 404, message := .text "Çekim talebi bulunamadı" }
    ∧ ∀ faults, (cancelWithdrawalRequest faults db req).2 = db := by
  have hnone : db.findWithdrawalRequest req.paramsId (getUserId req) = none := by
    unfold Store.findWithdrawalRequest
    rw [List.find?_eq_none]
    intro w hw
    have := h w hw
    simp only [Bool.and_eq_true, decide_eq_true_eq, not_and]
    exact this
  have e : cancelWithdrawalRequest noFaults db req
      = ({ status := 404, message := .text "Çekim talebi bulunamadı" }, db) := by
    simp [cancelWithdrawalRequest, cancelWithdrawalRequestTry, hnone]
  refine ⟨by rw [e], ?_⟩
  intro faults
  rcases cancelWithdrawalRequest_faults faults db req with e1 | ⟨op, e1⟩
  · rw [e1, e]
  · rw [e1]

/-- C13, witness: user 2 tries to cancel the pending request 7 of user 1, and user 1 tries
to cancel a request id that does not exist. -/
theorem cancelWithdrawalRequest_not_owner_witness :
    ((cancelWithdrawalRequest noFaults pendingStore otherUserCancel).1
        = { status := 404, message := .text "Çekim talebi bulunamadı" }
      ∧ ∀ faults, (cancelWithdrawalRequest faults pendingStore otherUserCancel).2
          = pendingStore)
    ∧ ((cancelWithdrawalRequest noFaults pendingStore unknownIdCancel).1
        = { status := 404, message := .text "Çekim talebi bulunamadı" }
      ∧ ∀ faults, (cancelWithdrawalRequest faults pendingStore unknownIdCancel).2
          = pendingStore) :=
  ⟨cancelWithdrawalRequest_not_owner pendingStore otherUserCancel (by decide),
    cancelWithdrawalRequest_not_owner pendingStore unknownIdCancel (by decide)⟩

/-! ## C14: atomicity on error -/

/-- C14: for `createIbanDeposit`, `createWithdrawalRequest` and `cancelWithdrawalRequest`,
every input and every pattern of storage faults: the answer is the success status (201, 201,
200) or one of 400, 404, 500, and whenever it is not the success status the committed store
is identical to the store before the call. -/
theorem error_leaves_store (env : Env) (faults : Faults) (db : Store) (req : Request) :
    (((createIbanDeposit env faults db req).1.status = 201
        ∨ (((createIbanDeposit env faults db req).1.status = 400
            ∨ (createIbanDeposit env faults db req).1.status = 404
            ∨ (createIbanDeposit env faults db req).1.status = 500)
          ∧ (createIbanDeposit env faults db req).2 = db)))
    ∧ (((createWithdrawalRequest env faults db req).1.status = 201
        ∨ (((createWithdrawalRequest env faults db req).1.status = 400
            ∨ (createWithdrawalRequest env faults db req).1.status = 404
            ∨ (createWithdrawalRequest env faults db req).1.status = 500)
          ∧ (createWithdrawalRequest env faults db req).2 = db)))
    ∧ (((cancelWithdrawalRequest faults db req).1.status = 200
        ∨ (((cancelWithdrawalRequest faults db req).1.status = 400
            ∨ (cancelWithdrawalRequest faults db req).1.status = 404
            ∨ (cancelWithdrawalRequest faults db req).1.status = 500)
          ∧ (cancelWithdrawalRequest faults db req).2 = db))) := by
  refine ⟨?_, ?_, ?_⟩
  · rcases createIbanDeposit_faults env faults db req with e | ⟨op, e⟩
    · rw [e]
      rcases createIbanDeposit_cases env db req with ⟨h1, h2 | h2, _⟩ | ⟨user, _, _, _, h⟩
      · exact Or.inr ⟨Or.inl h2, h1⟩
      · exact Or.inr ⟨Or.inr (Or.inl h2), h1⟩
      · left; rw [h]; exact depositWrites_status env _ req _ _ user
    · rw [e]; exact Or.inr ⟨Or.inr (Or.inr rfl), rfl⟩
  · rcases createWithdrawalRequest_faults env faults db req with e | ⟨op, e⟩
    · rw [e]
      rcases createWithdrawalRequest_cases env db req with ⟨h1, h2 | h2⟩ | h
      · exact Or.inr ⟨Or.inl h2, h1⟩
      · exact Or.inr ⟨Or.inr (Or.inl h2), h1⟩
      · exact Or.inl h
    · rw [e]; exact Or.inr ⟨Or.inr (Or.inr rfl), rfl⟩
  · rcases cancelWithdrawalRequest_faults faults db req with e | ⟨op, e⟩
    · rw [e]
      rcases cancelWithdrawalRequest_cases db req with ⟨h1, h2 | h2⟩ | ⟨w, user, hw, hp, hu⟩
      · exact Or.inr ⟨Or.inl h2, h1⟩
      · exact Or.inr ⟨Or.inr (Or.inl h2), h1⟩
      · left; rw [cancelWithdrawalRequest_of_pending db req w user hw hp hu]
    · rw [e]; exact Or.inr ⟨Or.inr (Or.inr rfl), rfl⟩

/-! ## C15: precedence of the auto-approval policy -/

/-- C15: when `DEV_AUTO_APPROVE_IBAN_DEPOSITS` is defined with value `v`, auto-approval is
enabled exactly when `v` equals `true` ignoring letter case, whatever `NODE_ENV` is; when it
is undefined, auto-approval is enabled exactly when `NODE_ENV` is not `production`.  The
flag decides the deposit: the request created by `createIbanDeposit` is stored as
`approved` exactly when auto-approval is enabled, and as `pending` otherwise. -/
theorem autoApprove_precedence (env : Env) :
    (∀ v, env.DEV_AUTO_APPROVE_IBAN_DEPOSITS = some v →
      (autoApprove env = true ↔ eqIgnoreCase v "true" = true))
    ∧ (env.DEV_AUTO_APPROVE_IBAN_DEPOSITS = none →
      (autoApprove env = true ↔ env.NODE_ENV ≠ some "production"))
    ∧ (∀ db req d, (createIbanDeposit env noFaults db req).1.depositRequest = some d →
      (d.status = "approved" ↔ autoApprove env = true)
        ∧ (d.status = "pending" ↔ autoApprove env = false)) := by
  refine ⟨?_, ?_, ?_⟩
  · intro v hv
    have h : toLowerCase "true" = "true" := by decide
    simp [autoApprove, hv, isTrue, eqIgnoreCase, h]
  · intro hnone
    simp [autoApprove, hnone, autoApproveDefault]
  · intro db req d hd
    rcases createIbanDeposit_cases env db req with ⟨_, _, h3⟩ | ⟨user, _, _, _, h⟩
    · rw [h3] at hd; simp at hd
    · rw [h] at hd
      by_cases hauto : autoApprove env = true
      · rw [settle_depositWrites_auto env db req _ _ user hauto] at hd
        simp only [Option.some.injEq] at hd
        subst hd
        simp [depositRequestDoc, hauto]
      · have hauto' : autoApprove env = false := by simpa using hauto
        rw [settle_depositWrites_manual env db req _ _ user hauto'] at hd
        simp only [Option.some.injEq] at hd
        subst hd
        simp [depositRequestDoc, hauto']

/-- C15, witness: in production with the flag set to `TRUE` auto-approval is enabled and the
deposit of `sampleUser` is stored as `approved`; in production without the flag it is not. -/
theorem autoApprove_precedence_witness :
    autoApprove productionOverrideEnv = true
    ∧ autoApprove productionEnv = false
    ∧ (createIbanDeposit productionOverrideEnv noFaults sampleStore
        numericDeposit).2.depositRequests.map (fun d => d.status) = ["approved"] :=
  ⟨((autoApprove_precedence productionOverrideEnv).1 "TRUE" rfl).mpr (by decide),
    by
      have h := (autoApprove_precedence productionEnv).2.1 rfl
      cases hb : autoApprove productionEnv with
      | false => rfl
      | true => exact absurd rfl (h.mp hb),
    by decide⟩

/-! ## C16: the account status and withdrawals -/

/-- C16 (as amended): `createWithdrawalRequest` never answers 403 and does not look at the
account status.  For an existing user with saved IBAN details, whatever status `st` is
stored for that user (`self_excluded` and `banned` included), an amount that parses to a
positive number within the bounds and is covered by the balance is accepted with 201, the
balance is reduced by the amount, and one WithdrawalRequest and one Transaction are
created. -/
theorem createWithdrawalRequest_status_not_checked (env : Env) (db : Store) (req : Request)
    (user : User) (a lo hi : ℚ)
    (hu : db.findUserById (getUserId req) = some user)
    (hiban : strTruthy user.iban = true) (hholder : strTruthy user.ibanHolderName = true)
    (ha : parseFloat req.body.amount = .fin a) (hpos : 0 < a)
    (hlo : minWithdraw env = .fin lo) (hhi : maxWithdraw env = .fin hi)
    (h1 : lo ≤ a) (h2 : a ≤ hi)
    (hcov : (numOrZero user.balance).lt (.fin a) = false) :
    (∀ faults db1 req1, (createWithdrawalRequest env faults db1 req1).1.status ≠ 403)
    ∧ ∀ st : String,
      (createWithdrawalRequest env noFaults (db.saveUser { user with status := st })
          req).1.status = 201
      ∧ (createWithdrawalRequest env noFaults (db.saveUser { user with status := st })
          req).2.findUserById (getUserId req)
        = some { user with
            status := st, balance := some ((numOrZero user.balance).sub (.fin a)) }
      ∧ (createWithdrawalRequest env noFaults (db.saveUser { user with status := st })
          req).2.withdrawalRequests.length = db.withdrawalRequests.length + 1
      ∧ (createWithdrawalRequest env noFaults (db.saveUser { user with status := st })
          req).2.transactions.length = db.transactions.length + 1 := by
  constructor
  · intro faults db1 req1 h403
    rcases createWithdrawalRequest_faults env faults db1 req1 with e | ⟨op, e⟩
    · rw [e] at h403
      rcases createWithdrawalRequest_cases env db1 req1 with ⟨_, h | h⟩ | h <;>
        rw [h] at h403 <;> exact absurd h403 (by decide)
    · rw [e] at h403
      simp [errorResponse] at h403
  · intro st
    obtain ⟨g1, g2, g3, g4, g5⟩ := amount_guards req.body.amount a lo hi ha hpos h1 h2
    rw [← hlo] at g4
    rw [← hhi] at g5
    have huid := findUserById_id db _ user hu
    have hu1 : (db.saveUser { user with status := st }).findUserById (getUserId req)
        = some { user with status := st } :=
      findUserById_saveUser db _ user { user with status := st } hu huid
    have g8 : (numOrZero ({ user with status := st } : User).balance).lt
        (parseFloat req.body.amount) = false := by
      rw [ha]; exact hcov
    rw [createWithdrawalRequest_of_guards env noFaults _ req { user with status := st } rfl hu1
      g1 g2 g3 g4 g5 hiban hholder g8, settle_withdrawalWrites, ha]
    refine ⟨rfl, ?_, ?_, ?_⟩
    · exact findUserById_saveUser (db.saveUser { user with status := st }) (getUserId req)
        { user with status := st }
        (reservedUser { user with status := st } (.fin a)) hu1 huid
    · simp [Store.insertTransaction, Store.insertWithdrawalRequest, Store.saveUser]
    · simp [Store.insertTransaction, Store.insertWithdrawalRequest, Store.saveUser]

/-- C16, witness: the bounds are the defaults and `sampleUser`, once stored as `banned`,
still withdraws 200 out of 500. -/
theorem createWithdrawalRequest_status_not_checked_witness :
    (createWithdrawalRequest {} noFaults
        (sampleStore.saveUser { sampleUser with status := "banned" })
        sampleWithdrawal).1.status = 201
    ∧ ((createWithdrawalRequest {} noFaults
        (sampleStore.saveUser { sampleUser with status := "banned" })
        sampleWithdrawal).2.findUserById 1).map (fun u => (u.status, u.balance))
      = some ("banned", some (.fin 300)) := by
  obtain ⟨k1, k2, -, -⟩ :=
    (createWithdrawalRequest_status_not_checked {} sampleStore sampleWithdrawal sampleUser 200
      100 50000 (by decide) (by decide) (by decide) rfl (by decide) rfl rfl (by decide)
      (by decide) (by decide)).2 "banned"
  refine ⟨k1, ?_⟩
  have e : getUserId sampleWithdrawal = 1 := rfl
  rw [e] at k2
  rw [k2]
  simp [sampleUser, numOrZero, JsNum.truthy, JsNum.sub, JsNum.neg, JsNum.add]
  norm_num

/-- C16, counterexample to the claim as first stated: a user whose status is `banned`, with
saved IBAN details and a balance of 500, asks for 200; the answer is 201, not 403, and the
request and its transaction are created. -/
theorem createWithdrawalRequest_banned_counterexample :
    (bannedStore.findUserById 1).map (fun u => u.status) = some "banned"
    ∧ (createWithdrawalRequest {} noFaults bannedStore sampleWithdrawal).1.status = 201
    ∧ (createWithdrawalRequest {} noFaults bannedStore
        sampleWithdrawal).2.withdrawalRequests.length = 1
    ∧ (createWithdrawalRequest {} noFaults bannedStore
        sampleWithdrawal).2.transactions.length = 1 := by
  decide

/-! ## C17: balances never go below zero -/

/-- C17: start from any store in which every user's balance is at least 0 (and, as the data
model has it, no pending withdrawal request carries an amount below 0), with a finite upper
withdrawal bound configured.  After every sequence of `createIbanDeposit`,
`createWithdrawalRequest`, `cancelWithdrawalRequest` and `updateProfile` calls, each with any
request and any storage faults, succeeding or failing, every user's balance is at least 0
(and so is every pending amount). -/
theorem balances_stay_nonneg (env : Env) (hi : ℚ) (hmax : maxWithdraw env = .fin hi)
    (db : Store) (hbal : db.balancesNonneg = true) (hamt : db.pendingAmountsNonneg = true)
    (calls : List Call) :
    (runCalls env db calls).balancesNonneg = true
      ∧ (runCalls env db calls).pendingAmountsNonneg = true := by
  induction calls generalizing db with
  | nil => exact ⟨hbal, hamt⟩
  | cons c cs ih =>
    obtain ⟨h1, h2⟩ := runCall_nonneg env hi hmax db hbal hamt c
    exact ih (runCall env db c) h1 h2

/-- C17, witness: under the default bounds, a withdrawal, its cancellation, a deposit, a
profile update and a withdrawal above the balance, run one after the other on `sampleStore`,
where the only balance is 500. -/
theorem balances_stay_nonneg_witness :
    (runCalls {} sampleStore
        [.withdrawal noFaults sampleWithdrawal, .cancel noFaults sampleCancelCreated,
          .deposit noFaults numericDeposit, .profile noFaults plainIbanUpdate,
          .withdrawal noFaults largeWithdrawal]).balancesNonneg = true
    ∧ (runCalls {} sampleStore
        [.withdrawal noFaults sampleWithdrawal, .cancel noFaults sampleCancelCreated,
          .deposit noFaults numericDeposit, .profile noFaults plainIbanUpdate,
          .withdrawal noFaults largeWithdrawal]).pendingAmountsNonneg = true :=
  balances_stay_nonneg {} 50000 rfl sampleStore (by decide) (by decide) _

/-! ## C18: reservations are conserved up to rounding -/

/-- C18 (as amended): take any store whose amounts are finite numbers and whose withdrawal
requests have distinct identifiers.  For every user, the balance plus the amounts of that
user's pending withdrawal requests is the same after a `createWithdrawalRequest` call and
after a `cancelWithdrawalRequest` call as before it, whether the call succeeds or fails and
whatever the storage faults, provided the store the call leaves holds doubles without further
rounding, that is, the stored numbers were doubles and the one subtraction or addition of the
call was exact; under the same proviso a `createIbanDeposit` call that succeeds under
auto-approval raises the quantity of the caller by exactly the amount and leaves that of
every other user as it was. -/
theorem balancePlusPending_conserved (db : Store) (hfin : db.amountsFinite = true)
    (huniq : db.requestIdsUnique = true) :
    (∀ env faults req userId,
      (createWithdrawalRequest env faults db req).2.toDouble
        = (createWithdrawalRequest env faults db req).2 →
      balancePlusPending (createWithdrawalRequest env faults db req).2.toDouble userId
        = balancePlusPending db userId)
    ∧ (∀ faults req userId,
      (cancelWithdrawalRequest faults db req).2.toDouble
        = (cancelWithdrawalRequest faults db req).2 →
      balancePlusPending (cancelWithdrawalRequest faults db req).2.toDouble userId
        = balancePlusPending db userId)
    ∧ (∀ env faults req, autoApprove env = true →
      (createIbanDeposit env faults db req).1.status = 201 →
      (createIbanDeposit env faults db req).2.toDouble
        = (createIbanDeposit env faults db req).2 →
      balancePlusPending (createIbanDeposit env faults db req).2.toDouble (getUserId req)
          = (balancePlusPending db (getUserId req)).add (parseFloat req.body.amount)
        ∧ ∀ userId, userId ≠ getUserId req →
          balancePlusPending (createIbanDeposit env faults db req).2.toDouble userId
            = balancePlusPending db userId) := by
  obtain ⟨h1, h2, h3⟩ := balancePlusPending_exact db hfin huniq
  refine ⟨?_, ?_, ?_⟩
  · intro env faults req userId e
    rw [e]
    exact h1 env faults req userId
  · intro faults req userId e
    rw [e]
    exact h2 faults req userId
  · intro env faults req hauto h201 e
    rw [e]
    exact h3 env faults req hauto h201

/-- C18, witness: in `pendingStore`, where every number is a whole number, the caller asks
for a further withdrawal of 200 out of 500, or cancels the pending request of 200. -/
theorem balancePlusPending_conserved_witness :
    balancePlusPending
        (createWithdrawalRequest {} noFaults pendingStore sampleWithdrawal).2.toDouble 1
      = balancePlusPending pendingStore 1
    ∧ balancePlusPending (cancelWithdrawalRequest noFaults pendingStore sampleCancel).2.toDouble 1
      = balancePlusPending pendingStore 1 := by
  have hw : (createWithdrawalRequest {} noFaults pendingStore sampleWithdrawal).2.toDouble
      = (createWithdrawalRequest {} noFaults pendingStore sampleWithdrawal).2 := by
    rw [createWithdrawalRequest_of_guards {} noFaults pendingStore sampleWithdrawal sampleUser
      rfl rfl (by decide) (by decide) (by decide) (by decide) (by decide) (by decide)
      (by decide) (by decide), settle_withdrawalWrites]
    norm_num [Store.toDouble, Store.saveUser, Store.insertWithdrawalRequest,
      Store.insertTransaction, pendingStore, sampleUser, pendingRequest, paidRequest,
      pendingTransaction, sampleWithdrawal, reservedUser, withdrawalRequestDoc,
      withdrawalTransactionDoc, User.toDouble, WithdrawalRequest.toDouble,
      Transaction.toDouble, numOrZero, JsNum.truthy, JsNum.sub, JsNum.neg, JsNum.add, parseFloat,
      toDouble_200, toDouble_300, toDouble_1000]
  have hc : (cancelWithdrawalRequest noFaults pendingStore sampleCancel).2.toDouble
      = (cancelWithdrawalRequest noFaults pendingStore sampleCancel).2 := by
    rw [cancelWithdrawalRequest_of_pending pendingStore sampleCancel pendingRequest sampleUser
      rfl rfl rfl]
    norm_num [Store.toDouble, Store.saveUser, Store.saveWithdrawalRequest,
      Store.saveTransaction, Store.findWithdrawalTransaction, pendingStore, sampleUser,
      pendingRequest, paidRequest, pendingTransaction, sampleCancel, getUserId, refundedUser,
      cancelledRequest, cancelledTransaction, User.toDouble, WithdrawalRequest.toDouble,
      Transaction.toDouble, numOrZero, JsNum.truthy, JsNum.add, toDouble_200, toDouble_700,
      toDouble_1000]
  exact ⟨(balancePlusPending_conserved pendingStore (by decide) (by decide)).1 {} noFaults
      sampleWithdrawal 1 hw,
    (balancePlusPending_conserved pendingStore (by decide) (by decide)).2.1 noFaults
      sampleCancel 1 hc⟩

/-- C18, counterexample to the claim as first stated: `sampleUser` has a balance of 228.4 and
no pending request, and withdraws 100.2.  The call succeeds; before it the balance plus the
pending amounts is 228.4, after it the stored balance (the double nearest to `228.4 - 100.2`)
plus the pending 100.2, summed exactly, is below 228.4. -/
theorem balancePlusPending_rounding_counterexample :
    roundDouble (1142 / 5) = .fin double228_4
    ∧ roundDouble (501 / 5) = .fin double100_2
    ∧ fractionalStore.amountsFinite = true
    ∧ fractionalStore.requestIdsUnique = true
    ∧ (createWithdrawalRequest {} noFaults fractionalStore fractionalWithdrawal).1.status = 201
    ∧ balancePlusPending fractionalStore 1 = .fin double228_4
    ∧ balancePlusPending
        (createWithdrawalRequest {} noFaults fractionalStore fractionalWithdrawal).2.toDouble 1
      = .fin (16072221170178457 / 70368744177664)
    ∧ (16072221170178457 / 70368744177664 : ℚ) < double228_4 := by
  obtain ⟨g1, g2, g3, g4, g5, g8⟩ := fractional_guards
  have hu : fractionalStore.findUserById (getUserId fractionalWithdrawal)
      = some { sampleUser with balance := some (.fin double228_4) } := rfl
  have hresp := createWithdrawalRequest_of_guards {} noFaults fractionalStore
    fractionalWithdrawal _ rfl hu g1 g2 g3 g4 g5 rfl rfl g8
  rw [settle_withdrawalWrites] at hresp
  have hb : numOrZero (some (JsNum.fin double228_4)) = .fin double228_4 :=
    numOrZero_some _ rfl
  have ha : parseFloat fractionalWithdrawal.body.amount = .fin double100_2 := rfl
  refine ⟨double228_4_nearest, double100_2_nearest, by decide, by decide, by rw [hresp], ?_, ?_,
    by norm_num [double228_4]⟩
  · rw [balancePlusPending_eq fractionalStore 1 _ _ rfl rfl]
    simp [fractionalStore, sampleUser, hb, sumAmounts, JsNum.add]
  · rw [hresp]
    rw [balancePlusPending_eq _ 1
      [({ sampleUser with
          balance := some (((JsNum.fin double228_4).sub (.fin double100_2)).toDouble) } : User)]
      [(withdrawalRequestDoc 2 fractionalWithdrawal 1 (.fin double100_2)
          (reservedUser { sampleUser with balance := some (.fin double228_4) }
            (.fin double100_2)))]
      (by
        simp [Store.toDouble, Store.saveUser, Store.insertWithdrawalRequest,
          Store.insertTransaction, fractionalStore, sampleUser, reservedUser, User.toDouble, hb,
          ha, toDouble_1000])
      (by
        simp [Store.toDouble, Store.saveUser, Store.insertWithdrawalRequest,
          Store.insertTransaction, fractionalStore, WithdrawalRequest.toDouble,
          withdrawalRequestDoc, ha, double100_2_fixed]
        exact ⟨by decide, rfl⟩)]
    rw [double_sub_rounds]
    simp only [List.find?_cons, sampleUser, decide_True, Option.some_bind]
    rw [numOrZero_some (.fin (2255318250894131 / 17592186044416)) rfl]
    simp [withdrawalRequestDoc, sumAmounts, JsNum.add, double100_2]
    norm_num

/-! ## C20: what `updateProfile` writes -/

/-- C20: for every request, body and fault pattern, `updateProfile` reads nothing of the body
but the six fields `iban`, `ibanHolderName`, `bankName`, `phone`, `firstName`, `lastName`
(any further keys, such as `balance`, `totalDeposits`, `status` or `role`, change neither the
response nor the store); it leaves the deposit requests, the withdrawal requests and the
transactions as they were; and every stored user is found afterwards with the same id,
balance, totalDeposits and status, each of the six fields being the value of the body when
the call answers 200, the user is the caller and the body defines the field, and the stored
value in every other case. -/
theorem updateProfile_frame (faults : Faults) (db : Store) (req : Request) :
    (∀ extra, updateProfile faults db { req with body := { req.body with extra := extra } }
        = updateProfile faults db req)
    ∧ (updateProfile faults db req).2.depositRequests = db.depositRequests
    ∧ (updateProfile faults db req).2.withdrawalRequests = db.withdrawalRequests
    ∧ (updateProfile faults db req).2.transactions = db.transactions
    ∧ ∀ id u, db.findUserById id = some u →
        ∃ u1, (updateProfile faults db req).2.findUserById id = some u1
          ∧ u1.id = u.id ∧ u1.balance = u.balance ∧ u1.totalDeposits = u.totalDeposits
          ∧ u1.status = u.status
          ∧ u1.iban = (if (updateProfile faults db req).1.status = 200 ∧ id = getUserId req
              ∧ req.body.iban.isSome = true then req.body.iban else u.iban)
          ∧ u1.ibanHolderName = (if (updateProfile faults db req).1.status = 200
              ∧ id = getUserId req ∧ req.body.ibanHolderName.isSome = true
              then req.body.ibanHolderName else u.ibanHolderName)
          ∧ u1.bankName = (if (updateProfile faults db req).1.status = 200
              ∧ id = getUserId req ∧ req.body.bankName.isSome = true
              then req.body.bankName else u.bankName)
          ∧ u1.phone = (if (updateProfile faults db req).1.status = 200 ∧ id = getUserId req
              ∧ req.body.phone.isSome = true then req.body.phone else u.phone)
          ∧ u1.firstName = (if (updateProfile faults db req).1.status = 200
              ∧ id = getUserId req ∧ req.body.firstName.isSome = true
              then req.body.firstName else u.firstName)
          ∧ u1.lastName = (if (updateProfile faults db req).1.status = 200
              ∧ id = getUserId req ∧ req.body.lastName.isSome = true
              then req.body.lastName else u.lastName) := by
  refine ⟨fun extra => rfl, ?_, ?_, ?_, ?_⟩
  · rcases updateProfile_cases faults db req with ⟨e, -⟩ | ⟨u0, -, e⟩ <;>
      simp [e, Store.saveUser]
  · rcases updateProfile_cases faults db req with ⟨e, -⟩ | ⟨u0, -, e⟩ <;>
      simp [e, Store.saveUser]
  · rcases updateProfile_cases faults db req with ⟨e, -⟩ | ⟨u0, -, e⟩ <;>
      simp [e, Store.saveUser]
  · intro id u hu
    rcases updateProfile_cases faults db req with ⟨e, hne⟩ | ⟨u0, hu0, e⟩
    · rw [e]
      exact ⟨u, hu, rfl, rfl, rfl, rfl, by simp [hne], by simp [hne], by simp [hne],
        by simp [hne], by simp [hne], by simp [hne]⟩
    · rw [e]
      have huid := findUserById_id db _ u0 hu0
      by_cases hid : id = getUserId req
      · subst hid
        rw [hu0] at hu
        obtain rfl : u0 = u := by simpa using hu
        refine ⟨setAllowedFields req.body u0,
          findUserById_saveUser db _ u0 _ hu0 (show (setAllowedFields _ u0).id = _ from huid),
          rfl, rfl, rfl, rfl, ?_, ?_, ?_, ?_, ?_, ?_⟩ <;> simp [setAllowedFields]
      · have hne : (setAllowedFields req.body u0).id ≠ id := fun h => hid (h.symm.trans huid)
        refine ⟨u, ?_, rfl, rfl, rfl, rfl, by simp [hid], by simp [hid], by simp [hid],
          by simp [hid], by simp [hid], by simp [hid]⟩
        exact (find_users_replace_ne db.users id _ hne).trans hu

/-! ## C21: the audit update of a cancellation is best effort -/

/-- C21: let the caller, an existing user, cancel a pending withdrawal request of the caller
in a run without storage faults.  The answer is 200, the caller's balance is the old balance
plus the amount, the request is stored as `cancelled`, and no transaction is created.  When
no transaction refers to the request, the transactions are left exactly as they were.  When
one does (`tx` being the first that does; transaction identifiers are unique and a
transaction that refers to the request is logged under the owner of the request, as
`createWithdrawalRequest` logs it), `tx` is stored with status `cancelled` and the
description of a cancellation, and every other transaction is left as it was. -/
theorem cancelWithdrawalRequest_best_effort (db : Store) (req : Request)
    (w : WithdrawalRequest) (user : User)
    (hw : db.findWithdrawalRequest req.paramsId (getUserId req) = some w)
    (hp : w.status = "pending")
    (hu : db.findUserById (getUserId req) = some user) :
    (cancelWithdrawalRequest noFaults db req).1.status = 200
    ∧ (cancelWithdrawalRequest noFaults db req).2.findUserById (getUserId req)
        = some { user with balance := some ((numOrZero user.balance).add w.amount) }
    ∧ (cancelWithdrawalRequest noFaults db req).2.findWithdrawalRequest req.paramsId
          (getUserId req)
        = some { w with status := "cancelled", cancelledAt := some req.now }
    ∧ (cancelWithdrawalRequest noFaults db req).2.transactions.length
        = db.transactions.length
    ∧ ((∀ t ∈ db.transactions, t.metadata.withdrawalRequestId ≠ some w.id) →
        (cancelWithdrawalRequest noFaults db req).2.transactions = db.transactions)
    ∧ (∀ tx, (db.transactions.map (fun t => t.id)).Nodup →
        (∀ t ∈ db.transactions, t.metadata.withdrawalRequestId = some w.id →
          t.user = getUserId req) →
        db.transactions.find? (fun t => decide (t.metadata.withdrawalRequestId = some w.id))
          = some tx →
        (cancelWithdrawalRequest noFaults db req).2.transactions
          = db.transactions.map (fun t =>
              if t = tx then
                { tx with status := "cancelled", description := "Withdrawal cancelled by user" }
              else t)) := by
  have huid := findUserById_id db _ user hu
  obtain ⟨hwid, hwu⟩ := findWithdrawalRequest_spec db _ _ w hw
  refine ⟨?_, ?_, ?_, ?_, ?_, ?_⟩
  · rw [cancelWithdrawalRequest_of_pending db req w user hw hp hu]
  · show (cancelWithdrawalRequest noFaults db req).2.users.find? _ = _
    rw [cancel_users db req w user hw hp hu]
    exact find_users_replace db.users _ user (refundedUser user w) hu huid
  · show (cancelWithdrawalRequest noFaults db req).2.withdrawalRequests.find? _ = _
    rw [cancel_withdrawalRequests db req w user hw hp hu]
    exact find_requests_replace db.withdrawalRequests _ _ w (cancelledRequest w req.now) hw
      hwid hwu
  · rw [cancel_transactions db req w user hw hp hu]
    cases db.findWithdrawalTransaction (getUserId req) w.id <;> simp
  · intro hnone
    have e : db.findWithdrawalTransaction (getUserId req) w.id = none := by
      simp only [Store.findWithdrawalTransaction, List.find?_eq_none]
      intro t ht
      simp [hnone t ht]
    rw [cancel_transactions db req w user hw hp hu, e]
  · intro tx hn hown hfind
    have e : db.findWithdrawalTransaction (getUserId req) w.id = some tx := by
      rw [← hfind]
      apply find_congr_mem
      intro t ht
      by_cases hm : t.metadata.withdrawalRequestId = some w.id
      · simp [hm, hown t ht hm]
      · simp [hm]
    rw [cancel_transactions db req w user hw hp hu, e]
    exact map_replace_by_id db.transactions hn tx (cancelledTransaction tx)
      (List.mem_of_find?_eq_some hfind)

/-- C21, witness: `sampleUser` cancels request 7, once in a store where no transaction
refers to it and once in a store where transaction 9 does, next to the unrelated
transaction 10. -/
theorem cancelWithdrawalRequest_best_effort_witness :
    (cancelWithdrawalRequest noFaults unloggedStore sampleCancel).1.status = 200
    ∧ (cancelWithdrawalRequest noFaults unloggedStore sampleCancel).2.transactions = []
    ∧ (cancelWithdrawalRequest noFaults loggedStore sampleCancel).1.status = 200
    ∧ (cancelWithdrawalRequest noFaults loggedStore sampleCancel).2.transactions
        = [otherTransaction,
            { pendingTransaction with
              status := "cancelled", description := "Withdrawal cancelled by user" }] :=
  ⟨(cancelWithdrawalRequest_best_effort unloggedStore sampleCancel pendingRequest sampleUser
      rfl rfl rfl).1,
    (cancelWithdrawalRequest_best_effort unloggedStore sampleCancel pendingRequest sampleUser
      rfl rfl rfl).2.2.2.2.1 (by decide),
    (cancelWithdrawalRequest_best_effort loggedStore sampleCancel pendingRequest sampleUser
      rfl rfl rfl).1,
    (cancelWithdrawalRequest_best_effort loggedStore sampleCancel pendingRequest sampleUser
      rfl rfl rfl).2.2.2.2.2 pendingTransaction (by decide) (by decide) (by decide)⟩

/-! ## C22: the decision of `corsOptions.origin` -/

/-- C22: for every `NODE_ENV`, every list of allowed origins and every request origin,
`corsOptions.origin` calls back with an error if and only if `NODE_ENV` is `production`, the
list is not empty, the request carries an origin (a text that is not empty) and that origin
is not in the list; the error is always the CORS policy message.  A request without origin
is allowed, and so is every origin when `NODE_ENV` is not `production`, in the list or not.
With the list the module builds, production with neither `FRONTEND_URL` nor
`ALLOWED_ORIGINS` set allows every origin. -/
theorem corsOptions_origin_decision (env : ServerEnv) (allowed : List String)
    (origin : Option String) :
    ((∃ msg, corsOptions.origin env allowed origin = .error msg)
      ↔ env.NODE_ENV = some "production" ∧ allowed ≠ []
        ∧ ∃ o, origin = some o ∧ o ≠ "" ∧ o ∉ allowed)
    ∧ (∀ msg, corsOptions.origin env allowed origin = .error msg →
        msg = "The CORS policy for this site does not allow access from the specified Origin.")
    ∧ (corsOptions.origin env allowed none = .allow)
    ∧ (env.NODE_ENV ≠ some "production" → corsOptions.origin env allowed origin = .allow)
    ∧ (env.NODE_ENV = some "production" → strTruthy env.FRONTEND_URL = false →
        strTruthy env.ALLOWED_ORIGINS = false →
        corsOptions.origin env (allowedOrigins env) origin = .allow) := by
  refine ⟨⟨?_, ?_⟩, ?_, ?_, ?_, ?_⟩
  · rintro ⟨msg, h⟩
    rcases corsOptions_origin_cases env allowed origin with e | ⟨-, h1, h2, h3⟩
    · rw [e] at h; exact absurd h (by simp)
    · exact ⟨h1, h2, h3⟩
  · rintro ⟨hprod, hlen, o, rfl, ho, hin⟩
    exact ⟨"The CORS policy for this site does not allow access from the specified Origin.",
      by simp [corsOptions.origin, strTruthy, ho, hprod, hlen, hin]⟩
  · intro msg h
    rcases corsOptions_origin_cases env allowed origin with e | ⟨e, -⟩
    · rw [e] at h; exact absurd h (by simp)
    · rw [e] at h; injection h with h; exact h.symm
  · simp [corsOptions.origin, strTruthy]
  · intro hprod
    rcases corsOptions_origin_cases env allowed origin with e | ⟨-, h1, -⟩
    · exact e
    · exact absurd h1 hprod
  · intro hprod h1 h2
    have e : allowedOrigins env = [] := by
      simp [allowedOrigins, h1, h2, hprod]
    rcases corsOptions_origin_cases env (allowedOrigins env) origin with h | ⟨-, -, h, -⟩
    · exact h
    · exact absurd e h

end Garbet
